import Mathlib

/-!
# Beacon wearable: telemetry scheduler and ADPCM encoder

A shallow embedding of `DataScheduler.{h,cpp}` and `ADPCMCodec.{h,cpp}`.

* Machine integers are `Nat`/`Int` with the wrap-around written out at every
  store into a fixed-width variable (`uint16_t`, `uint32_t`, `int16_t`).
* A FreeRTOS queue handle is a bounded FIFO (`Queue`), `nullptr` is `none`.
* `millis()` readings are passed in by the caller of each operation, one
  argument per `millis()` call in the source.
* Serial logging has no effect on the state and is left out.
-/

set_option autoImplicit false

namespace Beacon

/-! ## Machine integer widths -/

/-- Number of values of a `uint32_t`. -/
def UINT32_MOD : Nat := 4294967296

/-- Number of values of a `uint16_t`. -/
def UINT16_MOD : Nat := 65536

/-- Number of values of a `uint8_t`. -/
def UINT8_MOD : Nat := 256

/-- Conversion of a mathematical integer to `int16_t` (two's complement wrap). -/
def wrap16 (x : Int) : Int := (x + 32768) % 65536 - 32768

/-! ## DataScheduler.h: packet types -/

/-- The `DataPriority` enum. -/
inductive DataPriority where
  | PRIORITY_CRITICAL
  | PRIORITY_HIGH
  | PRIORITY_NORMAL
deriving DecidableEq

/-- The `DataType` enum. -/
inductive DataType where
  | DATA_ALERT
  | DATA_HEART_RATE
  | DATA_AUDIO
deriving DecidableEq

/-- `#define MAX_ALERT_SIZE 32`. -/
def MAX_ALERT_SIZE : Nat := 32

/-- `#define MAX_HR_SIZE 4`. -/
def MAX_HR_SIZE : Nat := 4

/-- `#define MAX_AUDIO_SIZE 244`. -/
def MAX_AUDIO_SIZE : Nat := 244

/-- The `DataPacket` struct; `data` is the 244-byte payload array. -/
structure DataPacket where
  priority : DataPriority
  type : DataType
  timestamp : Nat
  dataSize : Nat
  data : List Nat
deriving DecidableEq

/-- The `DataPacket()` constructor: NORMAL/AUDIO, zero timestamp and size, zeroed payload. -/
def DataPacket.new : DataPacket :=
  { priority := DataPriority.PRIORITY_NORMAL
    type := DataType.DATA_AUDIO
    timestamp := 0
    dataSize := 0
    data := List.replicate MAX_AUDIO_SIZE 0 }

/-- `memcpy(dst, src, n)` on byte arrays: the first `n` bytes of `dst` become the
first `n` bytes of `src` (the caller guarantees `src` holds at least `n` bytes). -/
def memcpy (dst src : List Nat) (n : Nat) : List Nat :=
  src.take n ++ dst.drop n

/-- `strlen`: number of bytes before the first zero byte. -/
def strlen (s : List Nat) : Nat :=
  (s.takeWhile (fun b => b != 0)).length

/-! ## FreeRTOS queue primitives -/

/-- A FreeRTOS queue of `DataPacket` items: fixed length, FIFO contents (head first). -/
structure Queue where
  capacity : Nat
  items : List DataPacket
deriving DecidableEq

/-- `xQueueCreate(len, sizeof(DataPacket))`: `ok` says whether the allocation
succeeds; a zero-length queue is never created. -/
def xQueueCreate (ok : Bool) (len : Nat) : Option Queue :=
  if ok && decide (0 < len) then some { capacity := len, items := [] } else none

/-- `xQueueSend(q, &packet, 0)`: copies the packet to the back of the queue when
there is room, fails at once otherwise. A null handle fails. -/
def xQueueSend (q : Option Queue) (packet : DataPacket) : Bool × Option Queue :=
  match q with
  | none => (false, none)
  | some qu =>
    if qu.items.length < qu.capacity then
      (true, some { qu with items := qu.items ++ [packet] })
    else
      (false, some qu)

/-- `xQueueReceive(q, &packet, ticks)`: removes and returns the front item. With
no other task running, an empty queue is still empty when the wait of `ticks`
ends, so the call fails whatever `ticks` is. -/
def xQueueReceive (q : Option Queue) (_ticks : Nat) : Option DataPacket × Option Queue :=
  match q with
  | none => (none, none)
  | some qu =>
    match qu.items with
    | [] => (none, some qu)
    | p :: rest => (some p, some { qu with items := rest })

/-- `uxQueueMessagesWaiting(q)`. -/
def uxQueueMessagesWaiting (q : Option Queue) : Nat :=
  match q with
  | none => 0
  | some qu => qu.items.length

/-- `xQueueReset(q)`. -/
def xQueueReset (q : Option Queue) : Option Queue :=
  match q with
  | none => none
  | some qu => some { qu with items := [] }

/-- `pdMS_TO_TICKS(ms)` for a tick rate of `hz` ticks per second. -/
def pdMS_TO_TICKS (hz ms : Nat) : Nat := (ms * hz / 1000) % UINT32_MOD

/-! ## DataScheduler -/

/-- The private fields of `class DataScheduler`. -/
structure DataScheduler where
  criticalQueue : Option Queue
  highQueue : Option Queue
  normalQueue : Option Queue
  audioRateLimit : Nat
  lastAudioTransmitTime : Nat
  audioPacketsThisSecond : Nat
  audioRateLimitWindowStart : Nat
  droppedCriticalPackets : Nat
  droppedHighPackets : Nat
  droppedNormalPackets : Nat
  initialized : Bool
deriving DecidableEq

namespace DataScheduler

/-- The constructor `DataScheduler::DataScheduler()`. -/
def new : DataScheduler :=
  { criticalQueue := none
    highQueue := none
    normalQueue := none
    audioRateLimit := 30
    lastAudioTransmitTime := 0
    audioPacketsThisSecond := 0
    audioRateLimitWindowStart := 0
    droppedCriticalPackets := 0
    droppedHighPackets := 0
    droppedNormalPackets := 0
    initialized := false }

/-- `DataScheduler::begin`; `okC`, `okH`, `okN` say whether each `xQueueCreate`
allocation succeeds. Returns the result flag and the scheduler. -/
def begin (s : DataScheduler) (criticalQueueSize highQueueSize normalQueueSize : Nat)
    (okC okH okN : Bool) : Bool × DataScheduler :=
  let s1 := { s with criticalQueue := xQueueCreate okC criticalQueueSize }
  if s1.criticalQueue = none then (false, s1)
  else
    let s2 := { s1 with highQueue := xQueueCreate okH highQueueSize }
    if s2.highQueue = none then (false, s2)
    else
      let s3 := { s2 with normalQueue := xQueueCreate okN normalQueueSize }
      if s3.normalQueue = none then (false, s3)
      else (true, { s3 with initialized := true })

/-- `DataScheduler::canSendAudio`; `currentTime` is the `millis()` reading. -/
def canSendAudio (s : DataScheduler) (currentTime : Nat) : Bool × DataScheduler :=
  let s1 :=
    if (currentTime + UINT32_MOD - s.audioRateLimitWindowStart) % UINT32_MOD ≥ 1000 then
      { s with audioRateLimitWindowStart := currentTime, audioPacketsThisSecond := 0 }
    else s
  (decide (s1.audioPacketsThisSecond < s1.audioRateLimit), s1)

/-- `DataScheduler::setAudioRateLimit`. -/
def setAudioRateLimit (s : DataScheduler) (maxAudioPacketsPerSecond : Nat) : DataScheduler :=
  { s with audioRateLimit := maxAudioPacketsPerSecond }

/-- The packet `enqueueAlert` builds from the message and the `millis()` reading. -/
def alertPacket (alertMessage : List Nat) (now : Nat) : DataPacket :=
  let p0 := DataPacket.new
  let size := min (strlen alertMessage) (MAX_ALERT_SIZE - 1)
  let p1 := { p0 with priority := DataPriority.PRIORITY_CRITICAL, type := DataType.DATA_ALERT,
                      timestamp := now, dataSize := size }
  let p2 := { p1 with data := memcpy p1.data alertMessage p1.dataSize }
  { p2 with data := p2.data.set p2.dataSize 0 }

/-- `DataScheduler::enqueueAlert`. -/
def enqueueAlert (s : DataScheduler) (alertMessage : List Nat) (now : Nat) :
    Bool × DataScheduler :=
  if !s.initialized then (false, s)
  else
    let packet := alertPacket alertMessage now
    match xQueueSend s.criticalQueue packet with
    | (false, q) =>
      (false, { s with criticalQueue := q,
                       droppedCriticalPackets := (s.droppedCriticalPackets + 1) % UINT32_MOD })
    | (true, q) => (true, { s with criticalQueue := q })

/-- The packet `enqueueHeartRate` builds. -/
def heartRatePacket (hr : Nat) (now : Nat) : DataPacket :=
  let p0 := DataPacket.new
  let p1 := { p0 with priority := DataPriority.PRIORITY_HIGH, type := DataType.DATA_HEART_RATE,
                      timestamp := now, dataSize := 1 }
  { p1 with data := p1.data.set 0 hr }

/-- `DataScheduler::enqueueHeartRate`. -/
def enqueueHeartRate (s : DataScheduler) (hr : Nat) (now : Nat) : Bool × DataScheduler :=
  if !s.initialized then (false, s)
  else
    let packet := heartRatePacket hr now
    match xQueueSend s.highQueue packet with
    | (false, q) =>
      (false, { s with highQueue := q,
                       droppedHighPackets := (s.droppedHighPackets + 1) % UINT32_MOD })
    | (true, q) => (true, { s with highQueue := q })

/-- The packet `enqueueAudio` builds. -/
def audioPacket (audioData : List Nat) (size : Nat) (now : Nat) : DataPacket :=
  let p0 := DataPacket.new
  let p1 := { p0 with priority := DataPriority.PRIORITY_NORMAL, type := DataType.DATA_AUDIO,
                      timestamp := now, dataSize := min size MAX_AUDIO_SIZE }
  { p1 with data := memcpy p1.data audioData p1.dataSize }

/-- `DataScheduler::enqueueAudio`; `tCheck`, `tStamp`, `tSent` are the three
`millis()` readings, in the order the source takes them. -/
def enqueueAudio (s : DataScheduler) (audioData : List Nat) (size : Nat)
    (tCheck tStamp tSent : Nat) : Bool × DataScheduler :=
  if !s.initialized then (false, s)
  else
    match canSendAudio s tCheck with
    | (false, s1) => (false, s1)
    | (true, s1) =>
      let packet := audioPacket audioData size tStamp
      match xQueueSend s1.normalQueue packet with
      | (false, q) =>
        (false, { s1 with normalQueue := q,
                          droppedNormalPackets := (s1.droppedNormalPackets + 1) % UINT32_MOD })
      | (true, q) =>
        (true, { s1 with normalQueue := q,
                         lastAudioTransmitTime := tSent,
                         audioPacketsThisSecond := (s1.audioPacketsThisSecond + 1) % UINT16_MOD })

/-- `DataScheduler::getNextPacket`; `hz` is the tick rate used by `pdMS_TO_TICKS`.
The result is the packet written to the output parameter (`none` when the call
returns `false` and leaves it untouched) and the scheduler afterwards. -/
def getNextPacket (s : DataScheduler) (timeoutMs : Nat) (hz : Nat) :
    Option DataPacket × DataScheduler :=
  if !s.initialized then (none, s)
  else
    let timeout := if timeoutMs = 0 then 0 else pdMS_TO_TICKS hz timeoutMs
    match xQueueReceive s.criticalQueue 0 with
    | (some p, q) => (some p, { s with criticalQueue := q })
    | (none, qc) =>
      let s1 := { s with criticalQueue := qc }
      match xQueueReceive s1.highQueue 0 with
      | (some p, q) => (some p, { s1 with highQueue := q })
      | (none, qh) =>
        let s2 := { s1 with highQueue := qh }
        match xQueueReceive s2.normalQueue timeout with
        | (some p, q) => (some p, { s2 with normalQueue := q })
        | (none, qn) => (none, { s2 with normalQueue := qn })

/-- `DataScheduler::hasPackets`. -/
def hasPackets (s : DataScheduler) : Bool :=
  if !s.initialized then false
  else
    decide (uxQueueMessagesWaiting s.criticalQueue > 0) ||
    decide (uxQueueMessagesWaiting s.highQueue > 0) ||
    decide (uxQueueMessagesWaiting s.normalQueue > 0)

/-- `DataScheduler::getCriticalQueueCount`. -/
def getCriticalQueueCount (s : DataScheduler) : Nat :=
  if !s.initialized then 0 else uxQueueMessagesWaiting s.criticalQueue

/-- `DataScheduler::getHighQueueCount`. -/
def getHighQueueCount (s : DataScheduler) : Nat :=
  if !s.initialized then 0 else uxQueueMessagesWaiting s.highQueue

/-- `DataScheduler::getNormalQueueCount`. -/
def getNormalQueueCount (s : DataScheduler) : Nat :=
  if !s.initialized then 0 else uxQueueMessagesWaiting s.normalQueue

/-- `DataScheduler::clearAllQueues`. -/
def clearAllQueues (s : DataScheduler) : DataScheduler :=
  if !s.initialized then s
  else
    { s with criticalQueue := xQueueReset s.criticalQueue
             highQueue := xQueueReset s.highQueue
             normalQueue := xQueueReset s.normalQueue }

end DataScheduler

/-! ## ADPCMCodec -/

/-- The `ADPCMState` struct; both fields are `int16_t`. -/
structure ADPCMState where
  predictedSample : Int
  stepIndex : Int
deriving DecidableEq

/-- The constructor `ADPCMState()`. -/
def ADPCMState.new : ADPCMState :=
  { predictedSample := 0, stepIndex := 0 }

/-- `ADPCMState::reset`. -/
def ADPCMState.reset (_st : ADPCMState) : ADPCMState :=
  { predictedSample := 0, stepIndex := 0 }

/-- `ADPCMCodec::stepSizeTable`, 89 entries. -/
def stepSizeTable : List Int :=
  [7, 8, 9, 10, 11, 12, 13, 14, 16, 17,
   19, 21, 23, 25, 28, 31, 34, 37, 41, 45,
   50, 55, 60, 66, 73, 80, 88, 97, 107, 118,
   130, 143, 157, 173, 190, 209, 230, 253, 279, 307,
   337, 371, 408, 449, 494, 544, 598, 658, 724, 796,
   876, 963, 1060, 1166, 1282, 1411, 1552, 1707, 1878, 2066,
   2272, 2499, 2749, 3024, 3327, 3660, 4026, 4428, 4871, 5358,
   5894, 6484, 7132, 7845, 8630, 9493, 10442, 11487, 12635, 13899,
   15289, 16818, 18500, 20350, 22385, 24623, 27086, 29794, 32767]

/-- `ADPCMCodec::indexTable`, 16 entries. -/
def indexTable : List Int :=
  [-1, -1, -1, -1, 2, 4, 6, 8,
   -1, -1, -1, -1, 2, 4, 6, 8]

/-- The read `stepSizeTable[i]` for an `int16_t` index; `none` outside the array. -/
def stepSizeAt (i : Int) : Option Int :=
  if 0 ≤ i then stepSizeTable[i.toNat]? else none

/-- The read `indexTable[code]` for a `uint8_t` code; `none` outside the array. -/
def indexAt (code : Nat) : Option Int :=
  indexTable[code]?

/-- The `ADPCMCodec` class: its one data member. -/
structure ADPCMCodec where
  encoderState : ADPCMState
deriving DecidableEq

namespace ADPCMCodec

/-- `ADPCMCodec::resetEncoder`. -/
def resetEncoder (c : ADPCMCodec) : ADPCMCodec :=
  { c with encoderState := c.encoderState.reset }

/-- The constructor `ADPCMCodec::ADPCMCodec()`: default-constructs the state, then
calls `resetEncoder()`. -/
def new : ADPCMCodec :=
  resetEncoder { encoderState := ADPCMState.new }

/-- `ADPCMCodec::getState`: the two output parameters. -/
def getState (c : ADPCMCodec) : Int × Int :=
  (c.encoderState.predictedSample, c.encoderState.stepIndex)

/-- `ADPCMCodec::setState`. -/
def setState (c : ADPCMCodec) (predictedSample stepIndex : Int) : ADPCMCodec :=
  { c with encoderState := { predictedSample := predictedSample, stepIndex := stepIndex } }

/-- `ADPCMCodec::encodeSample`. `diff`, `stepSize` and `delta` are `int16_t`
locals and `code` is a `uint8_t`; every store of a computed value into an
`int16_t` goes through `wrap16`, and `x >> k` on the (positive) step size is
`x / 2^k`. The result is `none` when a table read is out of bounds. -/
def encodeSample (c : ADPCMCodec) (sample : Int) : Option (Nat × ADPCMCodec) :=
  let st := c.encoderState
  let diff0 := wrap16 (sample - st.predictedSample)
  -- Store sign bit
  let code0 : Nat := if diff0 < 0 then 8 else 0
  let diff1 := if diff0 < 0 then wrap16 (-diff0) else diff0
  -- Quantize the difference using current step size
  match stepSizeAt st.stepIndex with
  | none => none
  | some stepSize0 =>
    -- Bit 2
    let code1 := if diff1 ≥ stepSize0 then code0 ||| 4 else code0
    let diff2 := if diff1 ≥ stepSize0 then wrap16 (diff1 - stepSize0) else diff1
    let stepSize1 := stepSize0 / 2
    -- Bit 1
    let code2 := if diff2 ≥ stepSize1 then code1 ||| 2 else code1
    let diff3 := if diff2 ≥ stepSize1 then wrap16 (diff2 - stepSize1) else diff2
    let stepSize2 := stepSize1 / 2
    -- Bit 0
    let code := if diff3 ≥ stepSize2 then code2 ||| 1 else code2
    -- Reconstruct the quantized difference
    match stepSizeAt st.stepIndex with
    | none => none
    | some stepSize =>
      let delta0 := stepSize / 8
      let delta1 := if code &&& 4 ≠ 0 then wrap16 (delta0 + stepSize) else delta0
      let delta2 := if code &&& 2 ≠ 0 then wrap16 (delta1 + stepSize / 2) else delta1
      let delta := if code &&& 1 ≠ 0 then wrap16 (delta2 + stepSize / 4) else delta2
      -- Update predicted sample
      let pred0 :=
        if code &&& 8 ≠ 0 then wrap16 (st.predictedSample - delta)
        else wrap16 (st.predictedSample + delta)
      -- Clamp predicted sample to 16-bit range
      let pred := if pred0 > 32767 then 32767 else if pred0 < -32768 then -32768 else pred0
      -- Update step index
      match indexAt code with
      | none => none
      | some adj =>
        let idx0 := wrap16 (st.stepIndex + adj)
        -- Clamp step index to valid range (0-88)
        let idx := if idx0 < 0 then 0 else if idx0 > 88 then 88 else idx0
        some (code, { c with encoderState := { predictedSample := pred, stepIndex := idx } })

/-- The variables of the loop in `encode`: the codec, `outputIndex`, `packedByte`
and the bytes stored so far. Every store is `adpcmOutput[outputIndex++] = b`
with `outputIndex` starting at 0, so the bytes are kept in index order. -/
structure EncodeLoop where
  codec : ADPCMCodec
  outputIndex : Nat
  packedByte : Nat
  adpcmOutput : List Nat
deriving DecidableEq

/-- One iteration of the loop in `encode`, for loop index `i`. -/
def encodeStep (i : Nat) (sample : Int) (l : EncodeLoop) : Option EncodeLoop :=
  match l.codec.encodeSample sample with
  | none => none
  | some (adpcmCode, c) =>
    if i % 2 = 0 then
      -- First sample: store in lower nibble
      some { l with codec := c, packedByte := adpcmCode &&& 0x0F }
    else
      -- Second sample: store in upper nibble and write byte
      let packedByte := (l.packedByte ||| (adpcmCode <<< 4)) % UINT8_MOD
      some { codec := c
             outputIndex := l.outputIndex + 1
             packedByte := 0
             adpcmOutput := l.adpcmOutput ++ [packedByte] }

/-- The loop of `encode` from index `i` over the remaining samples. -/
def encodeLoop : Nat → List Int → EncodeLoop → Option EncodeLoop
  | _, [], l => some l
  | i, x :: xs, l =>
    match encodeStep i x l with
    | none => none
    | some l1 => encodeLoop (i + 1) xs l1

/-- `ADPCMCodec::encode`: the return value, the bytes stored into `adpcmOutput`
(indices 0 upward) and the codec afterwards. -/
def encode (c : ADPCMCodec) (pcmSamples : List Int) : Option (Nat × List Nat × ADPCMCodec) :=
  match encodeLoop 0 pcmSamples { codec := c, outputIndex := 0, packedByte := 0, adpcmOutput := [] } with
  | none => none
  | some l =>
    -- Handle odd number of samples
    if pcmSamples.length % 2 ≠ 0 then
      some (l.outputIndex + 1, l.adpcmOutput ++ [l.packedByte], l.codec)
    else
      some (l.outputIndex, l.adpcmOutput, l.codec)

/-- The 4-bit codes `encodeSample` emits for the samples in order, and the codec
afterwards. -/
def codeSeq : ADPCMCodec → List Int → Option (List Nat × ADPCMCodec)
  | c, [] => some ([], c)
  | c, x :: xs =>
    match c.encodeSample x with
    | none => none
    | some (code, c1) =>
      match codeSeq c1 xs with
      | none => none
      | some (cs, c2) => some (code :: cs, c2)

/-- The code that the quantization half of `encodeSample` computes (sign bit and
the three bit-plane tests) for a sample, the current prediction and the step size. -/
def quantize (sample predicted stepSize0 : Int) : Nat :=
  let diff0 := wrap16 (sample - predicted)
  let code0 : Nat := if diff0 < 0 then 8 else 0
  let diff1 := if diff0 < 0 then wrap16 (-diff0) else diff0
  let code1 := if diff1 ≥ stepSize0 then code0 ||| 4 else code0
  let diff2 := if diff1 ≥ stepSize0 then wrap16 (diff1 - stepSize0) else diff1
  let stepSize1 := stepSize0 / 2
  let code2 := if diff2 ≥ stepSize1 then code1 ||| 2 else code1
  let diff3 := if diff2 ≥ stepSize1 then wrap16 (diff2 - stepSize1) else diff2
  let stepSize2 := stepSize1 / 2
  if diff3 ≥ stepSize2 then code2 ||| 1 else code2

/-- A decoder step: the reconstruction half of `encodeSample` (delta, predictor
update and clamp, step-index update and clamp) replayed from a received code. -/
def decodeStep (st : ADPCMState) (code : Nat) : Option ADPCMState :=
  match stepSizeAt st.stepIndex with
  | none => none
  | some stepSize =>
    let delta0 := stepSize / 8
    let delta1 := if code &&& 4 ≠ 0 then wrap16 (delta0 + stepSize) else delta0
    let delta2 := if code &&& 2 ≠ 0 then wrap16 (delta1 + stepSize / 2) else delta1
    let delta := if code &&& 1 ≠ 0 then wrap16 (delta2 + stepSize / 4) else delta2
    let pred0 :=
      if code &&& 8 ≠ 0 then wrap16 (st.predictedSample - delta)
      else wrap16 (st.predictedSample + delta)
    let pred := if pred0 > 32767 then 32767 else if pred0 < -32768 then -32768 else pred0
    match indexAt code with
    | none => none
    | some adj =>
      let idx0 := wrap16 (st.stepIndex + adj)
      let idx := if idx0 < 0 then 0 else if idx0 > 88 then 88 else idx0
      some { predictedSample := pred, stepIndex := idx }

/-- A decoder that replays `decodeStep` over the received codes. -/
def decodeAll : ADPCMState → List Nat → Option ADPCMState
  | st, [] => some st
  | st, code :: cs =>
    match decodeStep st code with
    | none => none
    | some st1 => decodeAll st1 cs

/-- The bytes the loop of `encode` stores for a run of codes that starts at an
even loop index: one byte per completed pair. -/
def packPairs : List Nat → List Nat
  | a :: b :: rest => (((a &&& 0x0F) ||| (b <<< 4)) % UINT8_MOD) :: packPairs rest
  | _ => []

/-- The value of `packedByte` after a run of codes that starts at an even loop
index, given its value `pb` before the run. -/
def pendingNibble : Nat → List Nat → Nat
  | pb, [] => pb
  | _, [a] => a &&& 0x0F
  | _, _ :: _ :: rest => pendingNibble 0 rest

/-- Consecutive `encode` calls on one codec, one per chunk: the bytes of every
call and the codec afterwards. -/
def encodeChunks : ADPCMCodec → List (List Int) → Option (List (List Nat) × ADPCMCodec)
  | c, [] => some ([], c)
  | c, chunk :: chunks =>
    match c.encode chunk with
    | none => none
    | some (_, out, c1) =>
      match encodeChunks c1 chunks with
      | none => none
      | some (outs, c2) => some (out :: outs, c2)

/-- Both state fields hold valid values: `stepIndex` indexes the step table and
`predictedSample` is a 16-bit value. -/
def InRange (c : ADPCMCodec) : Prop :=
  0 ≤ c.encoderState.stepIndex ∧ c.encoderState.stepIndex ≤ 88 ∧
    -32768 ≤ c.encoderState.predictedSample ∧ c.encoderState.predictedSample ≤ 32767

instance (c : ADPCMCodec) : Decidable (InRange c) := by
  unfold InRange
  infer_instance

end ADPCMCodec

/-- One call on the codec's public interface. -/
inductive CodecCall where
  | encode (pcmSamples : List Int)
  | setState (predictedSample stepIndex : Int)
  | resetEncoder

/-- Performs the calls in order; `none` when an `encode` reads outside a table. -/
def runCodecCalls : List CodecCall → ADPCMCodec → Option ADPCMCodec
  | [], c => some c
  | CodecCall.encode xs :: rest, c =>
    match c.encode xs with
    | none => none
    | some (_, _, c1) => runCodecCalls rest c1
  | CodecCall.setState p i :: rest, c => runCodecCalls rest (c.setState p i)
  | CodecCall.resetEncoder :: rest, c => runCodecCalls rest c.resetEncoder

/-- Saturation of `x` to the interval from `lo` to `hi`. -/
def clamp (x lo hi : Int) : Int :=
  if x < lo then lo else if x > hi then hi else x

/-- The step-index adjustment for a 3-bit magnitude: -1 for 0..3, then 2, 4, 6, 8. -/
def indexDelta (m : Nat) : Int :=
  [-1, -1, -1, -1, 2, 4, 6, 8].getD m 0

/-- The reconstructed difference over unbounded integers for step size `s` and
a code: `s/8`, plus `s` for bit 2, `s/2` for bit 1, `s/4` for bit 0. -/
def idealDelta (s : Int) (code : Nat) : Int :=
  s / 8 + (if code &&& 4 ≠ 0 then s else 0) + (if code &&& 2 ≠ 0 then s / 2 else 0) +
    (if code &&& 1 ≠ 0 then s / 4 else 0)

/-! ## Producer calls and draining -/

/-- One producer call on the scheduler, with its arguments and `millis()` readings. -/
inductive EnqueueCall where
  | alert (alertMessage : List Nat) (now : Nat)
  | heartRate (hr : Nat) (now : Nat)
  | audio (audioData : List Nat) (size : Nat) (tCheck tStamp tSent : Nat)

/-- Performs one producer call. -/
def EnqueueCall.run (s : DataScheduler) : EnqueueCall → Bool × DataScheduler
  | EnqueueCall.alert m t => s.enqueueAlert m t
  | EnqueueCall.heartRate hr t => s.enqueueHeartRate hr t
  | EnqueueCall.audio d n t1 t2 t3 => s.enqueueAudio d n t1 t2 t3

/-- Performs the calls in order and records each call with its return value. -/
def runCalls : List EnqueueCall → DataScheduler → List (EnqueueCall × Bool) × DataScheduler
  | [], s => ([], s)
  | c :: cs, s =>
    let r := c.run s
    let rest := runCalls cs r.2
    ((c, r.1) :: rest.1, rest.2)

/-- The alert packets of the calls that returned `true`, in call order. -/
def admittedAlerts : List (EnqueueCall × Bool) → List DataPacket
  | [] => []
  | (EnqueueCall.alert m t, true) :: tr => DataScheduler.alertPacket m t :: admittedAlerts tr
  | _ :: tr => admittedAlerts tr

/-- The heart-rate packets of the calls that returned `true`, in call order. -/
def admittedHeartRates : List (EnqueueCall × Bool) → List DataPacket
  | [] => []
  | (EnqueueCall.heartRate hr t, true) :: tr =>
    DataScheduler.heartRatePacket hr t :: admittedHeartRates tr
  | _ :: tr => admittedHeartRates tr

/-- The audio packets of the calls that returned `true`, in call order. -/
def admittedAudio : List (EnqueueCall × Bool) → List DataPacket
  | [] => []
  | (EnqueueCall.audio d n _ t2 _, true) :: tr =>
    DataScheduler.audioPacket d n t2 :: admittedAudio tr
  | _ :: tr => admittedAudio tr

/-- The consumer loop: calls `getNextPacket(packet, 0)` until it returns `false`,
at most `fuel` times, collecting the packets handed out. -/
def drain (hz : Nat) : Nat → DataScheduler → List DataPacket × DataScheduler
  | 0, s => ([], s)
  | fuel + 1, s =>
    match s.getNextPacket 0 hz with
    | (some p, s1) =>
      let rest := drain hz fuel s1
      (p :: rest.1, rest.2)
    | (none, s1) => ([], s1)

/-- The packets waiting in a queue, oldest first. -/
def queueItems (q : Option Queue) : List DataPacket :=
  match q with
  | none => []
  | some qu => qu.items

/-- The state `begin` leaves on success: flag set and three live queue handles. -/
def Ready (s : DataScheduler) : Prop :=
  s.initialized = true ∧ s.criticalQueue.isSome = true ∧ s.highQueue.isSome = true ∧
    s.normalQueue.isSome = true

instance (s : DataScheduler) : Decidable (Ready s) := by
  unfold Ready
  infer_instance

/-- The length a queue was created with. -/
def queueCapacity (q : Option Queue) : Nat :=
  match q with
  | none => 0
  | some qu => qu.capacity

/-- Consecutive `enqueueAlert` calls, one per (message, `millis()` reading) pair. -/
def alertCalls (msgs : List (List Nat × Nat)) : List EnqueueCall :=
  msgs.map (fun x => EnqueueCall.alert x.1 x.2)

/-- Consecutive `enqueueHeartRate` calls, one per (bpm, `millis()` reading) pair. -/
def heartRateCalls (hrs : List (Nat × Nat)) : List EnqueueCall :=
  hrs.map (fun x => EnqueueCall.heartRate x.1 x.2)

/-- The return values of the calls, in call order. -/
def results (calls : List EnqueueCall) (s : DataScheduler) : List Bool :=
  (runCalls calls s).1.map Prod.snd

/-- A scheduler whose CRITICAL drop counter stands at the largest `uint32_t`
value, with an empty CRITICAL queue of capacity 1. -/
def saturatedCounterScheduler : DataScheduler :=
  { criticalQueue := some { capacity := 1, items := [] }
    highQueue := some { capacity := 10, items := [] }
    normalQueue := some { capacity := 20, items := [] }
    audioRateLimit := 30
    lastAudioTransmitTime := 0
    audioPacketsThisSecond := 0
    audioRateLimitWindowStart := 0
    droppedCriticalPackets := 4294967295
    droppedHighPackets := 0
    droppedNormalPackets := 0
    initialized := true }

/-! ## Audio rate gate: calls and windows -/

/-- One `enqueueAudio` call: its arguments and its three `millis()` readings. -/
structure AudioCall where
  audioData : List Nat
  size : Nat
  tCheck : Nat
  tStamp : Nat
  tSent : Nat

/-- Consecutive `enqueueAudio` calls. -/
def audioCalls (xs : List AudioCall) : List EnqueueCall :=
  xs.map (fun x => EnqueueCall.audio x.audioData x.size x.tCheck x.tStamp x.tSent)

/-- The window test of `canSendAudio`: `currentTime - windowStart >= 1000` in
`uint32_t` arithmetic. -/
def windowExpired (windowStart currentTime : Nat) : Prop :=
  (currentTime + UINT32_MOD - windowStart) % UINT32_MOD ≥ 1000

instance (windowStart currentTime : Nat) : Decidable (windowExpired windowStart currentTime) := by
  unfold windowExpired
  infer_instance

/-- The number of successful `enqueueAudio` calls of a trace whose admission
check was made at a clock time in the interval from `a` to `a + 999`. -/
def successesWithin (a : Nat) : List (EnqueueCall × Bool) → Nat
  | [] => 0
  | (EnqueueCall.audio _ _ t _ _, true) :: tr =>
    (if a ≤ t ∧ t < a + 1000 then 1 else 0) + successesWithin a tr
  | _ :: tr => successesWithin a tr

/-- One call on the scheduler's public interface that can change its state. -/
inductive SchedulerCall where
  | enqueue (c : EnqueueCall)
  | getNextPacket (timeoutMs hz : Nat)
  | clearAllQueues
  | setAudioRateLimit (maxAudioPacketsPerSecond : Nat)
  | canSendAudio (currentTime : Nat)

/-- The scheduler after one call. -/
def SchedulerCall.run (s : DataScheduler) : SchedulerCall → DataScheduler
  | SchedulerCall.enqueue c => (c.run s).2
  | SchedulerCall.getNextPacket timeoutMs hz => (s.getNextPacket timeoutMs hz).2
  | SchedulerCall.clearAllQueues => s.clearAllQueues
  | SchedulerCall.setAudioRateLimit n => s.setAudioRateLimit n
  | SchedulerCall.canSendAudio t => (s.canSendAudio t).2

/-- A scheduler whose NORMAL drop counter stands at the largest `uint32_t`
value and whose NORMAL queue, of capacity 1, is full. -/
def saturatedNormalScheduler : DataScheduler :=
  { criticalQueue := some { capacity := 10, items := [] }
    highQueue := some { capacity := 10, items := [] }
    normalQueue := some { capacity := 1, items := [DataScheduler.audioPacket [1, 2] 2 0] }
    audioRateLimit := 30
    lastAudioTransmitTime := 0
    audioPacketsThisSecond := 1
    audioRateLimitWindowStart := 0
    droppedCriticalPackets := 0
    droppedHighPackets := 0
    droppedNormalPackets := 4294967295
    initialized := true }

/-- The three cumulative drop counters (CRITICAL, HIGH, NORMAL). -/
def dropCounters (s : DataScheduler) : Nat × Nat × Nat :=
  (s.droppedCriticalPackets, s.droppedHighPackets, s.droppedNormalPackets)

/-! ## ADPCMCodec.cpp: voice-activity helpers -/

/-- Conversion of a mathematical integer to `int32_t` (two's complement wrap). -/
def wrap32 (x : Int) : Int := (x + 2147483648) % 4294967296 - 2147483648

/-- `calculateRMS(samples, count)` for the window of `count` samples. The
accumulator `sum` is an `int32_t` (every store wraps); `sum / count` divides by a
`size_t`, which is 32 bits wide on the ESP32-C3, so the division is unsigned and
its result is stored back into an `int32_t`; `(int16_t)sqrt(mean)` truncates the
square root of a non-negative `mean` and narrows it to 16 bits. -/
def calculateRMS (samples : List Int) : Int :=
  if samples.length = 0 then 0
  else
    let sum := samples.foldl (fun sum sample => wrap32 (sum + sample * sample)) 0
    -- Calculate RMS: sqrt(mean(squares))
    let mean := wrap32 ((sum % 4294967296) / (samples.length : Int))
    wrap16 (Int.sqrt mean)

/-- `detectVoiceActivity(samples, count, threshold)`. -/
def detectVoiceActivity (samples : List Int) (threshold : Int) : Bool :=
  decide (calculateRMS samples > threshold)

/-- The exact sum of the squared samples. -/
def sumSquares (samples : List Int) : Int :=
  (samples.map (fun x => x * x)).sum

/-! ## AudioDetector -/

/-- `#define FFT_SIZE 128`. -/
def FFT_SIZE : Nat := 128

/-- `AudioDetector::STREAM_BUFFER_SIZE`. -/
def STREAM_BUFFER_SIZE : Nat := 256

/-- `AudioDetector::VAD_CHECK_INTERVAL`. -/
def VAD_CHECK_INTERVAL : Nat := 100

/-- `#define AUDIO_VAD_THRESHOLD 1500`. -/
def AUDIO_VAD_THRESHOLD : Int := 1500

/-- `#define AUDIO_ADAPTIVE_RATE true`. -/
def AUDIO_ADAPTIVE_RATE : Bool := true

/-- `#define AUDIO_MAX_PACKETS_PER_SEC_HIGH 30`. -/
def AUDIO_MAX_PACKETS_PER_SEC_HIGH : Nat := 30

/-- `#define AUDIO_MAX_PACKETS_PER_SEC_LOW 15`. -/
def AUDIO_MAX_PACKETS_PER_SEC_LOW : Nat := 15

/-- The data members of `class AudioDetector` that the streaming path uses.
`dataScheduler` records whether the pointer is non-null; the calls made through
it are returned as a log of `SchedulerCall`s. -/
structure AudioDetector where
  initialized : Bool
  audioBuffer : List Int
  audioBufferIndex : Nat
  dataScheduler : Bool
  streamingEnabled : Bool
  adaptiveRateEnabled : Bool
  voiceActive : Bool
  adpcmCodec : ADPCMCodec
  streamBuffer : List Int
  streamBufferIndex : Nat
  compressedBuffer : List Nat
  lastVADCheck : Nat
  voiceActiveStartTime : Nat
deriving DecidableEq

/-- The `millis()` readings taken while one full stream block is handled: the
reading of the VAD check and the three readings inside `enqueueAudio`. -/
structure BlockClock where
  tVad : Nat
  tCheck : Nat
  tStamp : Nat
  tSent : Nat

namespace AudioDetector

/-- The constructor `AudioDetector::AudioDetector()`. -/
def new : AudioDetector :=
  { initialized := false
    audioBuffer := List.replicate FFT_SIZE 0
    audioBufferIndex := 0
    dataScheduler := false
    streamingEnabled := false
    adaptiveRateEnabled := AUDIO_ADAPTIVE_RATE
    voiceActive := false
    adpcmCodec := ADPCMCodec.new
    streamBuffer := List.replicate STREAM_BUFFER_SIZE 0
    streamBufferIndex := 0
    compressedBuffer := List.replicate 128 0
    lastVADCheck := 0
    voiceActiveStartTime := 0 }

/-- `AudioDetector::begin`; `i2sOk` says whether `initI2S()` succeeds. -/
def begin (a : AudioDetector) (i2sOk : Bool) : Bool × AudioDetector :=
  if !i2sOk then (false, a)
  else (true, { a with initialized := true, adpcmCodec := a.adpcmCodec.resetEncoder })

/-- `AudioDetector::setDataScheduler`; `scheduler` says whether the pointer is
non-null. Returns the detector and the calls made on the scheduler. -/
def setDataScheduler (a : AudioDetector) (scheduler : Bool) :
    AudioDetector × List SchedulerCall :=
  ({ a with dataScheduler := scheduler },
    if scheduler then [SchedulerCall.setAudioRateLimit AUDIO_MAX_PACKETS_PER_SEC_LOW] else [])

/-- `AudioDetector::enableStreaming`. -/
def enableStreaming (a : AudioDetector) (enable : Bool) : AudioDetector :=
  { a with streamingEnabled := enable }

/-- `AudioDetector::setAdaptiveRate`. -/
def setAdaptiveRate (a : AudioDetector) (enable : Bool) : AudioDetector :=
  { a with adaptiveRateEnabled := enable }

/-- The body of the VAD check in `readAudioSamples` once the interval test has
passed, with `detected` the value `detectVoiceActivity` returns. -/
def vadEvaluate (a : AudioDetector) (currentTime : Nat) (detected : Bool) :
    AudioDetector × List SchedulerCall :=
  let a1 := { a with lastVADCheck := currentTime, voiceActive := detected }
  -- Adjust audio packet rate based on voice activity (only on state change)
  if a1.voiceActive then
    if a1.voiceActiveStartTime = 0 then
      ({ a1 with voiceActiveStartTime := currentTime },
        [SchedulerCall.setAudioRateLimit AUDIO_MAX_PACKETS_PER_SEC_HIGH])
    else (a1, [])
  else
    if a1.voiceActiveStartTime ≠ 0 then
      ({ a1 with voiceActiveStartTime := 0 },
        [SchedulerCall.setAudioRateLimit AUDIO_MAX_PACKETS_PER_SEC_LOW])
    else (a1, [])

/-- The VAD check of `readAudioSamples`: the interval test in `uint32_t`
arithmetic, then `vadEvaluate` on the full stream buffer. -/
def vadCheck (a : AudioDetector) (currentTime : Nat) : AudioDetector × List SchedulerCall :=
  if (currentTime + UINT32_MOD - a.lastVADCheck) % UINT32_MOD ≥ VAD_CHECK_INTERVAL then
    vadEvaluate a currentTime
      (detectVoiceActivity (a.streamBuffer.take STREAM_BUFFER_SIZE) AUDIO_VAD_THRESHOLD)
  else (a, [])

/-- The first loop of `readAudioSamples`: copy into `audioBuffer` while there is
room. -/
def copyToAudioBuffer : List Int → AudioDetector → AudioDetector
  | [], a => a
  | x :: xs, a =>
    if a.audioBufferIndex < FFT_SIZE then
      copyToAudioBuffer xs
        { a with audioBuffer := a.audioBuffer.set a.audioBufferIndex x
                 audioBufferIndex := a.audioBufferIndex + 1 }
    else a

/-- One iteration of the streaming loop of `readAudioSamples`; `log` holds the
scheduler calls made so far. `none` when `encode` reads outside a table. -/
def streamSample (clk : BlockClock) (sample : Int) (a : AudioDetector)
    (log : List SchedulerCall) : Option (AudioDetector × List SchedulerCall) :=
  let a1 := { a with streamBuffer := a.streamBuffer.set a.streamBufferIndex sample
                     streamBufferIndex := a.streamBufferIndex + 1 }
  -- When stream buffer is full, compress and send via DataScheduler
  if a1.streamBufferIndex ≥ STREAM_BUFFER_SIZE then
    let r := vadCheck a1 clk.tVad
    match r.1.adpcmCodec.encode (r.1.streamBuffer.take STREAM_BUFFER_SIZE) with
    | none => none
    | some (compressedSize, out, codec) =>
      let compressedBuffer := memcpy r.1.compressedBuffer out out.length
      some ({ r.1 with adpcmCodec := codec
                       compressedBuffer := compressedBuffer
                       streamBufferIndex := 0 },
        log ++ r.2 ++
          [SchedulerCall.enqueue
            (EnqueueCall.audio compressedBuffer compressedSize clk.tCheck clk.tStamp clk.tSent)])
  else some (a1, log)

/-- The streaming loop of `readAudioSamples` over the samples read. -/
def streamSamples (clk : BlockClock) :
    List Int → AudioDetector → List SchedulerCall → Option (AudioDetector × List SchedulerCall)
  | [], a, log => some (a, log)
  | x :: xs, a, log =>
    match streamSample clk x a log with
    | none => none
    | some r => streamSamples clk xs r.1 r.2

/-- `AudioDetector::readAudioSamples`. `readOk` says whether `i2s_read` returned
`ESP_OK` and `samples` are the samples it delivered (at most 32); `clk` holds
the `millis()` readings used if a stream block completes. Returns the detector
and the calls made on the scheduler, in order. -/
def readAudioSamples (a : AudioDetector) (readOk : Bool) (samples : List Int)
    (clk : BlockClock) : Option (AudioDetector × List SchedulerCall) :=
  if !readOk || samples.length == 0 then some (a, [])
  else
    -- Copy to audio buffer for local analysis
    let a1 := copyToAudioBuffer samples a
    -- Stream to BLE with ADPCM compression if enabled
    if a1.streamingEnabled && a1.dataScheduler then streamSamples clk samples a1 []
    else some (a1, [])

/-- `AudioDetector::update`. -/
def update (a : AudioDetector) (readOk : Bool) (samples : List Int) (clk : BlockClock) :
    Option (AudioDetector × List SchedulerCall) :=
  if !a.initialized then some (a, []) else readAudioSamples a readOk samples clk

/-- The scheduler calls made by a run of voice-activity evaluations, one list
per evaluation; each evaluation is its clock value and its result. -/
def vadRun : AudioDetector → List (Nat × Bool) → List (List SchedulerCall)
  | _, [] => []
  | a, e :: es => (vadEvaluate a e.1 e.2).2 :: vadRun (vadEvaluate a e.1 e.2).1 es

end AudioDetector

/-- The calls an edge-triggered adaptation makes for a run of evaluation
results, given the previous result: one `setAudioRateLimit` per change of the
result, 30 on inactive to active and 15 on active to inactive. -/
def edgeCalls : Bool → List Bool → List (List SchedulerCall)
  | _, [] => []
  | prev, r :: rs =>
    (if r = prev then []
     else if r then [SchedulerCall.setAudioRateLimit 30]
     else [SchedulerCall.setAudioRateLimit 15]) :: edgeCalls r rs

/-- The scheduler after a sequence of calls on its public interface. -/
def runSchedulerCalls : List SchedulerCall → DataScheduler → DataScheduler
  | [], s => s
  | call :: rest, s => runSchedulerCalls rest (call.run s)

/-- The packet an enqueue call builds. -/
def EnqueueCall.packet : EnqueueCall → DataPacket
  | EnqueueCall.alert m t => DataScheduler.alertPacket m t
  | EnqueueCall.heartRate hr t => DataScheduler.heartRatePacket hr t
  | EnqueueCall.audio d n _ t2 _ => DataScheduler.audioPacket d n t2

/-- The threshold `T(m)` of the quantizer claim, in the words of the
specification: `s` if bit 2 of `m` is set, plus `floor(s/2)` if bit 1 is set,
plus `floor(s/4)` if bit 0 is set. -/
def levelThreshold (s : Int) (m : Nat) : Int :=
  (if m &&& 4 ≠ 0 then s else 0) + (if m &&& 2 ≠ 0 then s / 2 else 0) +
    (if m &&& 1 ≠ 0 then s / 4 else 0)

/-! ## Definitions for the packet invariant, the quantizer bounds and the adaptive-rate flag -/

/-- Every packet waiting in one of the three queues satisfies `P`. -/
def AllPackets (P : DataPacket → Prop) (s : DataScheduler) : Prop :=
  (∀ p ∈ queueItems s.criticalQueue, P p) ∧ (∀ p ∈ queueItems s.highQueue, P p) ∧
    (∀ p ∈ queueItems s.normalQueue, P p)

namespace ADPCMCodec

/-- The reconstructed difference `delta` of `encodeSample`: `stepSize >> 3`, plus
`stepSize`, `stepSize >> 1`, `stepSize >> 2` for the code bits 2, 1, 0, in `int16_t`. -/
def reconstructDelta (stepSize : Int) (code : Nat) : Int :=
  let delta0 := stepSize / 8
  let delta1 := if code &&& 4 ≠ 0 then wrap16 (delta0 + stepSize) else delta0
  let delta2 := if code &&& 2 ≠ 0 then wrap16 (delta1 + stepSize / 2) else delta1
  if code &&& 1 ≠ 0 then wrap16 (delta2 + stepSize / 4) else delta2

end ADPCMCodec

namespace AudioDetector

/-- Consecutive calls of `readAudioSamples`, each with the result of `i2s_read`,
the samples read and the clock readings; the scheduler calls are collected in
call order. -/
def readRun : AudioDetector → List (Bool × List Int × BlockClock) →
    Option (AudioDetector × List SchedulerCall)
  | a, [] => some (a, [])
  | a, r :: rs =>
    match readAudioSamples a r.1 r.2.1 r.2.2 with
    | none => none
    | some (a1, log1) =>
      match readRun a1 rs with
      | none => none
      | some (a2, log2) => some (a2, log1 ++ log2)

/-- A detector that was begun, wired to a scheduler, set to stream, and then had
adaptive rate switched off with `setAdaptiveRate(false)`. -/
def adaptiveOffDetector : AudioDetector :=
  (((AudioDetector.new.begin true).2.setDataScheduler true).1.enableStreaming true).setAdaptiveRate
    false

/-- One successful read of 32 samples of value 2000, with every clock reading
at 1000 ms. -/
def loudRead : Bool × List Int × BlockClock :=
  (true, List.replicate 32 2000, ⟨1000, 1000, 1000, 1000⟩)

/-- The state of `adaptiveOffDetector` after seven `loudRead`s: 224 samples in
the stream buffer. -/
def adaptiveOffAfterSevenReads : AudioDetector :=
  { adaptiveOffDetector with
    audioBuffer := List.replicate 128 2000
    audioBufferIndex := 128
    streamBuffer := List.replicate 224 2000 ++ List.replicate 32 0
    streamBufferIndex := 224 }

/-- The state of `adaptiveOffDetector` inside the eighth `loudRead`, before its
last sample is stored: 255 samples in the stream buffer. -/
def adaptiveOffBeforeLastSample : AudioDetector :=
  { adaptiveOffDetector with
    audioBuffer := List.replicate 128 2000
    audioBufferIndex := 128
    streamBuffer := List.replicate 255 2000 ++ [0]
    streamBufferIndex := 255 }

end AudioDetector

/-! ## Scheduler: helper lemmas -/

theorem ready_begin (c h n : Nat) (hc : 0 < c) (hh : 0 < h) (hn : 0 < n) :
    (DataScheduler.new.begin c h n true true true).1 = true ∧
    Ready (DataScheduler.new.begin c h n true true true).2 := by
  simp [DataScheduler.begin, DataScheduler.new, xQueueCreate, Ready, hc, hh, hn]

theorem enqueueAlert_effect (s : DataScheduler) (m : List Nat) (t : Nat) (hr : Ready s) :
    Ready (s.enqueueAlert m t).2 ∧
    queueItems (s.enqueueAlert m t).2.criticalQueue =
      queueItems s.criticalQueue ++
        (if (s.enqueueAlert m t).1 = true then [DataScheduler.alertPacket m t] else []) ∧
    queueItems (s.enqueueAlert m t).2.highQueue = queueItems s.highQueue ∧
    queueItems (s.enqueueAlert m t).2.normalQueue = queueItems s.normalQueue := by
  obtain ⟨qc, qh, qn, lim, lt, cnt, ws, d1, d2, d3, ini⟩ := s
  obtain ⟨hi, hc, hh, hn⟩ := hr
  simp only at hi hc hh hn
  subst hi
  cases qc with
  | none => simp at hc
  | some q =>
    by_cases hfull : q.items.length < q.capacity
    · simp [DataScheduler.enqueueAlert, xQueueSend, hfull, Ready, queueItems, hh, hn]
    · simp [DataScheduler.enqueueAlert, xQueueSend, hfull, Ready, queueItems, hh, hn]

theorem enqueueHeartRate_effect (s : DataScheduler) (b t : Nat) (hr : Ready s) :
    Ready (s.enqueueHeartRate b t).2 ∧
    queueItems (s.enqueueHeartRate b t).2.criticalQueue = queueItems s.criticalQueue ∧
    queueItems (s.enqueueHeartRate b t).2.highQueue =
      queueItems s.highQueue ++
        (if (s.enqueueHeartRate b t).1 = true then [DataScheduler.heartRatePacket b t] else []) ∧
    queueItems (s.enqueueHeartRate b t).2.normalQueue = queueItems s.normalQueue := by
  obtain ⟨qc, qh, qn, lim, lt, cnt, ws, d1, d2, d3, ini⟩ := s
  obtain ⟨hi, hc, hh, hn⟩ := hr
  simp only at hi hc hh hn
  subst hi
  cases qh with
  | none => simp at hh
  | some q =>
    by_cases hfull : q.items.length < q.capacity
    · simp [DataScheduler.enqueueHeartRate, xQueueSend, hfull, Ready, queueItems, hc, hn]
    · simp [DataScheduler.enqueueHeartRate, xQueueSend, hfull, Ready, queueItems, hc, hn]

theorem enqueueAudio_effect (s : DataScheduler) (d : List Nat) (n t1 t2 t3 : Nat)
    (hr : Ready s) :
    Ready (s.enqueueAudio d n t1 t2 t3).2 ∧
    queueItems (s.enqueueAudio d n t1 t2 t3).2.criticalQueue = queueItems s.criticalQueue ∧
    queueItems (s.enqueueAudio d n t1 t2 t3).2.highQueue = queueItems s.highQueue ∧
    queueItems (s.enqueueAudio d n t1 t2 t3).2.normalQueue =
      queueItems s.normalQueue ++
        (if (s.enqueueAudio d n t1 t2 t3).1 = true then [DataScheduler.audioPacket d n t2]
         else []) := by
  obtain ⟨qc, qh, qn, lim, lt, cnt, ws, d1, d2, d3, ini⟩ := s
  obtain ⟨hi, hc, hh, hn⟩ := hr
  simp only at hi hc hh hn
  subst hi
  cases qn with
  | none => simp at hn
  | some q =>
    by_cases hwin : (t1 + UINT32_MOD - ws) % UINT32_MOD ≥ 1000 <;>
    by_cases hfull : q.items.length < q.capacity <;>
    by_cases hlim : cnt < lim <;>
    by_cases hlim0 : 0 < lim <;>
    simp [DataScheduler.enqueueAudio, DataScheduler.canSendAudio, xQueueSend, hfull, Ready,
      queueItems, hc, hh, hwin, hlim, hlim0]

theorem getNextPacket_effect (s : DataScheduler) (hz : Nat) (hr : Ready s) :
    Ready (s.getNextPacket 0 hz).2 ∧
    (∀ p rest, queueItems s.criticalQueue = p :: rest →
      (s.getNextPacket 0 hz).1 = some p ∧
      queueItems (s.getNextPacket 0 hz).2.criticalQueue = rest ∧
      queueItems (s.getNextPacket 0 hz).2.highQueue = queueItems s.highQueue ∧
      queueItems (s.getNextPacket 0 hz).2.normalQueue = queueItems s.normalQueue) ∧
    (queueItems s.criticalQueue = [] → ∀ p rest, queueItems s.highQueue = p :: rest →
      (s.getNextPacket 0 hz).1 = some p ∧
      queueItems (s.getNextPacket 0 hz).2.criticalQueue = [] ∧
      queueItems (s.getNextPacket 0 hz).2.highQueue = rest ∧
      queueItems (s.getNextPacket 0 hz).2.normalQueue = queueItems s.normalQueue) ∧
    (queueItems s.criticalQueue = [] → queueItems s.highQueue = [] →
      ∀ p rest, queueItems s.normalQueue = p :: rest →
      (s.getNextPacket 0 hz).1 = some p ∧
      queueItems (s.getNextPacket 0 hz).2.criticalQueue = [] ∧
      queueItems (s.getNextPacket 0 hz).2.highQueue = [] ∧
      queueItems (s.getNextPacket 0 hz).2.normalQueue = rest) ∧
    (queueItems s.criticalQueue = [] → queueItems s.highQueue = [] →
      queueItems s.normalQueue = [] → s.getNextPacket 0 hz = (none, s)) := by
  obtain ⟨qc, qh, qn, lim, lt, cnt, ws, d1, d2, d3, ini⟩ := s
  obtain ⟨hi, hc, hh, hn⟩ := hr
  simp only at hi hc hh hn
  subst hi
  cases qc with
  | none => simp at hc
  | some qc =>
  cases qh with
  | none => simp at hh
  | some qh =>
  cases qn with
  | none => simp at hn
  | some qn =>
  obtain ⟨capc, ic⟩ := qc
  obtain ⟨caph, ih⟩ := qh
  obtain ⟨capn, inn⟩ := qn
  cases ic with
  | cons p rest => simp [DataScheduler.getNextPacket, xQueueReceive, Ready, queueItems]
  | nil =>
    cases ih with
    | cons p rest => simp [DataScheduler.getNextPacket, xQueueReceive, Ready, queueItems]
    | nil =>
      cases inn with
      | cons p rest => simp [DataScheduler.getNextPacket, xQueueReceive, Ready, queueItems]
      | nil => simp [DataScheduler.getNextPacket, xQueueReceive, Ready, queueItems]

theorem drain_all (hz : Nat) (fuel : Nat) :
    ∀ s : DataScheduler, Ready s →
      (queueItems s.criticalQueue).length + (queueItems s.highQueue).length +
        (queueItems s.normalQueue).length ≤ fuel →
      (drain hz fuel s).1 =
        queueItems s.criticalQueue ++ queueItems s.highQueue ++ queueItems s.normalQueue ∧
      Ready (drain hz fuel s).2 ∧
      queueItems (drain hz fuel s).2.criticalQueue = [] ∧
      queueItems (drain hz fuel s).2.highQueue = [] ∧
      queueItems (drain hz fuel s).2.normalQueue = [] := by
  induction fuel with
  | zero =>
    intro s hr hlen
    have h1 : queueItems s.criticalQueue = [] := List.length_eq_zero.mp (by omega)
    have h2 : queueItems s.highQueue = [] := List.length_eq_zero.mp (by omega)
    have h3 : queueItems s.normalQueue = [] := List.length_eq_zero.mp (by omega)
    simp [drain, h1, h2, h3, hr]
  | succ fuel ih =>
    intro s hr hlen
    obtain ⟨hr1, hC, hH, hN, hE⟩ := getNextPacket_effect s hz hr
    cases hc : queueItems s.criticalQueue with
    | cons p rest =>
      obtain ⟨e1, e2, e3, e4⟩ := hC p rest hc
      have hfuel : (queueItems (s.getNextPacket 0 hz).2.criticalQueue).length +
          (queueItems (s.getNextPacket 0 hz).2.highQueue).length +
          (queueItems (s.getNextPacket 0 hz).2.normalQueue).length ≤ fuel := by
        rw [e2, e3, e4]; rw [hc] at hlen; simp at hlen; omega
      have := ih (s.getNextPacket 0 hz).2 hr1 hfuel
      rw [e2, e3, e4] at this
      have hsplit : s.getNextPacket 0 hz = (some p, (s.getNextPacket 0 hz).2) := by
        rw [← e1]
      rw [drain, hsplit]
      simpa using this
    | nil =>
      cases hh : queueItems s.highQueue with
      | cons p rest =>
        obtain ⟨e1, e2, e3, e4⟩ := hH hc p rest hh
        have hfuel : (queueItems (s.getNextPacket 0 hz).2.criticalQueue).length +
            (queueItems (s.getNextPacket 0 hz).2.highQueue).length +
            (queueItems (s.getNextPacket 0 hz).2.normalQueue).length ≤ fuel := by
          rw [e2, e3, e4]; rw [hc, hh] at hlen
          simp only [List.length_nil, List.length_cons] at hlen ⊢; omega
        have := ih (s.getNextPacket 0 hz).2 hr1 hfuel
        rw [e2, e3, e4] at this
        have hsplit : s.getNextPacket 0 hz = (some p, (s.getNextPacket 0 hz).2) := by
          rw [← e1]
        rw [drain, hsplit]
        simpa using this
      | nil =>
        cases hn : queueItems s.normalQueue with
        | cons p rest =>
          obtain ⟨e1, e2, e3, e4⟩ := hN hc hh p rest hn
          have hfuel : (queueItems (s.getNextPacket 0 hz).2.criticalQueue).length +
              (queueItems (s.getNextPacket 0 hz).2.highQueue).length +
              (queueItems (s.getNextPacket 0 hz).2.normalQueue).length ≤ fuel := by
            rw [e2, e3, e4]; rw [hc, hh, hn] at hlen
            simp only [List.length_nil, List.length_cons] at hlen ⊢; omega
          have := ih (s.getNextPacket 0 hz).2 hr1 hfuel
          rw [e2, e3, e4] at this
          have hsplit : s.getNextPacket 0 hz = (some p, (s.getNextPacket 0 hz).2) := by
            rw [← e1]
          rw [drain, hsplit]
          simpa using this
        | nil =>
          have e := hE hc hh hn
          rw [drain, e]
          simp [hc, hh, hn, hr]

theorem runCalls_effect (calls : List EnqueueCall) :
    ∀ s : DataScheduler, Ready s →
      Ready (runCalls calls s).2 ∧
      queueItems (runCalls calls s).2.criticalQueue =
        queueItems s.criticalQueue ++ admittedAlerts (runCalls calls s).1 ∧
      queueItems (runCalls calls s).2.highQueue =
        queueItems s.highQueue ++ admittedHeartRates (runCalls calls s).1 ∧
      queueItems (runCalls calls s).2.normalQueue =
        queueItems s.normalQueue ++ admittedAudio (runCalls calls s).1 := by
  induction calls with
  | nil => intro s hr; simp [runCalls, admittedAlerts, admittedHeartRates, admittedAudio, hr]
  | cons c cs ih =>
    intro s hr
    cases c with
    | alert m t =>
      obtain ⟨r1, a1, a2, a3⟩ := enqueueAlert_effect s m t hr
      obtain ⟨r2, b1, b2, b3⟩ := ih (s.enqueueAlert m t).2 r1
      simp only [runCalls, EnqueueCall.run]
      refine ⟨r2, ?_, ?_, ?_⟩
      · rw [b1, a1]
        cases (s.enqueueAlert m t).1 <;> simp [admittedAlerts]
      · rw [b2, a2]
        cases (s.enqueueAlert m t).1 <;> simp [admittedHeartRates]
      · rw [b3, a3]
        cases (s.enqueueAlert m t).1 <;> simp [admittedAudio]
    | heartRate b t =>
      obtain ⟨r1, a1, a2, a3⟩ := enqueueHeartRate_effect s b t hr
      obtain ⟨r2, b1, b2, b3⟩ := ih (s.enqueueHeartRate b t).2 r1
      simp only [runCalls, EnqueueCall.run]
      refine ⟨r2, ?_, ?_, ?_⟩
      · rw [b1, a1]
        cases (s.enqueueHeartRate b t).1 <;> simp [admittedAlerts]
      · rw [b2, a2]
        cases (s.enqueueHeartRate b t).1 <;> simp [admittedHeartRates]
      · rw [b3, a3]
        cases (s.enqueueHeartRate b t).1 <;> simp [admittedAudio]
    | audio d n t1 t2 t3 =>
      obtain ⟨r1, a1, a2, a3⟩ := enqueueAudio_effect s d n t1 t2 t3 hr
      obtain ⟨r2, b1, b2, b3⟩ := ih (s.enqueueAudio d n t1 t2 t3).2 r1
      simp only [runCalls, EnqueueCall.run]
      refine ⟨r2, ?_, ?_, ?_⟩
      · rw [b1, a1]
        cases (s.enqueueAudio d n t1 t2 t3).1 <;> simp [admittedAlerts]
      · rw [b2, a2]
        cases (s.enqueueAudio d n t1 t2 t3).1 <;> simp [admittedHeartRates]
      · rw [b3, a3]
        cases (s.enqueueAudio d n t1 t2 t3).1 <;> simp [admittedAudio]

theorem admitted_length_le (tr : List (EnqueueCall × Bool)) :
    (admittedAlerts tr).length + (admittedHeartRates tr).length + (admittedAudio tr).length
      ≤ tr.length := by
  induction tr with
  | nil => simp [admittedAlerts, admittedHeartRates, admittedAudio]
  | cons x tr ih =>
    obtain ⟨c, ok⟩ := x
    cases c <;> cases ok <;>
      simp [admittedAlerts, admittedHeartRates, admittedAudio] <;> omega

theorem runCalls_length (calls : List EnqueueCall) :
    ∀ s : DataScheduler, (runCalls calls s).1.length = calls.length := by
  induction calls with
  | nil => intro s; simp [runCalls]
  | cons c cs ih => intro s; simp [runCalls, ih]

theorem enqueueAlert_step (s : DataScheduler) (m : List Nat) (t : Nat) (hr : Ready s) :
    Ready (s.enqueueAlert m t).2 ∧
    queueCapacity (s.enqueueAlert m t).2.criticalQueue = queueCapacity s.criticalQueue ∧
    (uxQueueMessagesWaiting s.criticalQueue < queueCapacity s.criticalQueue →
      (s.enqueueAlert m t).1 = true ∧
      uxQueueMessagesWaiting (s.enqueueAlert m t).2.criticalQueue =
        uxQueueMessagesWaiting s.criticalQueue + 1 ∧
      (s.enqueueAlert m t).2.droppedCriticalPackets = s.droppedCriticalPackets) ∧
    (¬ uxQueueMessagesWaiting s.criticalQueue < queueCapacity s.criticalQueue →
      (s.enqueueAlert m t).1 = false ∧
      uxQueueMessagesWaiting (s.enqueueAlert m t).2.criticalQueue =
        uxQueueMessagesWaiting s.criticalQueue ∧
      (s.enqueueAlert m t).2.droppedCriticalPackets =
        (s.droppedCriticalPackets + 1) % UINT32_MOD) := by
  obtain ⟨qc, qh, qn, lim, lt, cnt, ws, d1, d2, d3, ini⟩ := s
  obtain ⟨hi, hc, hh, hn⟩ := hr
  simp only at hi hc hh hn
  subst hi
  cases qc with
  | none => simp at hc
  | some q =>
    by_cases hfull : q.items.length < q.capacity
    · simp [DataScheduler.enqueueAlert, xQueueSend, hfull, Ready, queueCapacity,
        uxQueueMessagesWaiting, hh, hn]
    · simp [DataScheduler.enqueueAlert, xQueueSend, hfull, Ready, queueCapacity,
        uxQueueMessagesWaiting, hh, hn]

theorem enqueueHeartRate_step (s : DataScheduler) (b t : Nat) (hr : Ready s) :
    Ready (s.enqueueHeartRate b t).2 ∧
    queueCapacity (s.enqueueHeartRate b t).2.highQueue = queueCapacity s.highQueue ∧
    (uxQueueMessagesWaiting s.highQueue < queueCapacity s.highQueue →
      (s.enqueueHeartRate b t).1 = true ∧
      uxQueueMessagesWaiting (s.enqueueHeartRate b t).2.highQueue =
        uxQueueMessagesWaiting s.highQueue + 1 ∧
      (s.enqueueHeartRate b t).2.droppedHighPackets = s.droppedHighPackets) ∧
    (¬ uxQueueMessagesWaiting s.highQueue < queueCapacity s.highQueue →
      (s.enqueueHeartRate b t).1 = false ∧
      uxQueueMessagesWaiting (s.enqueueHeartRate b t).2.highQueue =
        uxQueueMessagesWaiting s.highQueue ∧
      (s.enqueueHeartRate b t).2.droppedHighPackets =
        (s.droppedHighPackets + 1) % UINT32_MOD) := by
  obtain ⟨qc, qh, qn, lim, lt, cnt, ws, d1, d2, d3, ini⟩ := s
  obtain ⟨hi, hc, hh, hn⟩ := hr
  simp only at hi hc hh hn
  subst hi
  cases qh with
  | none => simp at hh
  | some q =>
    by_cases hfull : q.items.length < q.capacity
    · simp [DataScheduler.enqueueHeartRate, xQueueSend, hfull, Ready, queueCapacity,
        uxQueueMessagesWaiting, hc, hn]
    · simp [DataScheduler.enqueueHeartRate, xQueueSend, hfull, Ready, queueCapacity,
        uxQueueMessagesWaiting, hc, hn]

theorem replicate_fill_step_true (k free : Nat) (hfree : 0 < free) :
    true :: (List.replicate (min k (free - 1)) true ++ List.replicate (k - (free - 1)) false) =
      List.replicate (min (k + 1) free) true ++ List.replicate (k + 1 - free) false := by
  have h1 : min (k + 1) free = min k (free - 1) + 1 := by omega
  have h2 : k + 1 - free = k - (free - 1) := by omega
  rw [h1, h2, List.replicate_succ, List.cons_append]

theorem replicate_fill_step_false (k : Nat) :
    false :: (List.replicate (min k 0) true ++ List.replicate (k - 0) false) =
      List.replicate (min (k + 1) 0) true ++ List.replicate (k + 1 - 0) false := by
  simp [List.replicate_succ]

theorem alertCalls_fill (msgs : List (List Nat × Nat)) :
    ∀ s : DataScheduler, Ready s →
      uxQueueMessagesWaiting s.criticalQueue ≤ queueCapacity s.criticalQueue →
      results (alertCalls msgs) s =
        List.replicate
          (min msgs.length (queueCapacity s.criticalQueue - uxQueueMessagesWaiting s.criticalQueue))
          true ++
        List.replicate
          (msgs.length - (queueCapacity s.criticalQueue - uxQueueMessagesWaiting s.criticalQueue))
          false ∧
      uxQueueMessagesWaiting (runCalls (alertCalls msgs) s).2.criticalQueue =
        min (uxQueueMessagesWaiting s.criticalQueue + msgs.length)
          (queueCapacity s.criticalQueue) ∧
      (msgs.length ≤ queueCapacity s.criticalQueue - uxQueueMessagesWaiting s.criticalQueue →
        (runCalls (alertCalls msgs) s).2.droppedCriticalPackets = s.droppedCriticalPackets) ∧
      (queueCapacity s.criticalQueue - uxQueueMessagesWaiting s.criticalQueue < msgs.length →
        (runCalls (alertCalls msgs) s).2.droppedCriticalPackets =
          (s.droppedCriticalPackets +
            (msgs.length -
              (queueCapacity s.criticalQueue - uxQueueMessagesWaiting s.criticalQueue)))
            % UINT32_MOD) := by
  induction msgs with
  | nil =>
    intro s hr hle
    simp [results, alertCalls, runCalls, hle]
  | cons x xs ih =>
    intro s hr hle
    obtain ⟨r1, hcap, hroom, hfull⟩ := enqueueAlert_step s x.1 x.2 hr
    have hres : results (alertCalls (x :: xs)) s =
        (s.enqueueAlert x.1 x.2).1 :: results (alertCalls xs) (s.enqueueAlert x.1 x.2).2 := rfl
    have hrun : (runCalls (alertCalls (x :: xs)) s).2 =
        (runCalls (alertCalls xs) (s.enqueueAlert x.1 x.2).2).2 := rfl
    rw [hres, hrun]
    by_cases hlt : uxQueueMessagesWaiting s.criticalQueue < queueCapacity s.criticalQueue
    · obtain ⟨e1, e2, e3⟩ := hroom hlt
      have hle1 : uxQueueMessagesWaiting (s.enqueueAlert x.1 x.2).2.criticalQueue ≤
          queueCapacity (s.enqueueAlert x.1 x.2).2.criticalQueue := by
        rw [e2, hcap]; omega
      obtain ⟨i1, i2, i3, i4⟩ := ih (s.enqueueAlert x.1 x.2).2 r1 hle1
      rw [e2, hcap] at i1 i2 i3 i4
      rw [e3] at i3 i4
      refine ⟨?_, ?_, ?_, ?_⟩
      · rw [i1, e1, List.length_cons]
        have := replicate_fill_step_true xs.length
          (queueCapacity s.criticalQueue - uxQueueMessagesWaiting s.criticalQueue) (by omega)
        rw [Nat.sub_add_eq]
        exact this
      · rw [i2, List.length_cons]; omega
      · intro h; rw [List.length_cons] at h; exact i3 (by omega)
      · intro h; rw [List.length_cons] at h
        rw [i4 (by omega), List.length_cons]
        congr 2; omega
    · obtain ⟨e1, e2, e3⟩ := hfull hlt
      have hle1 : uxQueueMessagesWaiting (s.enqueueAlert x.1 x.2).2.criticalQueue ≤
          queueCapacity (s.enqueueAlert x.1 x.2).2.criticalQueue := by
        rw [e2, hcap]; omega
      obtain ⟨i1, i2, i3, i4⟩ := ih (s.enqueueAlert x.1 x.2).2 r1 hle1
      rw [e2, hcap] at i1 i2 i3 i4
      rw [e3] at i3 i4
      have hzero : queueCapacity s.criticalQueue - uxQueueMessagesWaiting s.criticalQueue = 0 := by
        omega
      rw [hzero] at i1 i3 i4 ⊢
      refine ⟨?_, ?_, ?_, ?_⟩
      · rw [i1, e1, List.length_cons]
        exact replicate_fill_step_false xs.length
      · rw [i2, List.length_cons]; omega
      · intro h; rw [List.length_cons] at h; omega
      · intro _
        rw [List.length_cons]
        by_cases hxs : xs.length = 0
        · rw [i3 (by omega), hxs]
        · rw [i4 (by omega)]
          simp only [UINT32_MOD]
          omega

theorem heartRateCalls_fill (msgs : List (Nat × Nat)) :
    ∀ s : DataScheduler, Ready s →
      uxQueueMessagesWaiting s.highQueue ≤ queueCapacity s.highQueue →
      results (heartRateCalls msgs) s =
        List.replicate
          (min msgs.length (queueCapacity s.highQueue - uxQueueMessagesWaiting s.highQueue))
          true ++
        List.replicate
          (msgs.length - (queueCapacity s.highQueue - uxQueueMessagesWaiting s.highQueue))
          false ∧
      uxQueueMessagesWaiting (runCalls (heartRateCalls msgs) s).2.highQueue =
        min (uxQueueMessagesWaiting s.highQueue + msgs.length)
          (queueCapacity s.highQueue) ∧
      (msgs.length ≤ queueCapacity s.highQueue - uxQueueMessagesWaiting s.highQueue →
        (runCalls (heartRateCalls msgs) s).2.droppedHighPackets = s.droppedHighPackets) ∧
      (queueCapacity s.highQueue - uxQueueMessagesWaiting s.highQueue < msgs.length →
        (runCalls (heartRateCalls msgs) s).2.droppedHighPackets =
          (s.droppedHighPackets +
            (msgs.length -
              (queueCapacity s.highQueue - uxQueueMessagesWaiting s.highQueue)))
            % UINT32_MOD) := by
  induction msgs with
  | nil =>
    intro s hr hle
    simp [results, heartRateCalls, runCalls, hle]
  | cons x xs ih =>
    intro s hr hle
    obtain ⟨r1, hcap, hroom, hfull⟩ := enqueueHeartRate_step s x.1 x.2 hr
    have hres : results (heartRateCalls (x :: xs)) s =
        (s.enqueueHeartRate x.1 x.2).1 :: results (heartRateCalls xs) (s.enqueueHeartRate x.1 x.2).2 := rfl
    have hrun : (runCalls (heartRateCalls (x :: xs)) s).2 =
        (runCalls (heartRateCalls xs) (s.enqueueHeartRate x.1 x.2).2).2 := rfl
    rw [hres, hrun]
    by_cases hlt : uxQueueMessagesWaiting s.highQueue < queueCapacity s.highQueue
    · obtain ⟨e1, e2, e3⟩ := hroom hlt
      have hle1 : uxQueueMessagesWaiting (s.enqueueHeartRate x.1 x.2).2.highQueue ≤
          queueCapacity (s.enqueueHeartRate x.1 x.2).2.highQueue := by
        rw [e2, hcap]; omega
      obtain ⟨i1, i2, i3, i4⟩ := ih (s.enqueueHeartRate x.1 x.2).2 r1 hle1
      rw [e2, hcap] at i1 i2 i3 i4
      rw [e3] at i3 i4
      refine ⟨?_, ?_, ?_, ?_⟩
      · rw [i1, e1, List.length_cons]
        have := replicate_fill_step_true xs.length
          (queueCapacity s.highQueue - uxQueueMessagesWaiting s.highQueue) (by omega)
        rw [Nat.sub_add_eq]
        exact this
      · rw [i2, List.length_cons]; omega
      · intro h; rw [List.length_cons] at h; exact i3 (by omega)
      · intro h; rw [List.length_cons] at h
        rw [i4 (by omega), List.length_cons]
        congr 2; omega
    · obtain ⟨e1, e2, e3⟩ := hfull hlt
      have hle1 : uxQueueMessagesWaiting (s.enqueueHeartRate x.1 x.2).2.highQueue ≤
          queueCapacity (s.enqueueHeartRate x.1 x.2).2.highQueue := by
        rw [e2, hcap]; omega
      obtain ⟨i1, i2, i3, i4⟩ := ih (s.enqueueHeartRate x.1 x.2).2 r1 hle1
      rw [e2, hcap] at i1 i2 i3 i4
      rw [e3] at i3 i4
      have hzero : queueCapacity s.highQueue - uxQueueMessagesWaiting s.highQueue = 0 := by
        omega
      rw [hzero] at i1 i3 i4 ⊢
      refine ⟨?_, ?_, ?_, ?_⟩
      · rw [i1, e1, List.length_cons]
        exact replicate_fill_step_false xs.length
      · rw [i2, List.length_cons]; omega
      · intro h; rw [List.length_cons] at h; omega
      · intro _
        rw [List.length_cons]
        by_cases hxs : xs.length = 0
        · rw [i3 (by omega), hxs]
        · rw [i4 (by omega)]
          simp only [UINT32_MOD]
          omega

/-! ## Scheduler: rate gate, drop counters and alert payload lemmas -/

theorem canSendAudio_eq (s : DataScheduler) (t : Nat) :
    s.canSendAudio t =
      (decide ((if windowExpired s.audioRateLimitWindowStart t then 0
                else s.audioPacketsThisSecond) < s.audioRateLimit),
       if windowExpired s.audioRateLimitWindowStart t then
         { s with audioRateLimitWindowStart := t, audioPacketsThisSecond := 0 }
       else s) := by
  unfold DataScheduler.canSendAudio windowExpired
  split_ifs <;> rfl

theorem enqueueAudio_cases (s : DataScheduler) (d : List Nat) (n t1 t2 t3 : Nat)
    (hr : Ready s) :
    ((s.canSendAudio t1).1 = false →
      s.enqueueAudio d n t1 t2 t3 = (false, (s.canSendAudio t1).2)) ∧
    ((s.canSendAudio t1).1 = true →
      ¬ uxQueueMessagesWaiting s.normalQueue < queueCapacity s.normalQueue →
      s.enqueueAudio d n t1 t2 t3 =
        (false, { (s.canSendAudio t1).2 with
                  droppedNormalPackets := (s.droppedNormalPackets + 1) % UINT32_MOD })) ∧
    ((s.canSendAudio t1).1 = true →
      uxQueueMessagesWaiting s.normalQueue < queueCapacity s.normalQueue →
      s.enqueueAudio d n t1 t2 t3 =
        (true, { (s.canSendAudio t1).2 with
                 normalQueue := some
                   { capacity := queueCapacity s.normalQueue
                     items := queueItems s.normalQueue ++ [DataScheduler.audioPacket d n t2] }
                 lastAudioTransmitTime := t3
                 audioPacketsThisSecond :=
                   ((s.canSendAudio t1).2.audioPacketsThisSecond + 1) % UINT16_MOD })) := by
  obtain ⟨qc, qh, qn, lim, lt, cnt, ws, d1, d2, d3, ini⟩ := s
  obtain ⟨hi, hc, hh, hn⟩ := hr
  simp only at hi hc hh hn
  subst hi
  cases qn with
  | none => simp at hn
  | some q =>
    by_cases hwin : (t1 + UINT32_MOD - ws) % UINT32_MOD ≥ 1000 <;>
    by_cases hfull : q.items.length < q.capacity <;>
    by_cases hlim : cnt < lim <;>
    by_cases hlim0 : 0 < lim <;>
    simp [DataScheduler.enqueueAudio, DataScheduler.canSendAudio, xQueueSend, hfull,
      queueItems, queueCapacity, uxQueueMessagesWaiting, hwin, hlim, hlim0]


theorem uxQueueMessagesWaiting_eq (q : Option Queue) :
    uxQueueMessagesWaiting q = (queueItems q).length := by
  cases q <;> rfl

theorem enqueueAudio_inWindow_step (s : DataScheduler) (d : List Nat) (n t1 t2 t3 : Nat)
    (hr : Ready s) (hwin : ¬ windowExpired s.audioRateLimitWindowStart t1) :
    Ready (s.enqueueAudio d n t1 t2 t3).2 ∧
    (s.enqueueAudio d n t1 t2 t3).2.audioRateLimitWindowStart = s.audioRateLimitWindowStart ∧
    (s.enqueueAudio d n t1 t2 t3).2.audioRateLimit = s.audioRateLimit ∧
    queueCapacity (s.enqueueAudio d n t1 t2 t3).2.normalQueue = queueCapacity s.normalQueue ∧
    (s.audioPacketsThisSecond < s.audioRateLimit ∧
        uxQueueMessagesWaiting s.normalQueue < queueCapacity s.normalQueue →
      (s.enqueueAudio d n t1 t2 t3).1 = true ∧
      (s.enqueueAudio d n t1 t2 t3).2.audioPacketsThisSecond =
        (s.audioPacketsThisSecond + 1) % UINT16_MOD ∧
      uxQueueMessagesWaiting (s.enqueueAudio d n t1 t2 t3).2.normalQueue =
        uxQueueMessagesWaiting s.normalQueue + 1) ∧
    (¬ (s.audioPacketsThisSecond < s.audioRateLimit ∧
        uxQueueMessagesWaiting s.normalQueue < queueCapacity s.normalQueue) →
      (s.enqueueAudio d n t1 t2 t3).1 = false ∧
      (s.enqueueAudio d n t1 t2 t3).2.audioPacketsThisSecond = s.audioPacketsThisSecond ∧
      uxQueueMessagesWaiting (s.enqueueAudio d n t1 t2 t3).2.normalQueue =
        uxQueueMessagesWaiting s.normalQueue) := by
  have hready := (enqueueAudio_effect s d n t1 t2 t3 hr).1
  obtain ⟨c1, c2, c3⟩ := enqueueAudio_cases s d n t1 t2 t3 hr
  have hchk := canSendAudio_eq s t1
  simp only [hwin, if_false] at hchk
  rw [hchk] at c1 c2 c3
  simp only [decide_eq_true_eq, decide_eq_false_iff_not] at c1 c2 c3
  refine ⟨hready, ?_⟩
  by_cases hlim : s.audioPacketsThisSecond < s.audioRateLimit
  · by_cases hroom : uxQueueMessagesWaiting s.normalQueue < queueCapacity s.normalQueue
    · rw [c3 hlim hroom]
      have hux := uxQueueMessagesWaiting_eq s.normalQueue
      have hcs : ∀ q : Queue, queueCapacity (some q) = q.capacity := fun _ => rfl
      have hus : ∀ q : Queue, uxQueueMessagesWaiting (some q) = q.items.length := fun _ => rfl
      simp only [hux] at hroom
      simp [hlim, hroom, hcs, hus, hux]
    · rw [c2 hlim hroom]
      simp [hlim, hroom]
  · rw [c1 hlim]
    simp [hlim]

theorem audioCalls_inWindow (calls : List AudioCall) :
    ∀ s : DataScheduler, Ready s → s.audioRateLimit < UINT16_MOD →
      (∀ x ∈ calls, ¬ windowExpired s.audioRateLimitWindowStart x.tCheck) →
      results (audioCalls calls) s =
        List.replicate
          (min calls.length
            (min (s.audioRateLimit - s.audioPacketsThisSecond)
              (queueCapacity s.normalQueue - uxQueueMessagesWaiting s.normalQueue))) true ++
        List.replicate
          (calls.length -
            min (s.audioRateLimit - s.audioPacketsThisSecond)
              (queueCapacity s.normalQueue - uxQueueMessagesWaiting s.normalQueue)) false := by
  induction calls with
  | nil => intro s _ _ _; simp [results, audioCalls, runCalls]
  | cons x xs ih =>
    intro s hr hL hwin
    have hx : ¬ windowExpired s.audioRateLimitWindowStart x.tCheck :=
      hwin x (List.mem_cons_self _ _)
    obtain ⟨r1, hws, hlim, hcap, hyes, hno⟩ :=
      enqueueAudio_inWindow_step s x.audioData x.size x.tCheck x.tStamp x.tSent hr hx
    have hres : results (audioCalls (x :: xs)) s =
        (s.enqueueAudio x.audioData x.size x.tCheck x.tStamp x.tSent).1 ::
          results (audioCalls xs)
            (s.enqueueAudio x.audioData x.size x.tCheck x.tStamp x.tSent).2 := rfl
    have hwin1 : ∀ y ∈ xs, ¬ windowExpired
        (s.enqueueAudio x.audioData x.size x.tCheck x.tStamp x.tSent).2.audioRateLimitWindowStart
        y.tCheck := by
      intro y hy
      rw [hws]
      exact hwin y (List.mem_cons_of_mem _ hy)
    have hL1 : (s.enqueueAudio x.audioData x.size x.tCheck x.tStamp
        x.tSent).2.audioRateLimit < UINT16_MOD := by rw [hlim]; exact hL
    have i1 := ih _ r1 hL1 hwin1
    rw [hlim, hcap] at i1
    rw [hres, i1, List.length_cons]
    by_cases hok : s.audioPacketsThisSecond < s.audioRateLimit ∧
        uxQueueMessagesWaiting s.normalQueue < queueCapacity s.normalQueue
    · obtain ⟨e1, e2, e3⟩ := hyes hok
      have hnowrap : (s.audioPacketsThisSecond + 1) % UINT16_MOD = s.audioPacketsThisSecond + 1 := by
        apply Nat.mod_eq_of_lt
        simp only [UINT16_MOD] at hL ⊢
        omega
      rw [e1, e2, e3, hnowrap]
      have hfree : min (s.audioRateLimit - (s.audioPacketsThisSecond + 1))
          (queueCapacity s.normalQueue - (uxQueueMessagesWaiting s.normalQueue + 1)) =
          min (s.audioRateLimit - s.audioPacketsThisSecond)
            (queueCapacity s.normalQueue - uxQueueMessagesWaiting s.normalQueue) - 1 := by
        omega
      rw [hfree]
      exact replicate_fill_step_true xs.length _ (by omega)
    · obtain ⟨e1, e2, e3⟩ := hno hok
      rw [e1, e2, e3]
      have hzero : min (s.audioRateLimit - s.audioPacketsThisSecond)
          (queueCapacity s.normalQueue - uxQueueMessagesWaiting s.normalQueue) = 0 := by
        omega
      rw [hzero]
      exact replicate_fill_step_false xs.length

theorem count_true_fill (a b : Nat) :
    (List.replicate a true ++ List.replicate b false).count true = a := by
  simp [List.count_replicate]

theorem enqueueAudio_expired (s : DataScheduler) (d : List Nat) (n t1 t2 t3 : Nat)
    (hi : s.initialized = true) (hexp : windowExpired s.audioRateLimitWindowStart t1) :
    s.enqueueAudio d n t1 t2 t3 =
      DataScheduler.enqueueAudio
        { s with audioRateLimitWindowStart := t1, audioPacketsThisSecond := 0 } d n t1 t2 t3 := by
  have hself : ¬ windowExpired t1 t1 := by
    unfold windowExpired UINT32_MOD
    omega
  unfold DataScheduler.enqueueAudio
  rw [canSendAudio_eq s t1, canSendAudio_eq _ t1]
  simp only [hexp, hself, if_true, if_false, hi, Bool.not_true, Bool.false_eq_true]

theorem run_keeps_rate_limit (s : DataScheduler) (call : SchedulerCall)
    (hset : ∀ L, call ≠ SchedulerCall.setAudioRateLimit L) :
    (call.run s).audioRateLimit = s.audioRateLimit := by
  cases call with
  | enqueue c =>
    cases c with
    | alert m t =>
      simp only [SchedulerCall.run, EnqueueCall.run, DataScheduler.enqueueAlert]
      repeat' split
      all_goals rfl
    | heartRate b t =>
      simp only [SchedulerCall.run, EnqueueCall.run, DataScheduler.enqueueHeartRate]
      repeat' split
      all_goals rfl
    | audio d n t1 t2 t3 =>
      obtain ⟨qc, qh, qn, lim, lt, cnt, ws, d1, d2, d3, ini⟩ := s
      cases ini <;> cases qn <;>
      by_cases hwin : (t1 + UINT32_MOD - ws) % UINT32_MOD ≥ 1000 <;>
      by_cases hlim : cnt < lim <;>
      by_cases hlim0 : 0 < lim <;>
      simp [SchedulerCall.run, EnqueueCall.run, DataScheduler.enqueueAudio,
        DataScheduler.canSendAudio, xQueueSend, hwin, hlim, hlim0] <;>
      split <;> rfl
  | getNextPacket timeoutMs hz =>
    simp only [SchedulerCall.run, DataScheduler.getNextPacket]
    repeat' split
    all_goals rfl
  | clearAllQueues =>
    simp only [SchedulerCall.run, DataScheduler.clearAllQueues]
    split <;> rfl
  | setAudioRateLimit L => exact absurd rfl (hset L)
  | canSendAudio t =>
    simp only [SchedulerCall.run]
    rw [canSendAudio_eq]
    split <;> rfl

theorem enqueueAlert_counters (s : DataScheduler) (m : List Nat) (t : Nat) (hr : Ready s) :
    ((s.enqueueAlert m t).1 = true → dropCounters (s.enqueueAlert m t).2 = dropCounters s) ∧
    ((s.enqueueAlert m t).1 = false →
      dropCounters (s.enqueueAlert m t).2 =
        ((s.droppedCriticalPackets + 1) % UINT32_MOD, s.droppedHighPackets,
          s.droppedNormalPackets)) := by
  obtain ⟨qc, qh, qn, lim, lt, cnt, ws, d1, d2, d3, ini⟩ := s
  obtain ⟨hi, hc, hh, hn⟩ := hr
  simp only at hi hc hh hn
  subst hi
  cases qc with
  | none => simp at hc
  | some q =>
    by_cases hfull : q.items.length < q.capacity <;>
      simp [DataScheduler.enqueueAlert, xQueueSend, hfull, dropCounters]

theorem enqueueHeartRate_counters (s : DataScheduler) (b t : Nat) (hr : Ready s) :
    ((s.enqueueHeartRate b t).1 = true →
      dropCounters (s.enqueueHeartRate b t).2 = dropCounters s) ∧
    ((s.enqueueHeartRate b t).1 = false →
      dropCounters (s.enqueueHeartRate b t).2 =
        (s.droppedCriticalPackets, (s.droppedHighPackets + 1) % UINT32_MOD,
          s.droppedNormalPackets)) := by
  obtain ⟨qc, qh, qn, lim, lt, cnt, ws, d1, d2, d3, ini⟩ := s
  obtain ⟨hi, hc, hh, hn⟩ := hr
  simp only at hi hc hh hn
  subst hi
  cases qh with
  | none => simp at hh
  | some q =>
    by_cases hfull : q.items.length < q.capacity <;>
      simp [DataScheduler.enqueueHeartRate, xQueueSend, hfull, dropCounters]

theorem canSendAudio_counters (s : DataScheduler) (t : Nat) :
    dropCounters (s.canSendAudio t).2 = dropCounters s := by
  rw [canSendAudio_eq]
  by_cases hw : windowExpired s.audioRateLimitWindowStart t <;> simp [hw, dropCounters]

theorem enqueueAudio_counters (s : DataScheduler) (d : List Nat) (n t1 t2 t3 : Nat)
    (hr : Ready s) :
    ((s.enqueueAudio d n t1 t2 t3).1 = true →
      dropCounters (s.enqueueAudio d n t1 t2 t3).2 = dropCounters s) ∧
    ((s.canSendAudio t1).1 = false →
      (s.enqueueAudio d n t1 t2 t3).1 = false ∧
      dropCounters (s.enqueueAudio d n t1 t2 t3).2 = dropCounters s) ∧
    ((s.canSendAudio t1).1 = true → (s.enqueueAudio d n t1 t2 t3).1 = false →
      dropCounters (s.enqueueAudio d n t1 t2 t3).2 =
        (s.droppedCriticalPackets, s.droppedHighPackets,
          (s.droppedNormalPackets + 1) % UINT32_MOD)) := by
  obtain ⟨c1, c2, c3⟩ := enqueueAudio_cases s d n t1 t2 t3 hr
  have hk := canSendAudio_counters s t1
  simp only [dropCounters, Prod.mk.injEq] at hk
  cases hchk : (s.canSendAudio t1).1 with
  | false =>
    rw [c1 hchk]
    simp [dropCounters, hk]
  | true =>
    by_cases hroom : uxQueueMessagesWaiting s.normalQueue < queueCapacity s.normalQueue
    · rw [c3 hchk hroom]
      simp [dropCounters, hk]
    · rw [c2 hchk hroom]
      simp [dropCounters, hk]

theorem run_counters_other (s : DataScheduler) (call : SchedulerCall)
    (hne : ∀ c, call ≠ SchedulerCall.enqueue c) :
    dropCounters (call.run s) = dropCounters s := by
  cases call with
  | enqueue c => exact absurd rfl (hne c)
  | getNextPacket timeoutMs hz =>
    simp only [SchedulerCall.run, DataScheduler.getNextPacket]
    repeat' split
    all_goals rfl
  | clearAllQueues =>
    simp only [SchedulerCall.run, DataScheduler.clearAllQueues]
    split <;> rfl
  | setAudioRateLimit L => rfl
  | canSendAudio t => exact canSendAudio_counters s t

theorem strlen_le_length (m : List Nat) : strlen m ≤ m.length := by
  unfold strlen
  exact (List.takeWhile_prefix _).length_le

theorem take_strlen_nonzero (m : List Nat) (k : Nat) (hk : k ≤ strlen m) :
    ∀ b ∈ m.take k, b ≠ 0 := by
  induction m generalizing k with
  | nil => intro b hb; simp at hb
  | cons a as ih =>
    intro b hb
    cases k with
    | zero => simp at hb
    | succ k =>
      by_cases ha : a = 0
      · subst ha
        simp [strlen, List.takeWhile] at hk
      · have hne : (a != 0) = true := by simp [ha]
        have hs : strlen (a :: as) = strlen as + 1 := by
          simp [strlen, List.takeWhile_cons, hne]
        rw [hs] at hk
        rw [List.take_succ_cons] at hb
        rcases List.mem_cons.mp hb with h | h
        · rw [h]; exact ha
        · exact ih k (by omega) b h

theorem strlen_append_zero (xs ys : List Nat) (h : ∀ b ∈ xs, b ≠ 0) :
    strlen (xs ++ 0 :: ys) = xs.length := by
  induction xs with
  | nil => simp [strlen, List.takeWhile]
  | cons a as ih =>
    have ha : a ≠ 0 := h a (by simp)
    have := ih (fun b hb => h b (by simp [hb]))
    have hne : (a != 0) = true := by simp [ha]
    simp only [strlen] at this ⊢
    simp [List.takeWhile_cons, hne, this]

theorem alertPacket_shape (m : List Nat) (t : Nat) :
    (DataScheduler.alertPacket m t).priority = DataPriority.PRIORITY_CRITICAL ∧
    (DataScheduler.alertPacket m t).type = DataType.DATA_ALERT ∧
    (DataScheduler.alertPacket m t).timestamp = t ∧
    (DataScheduler.alertPacket m t).dataSize = min (strlen m) 31 ∧
    (DataScheduler.alertPacket m t).data =
      m.take (min (strlen m) 31) ++ 0 :: List.replicate (243 - min (strlen m) 31) 0 := by
  refine ⟨rfl, rfl, rfl, rfl, ?_⟩
  have hk : min (strlen m) 31 ≤ m.length := le_trans (Nat.min_le_left _ _) (strlen_le_length m)
  have hlen : (m.take (min (strlen m) 31)).length = min (strlen m) 31 := by
    rw [List.length_take]; omega
  simp only [DataScheduler.alertPacket, DataPacket.new, memcpy, MAX_ALERT_SIZE, MAX_AUDIO_SIZE]
  have e : (31 : Nat) = 32 - 1 := rfl
  rw [← e]
  have hdrop : List.drop (min (strlen m) 31) (List.replicate 244 0) =
      (0 : Nat) :: List.replicate (243 - min (strlen m) 31) 0 := by
    rw [List.drop_replicate]
    have : 244 - min (strlen m) 31 = (243 - min (strlen m) 31) + 1 := by omega
    rw [this, List.replicate_succ]
  rw [hdrop]
  rw [List.set_append_right _ _ (by omega)]
  simp [hlen]

/-! ## Codec: helper lemmas -/

namespace ADPCMCodec

theorem stepSizeAt_some (i : Int) (h0 : 0 ≤ i) (h1 : i ≤ 88) :
    ∃ s, stepSizeAt i = some s ∧ 7 ≤ s ∧ s ≤ 32767 := by
  obtain ⟨n, rfl⟩ := Int.eq_ofNat_of_zero_le h0
  have hn : n ≤ 88 := by omega
  interval_cases n <;> simp [stepSizeAt, stepSizeTable]

theorem quantize_lt (x p s : Int) : quantize x p s < 16 := by
  simp only [quantize]
  split_ifs <;> decide

theorem encodeSample_eq (c : ADPCMCodec) (x s : Int)
    (hs : stepSizeAt c.encoderState.stepIndex = some s) :
    c.encodeSample x =
      (decodeStep c.encoderState (quantize x c.encoderState.predictedSample s)).map
        (fun st => (quantize x c.encoderState.predictedSample s, { c with encoderState := st })) := by
  simp only [encodeSample, decodeStep, hs, quantize]
  cases indexAt _ <;> rfl

theorem decodeStep_some (st : ADPCMState) (code : Nat) (hc : code < 16)
    (h0 : 0 ≤ st.stepIndex) (h1 : st.stepIndex ≤ 88) :
    ∃ st1, decodeStep st code = some st1 ∧ 0 ≤ st1.stepIndex ∧ st1.stepIndex ≤ 88 ∧
      -32768 ≤ st1.predictedSample ∧ st1.predictedSample ≤ 32767 := by
  obtain ⟨s, hs, _, _⟩ := stepSizeAt_some _ h0 h1
  interval_cases code <;>
    simp [decodeStep, hs, indexAt, indexTable, wrap16] <;> omega

theorem encodeSample_total (c : ADPCMCodec) (x : Int)
    (h0 : 0 ≤ c.encoderState.stepIndex) (h1 : c.encoderState.stepIndex ≤ 88) :
    ∃ code c1, c.encodeSample x = some (code, c1) ∧ code < 16 ∧
      decodeStep c.encoderState code = some c1.encoderState ∧
      0 ≤ c1.encoderState.stepIndex ∧ c1.encoderState.stepIndex ≤ 88 ∧
      -32768 ≤ c1.encoderState.predictedSample ∧ c1.encoderState.predictedSample ≤ 32767 := by
  obtain ⟨s, hs, _, _⟩ := stepSizeAt_some _ h0 h1
  have hq := quantize_lt x c.encoderState.predictedSample s
  obtain ⟨st1, hd, r1, r2, r3, r4⟩ := decodeStep_some c.encoderState _ hq h0 h1
  refine ⟨_, { c with encoderState := st1 }, ?_, hq, hd, r1, r2, r3, r4⟩
  rw [encodeSample_eq c x s hs, hd]
  rfl

theorem codeSeq_total (samples : List Int) :
    ∀ c : ADPCMCodec, 0 ≤ c.encoderState.stepIndex → c.encoderState.stepIndex ≤ 88 →
      ∃ cs c1, c.codeSeq samples = some (cs, c1) ∧ cs.length = samples.length ∧
        (∀ x ∈ cs, x < 16) ∧
        0 ≤ c1.encoderState.stepIndex ∧ c1.encoderState.stepIndex ≤ 88 := by
  induction samples with
  | nil => intro c h0 h1; exact ⟨[], c, rfl, rfl, by simp, h0, h1⟩
  | cons x xs ih =>
    intro c h0 h1
    obtain ⟨code, c1, he, hlt, _, r1, r2, _, _⟩ := encodeSample_total c x h0 h1
    obtain ⟨cs, c2, hcs, hlen, hall, q1, q2⟩ := ih c1 r1 r2
    refine ⟨code :: cs, c2, ?_, by simp [hlen], ?_, q1, q2⟩
    · simp [codeSeq, he, hcs]
    · intro y hy
      rcases List.mem_cons.mp hy with h | h
      · rw [h]; exact hlt
      · exact hall y h

theorem encodeLoop_codeSeq (n : Nat) :
    ∀ (samples : List Int) (i : Nat) (l : EncodeLoop) (cs : List Nat) (c1 : ADPCMCodec),
      samples.length ≤ n → i % 2 = 0 → l.codec.codeSeq samples = some (cs, c1) →
      encodeLoop i samples l = some
        { codec := c1
          outputIndex := l.outputIndex + cs.length / 2
          packedByte := pendingNibble l.packedByte cs
          adpcmOutput := l.adpcmOutput ++ packPairs cs } := by
  induction n using Nat.strong_induction_on with
  | _ n ih =>
    intro samples i l cs c1 hn hi hcs
    match samples, hcs with
    | [], hcs =>
      simp only [codeSeq, Option.some.injEq, Prod.mk.injEq] at hcs
      obtain ⟨rfl, rfl⟩ := hcs
      simp [encodeLoop, pendingNibble, packPairs]
    | [x], hcs =>
      simp only [codeSeq] at hcs
      cases he : l.codec.encodeSample x with
      | none => simp [he] at hcs
      | some r =>
        obtain ⟨code, c2⟩ := r
        simp only [he, Option.some.injEq, Prod.mk.injEq] at hcs
        obtain ⟨rfl, rfl⟩ := hcs
        simp [encodeLoop, encodeStep, he, hi, pendingNibble, packPairs]
    | x :: y :: rest, hcs =>
      simp only [codeSeq] at hcs
      cases he : l.codec.encodeSample x with
      | none => simp [he] at hcs
      | some r =>
        obtain ⟨code, c2⟩ := r
        simp only [he] at hcs
        cases he2 : c2.encodeSample y with
        | none => simp [he2] at hcs
        | some r2 =>
          obtain ⟨code2, c3⟩ := r2
          simp only [he2] at hcs
          cases hrest : c3.codeSeq rest with
          | none => simp [hrest] at hcs
          | some r3 =>
            obtain ⟨cs3, c4⟩ := r3
            simp only [hrest, Option.some.injEq, Prod.mk.injEq] at hcs
            obtain ⟨rfl, rfl⟩ := hcs
            have hlen : rest.length ≤ n - 2 := by simp at hn; omega
            have hi1 : (i + 1) % 2 ≠ 0 := by omega
            have hi2 : (i + 1 + 1) % 2 = 0 := by omega
            have := ih (n - 2) (by simp at hn; omega) rest (i + 1 + 1)
              { codec := c3
                outputIndex := l.outputIndex + 1
                packedByte := 0
                adpcmOutput := l.adpcmOutput ++ [((code &&& 0x0F) ||| (code2 <<< 4)) % UINT8_MOD] }
              cs3 c4 hlen hi2 hrest
            simp only [encodeLoop, encodeStep, he, hi, he2, hi1, if_true, if_false]
            rw [this]
            simp [pendingNibble, packPairs]
            omega

theorem pack_byte (a b : Nat) (ha : a < 16) (hb : b < 16) :
    ((a &&& 0x0F) ||| (b <<< 4)) % UINT8_MOD = a + 16 * b := by
  interval_cases a <;> interval_cases b <;> rfl

theorem low_nibble (a : Nat) (ha : a < 16) : a &&& 0x0F = a := by
  interval_cases a <;> rfl

theorem packPairs_length (n : Nat) :
    ∀ cs : List Nat, cs.length ≤ n → (packPairs cs).length = cs.length / 2 := by
  induction n using Nat.strong_induction_on with
  | _ n ih =>
    intro cs hn
    match cs with
    | [] => rfl
    | [a] => simp [packPairs]
    | a :: b :: rest =>
      have := ih (n - 2) (by simp at hn; omega) rest (by simp at hn; omega)
      simp [packPairs, this]
      omega

theorem packPairs_get (n : Nat) :
    ∀ cs : List Nat, cs.length ≤ n → (∀ x ∈ cs, x < 16) →
      ∀ k, k < cs.length / 2 →
        (packPairs cs)[k]? = some (cs.getD (2 * k) 0 + 16 * cs.getD (2 * k + 1) 0) := by
  induction n using Nat.strong_induction_on with
  | _ n ih =>
    intro cs hn hall k hk
    match cs with
    | [] => simp at hk
    | [a] => simp only [List.length_singleton] at hk; omega
    | a :: b :: rest =>
      have ha : a < 16 := hall a (by simp)
      have hb : b < 16 := hall b (by simp)
      cases k with
      | zero => simp [packPairs, pack_byte a b ha hb]
      | succ k =>
        have hrest : ∀ x ∈ rest, x < 16 := fun x hx => hall x (by simp [hx])
        have := ih (n - 2) (by simp at hn; omega) rest (by simp at hn; omega) hrest k
          (by simp at hk; omega)
        have e1 : 2 * (k + 1) = 2 * k + 1 + 1 := by omega
        simp only [packPairs, List.getElem?_cons_succ, this, e1, List.getD_cons_succ]

theorem pendingNibble_odd (n : Nat) :
    ∀ (cs : List Nat) (pb : Nat), cs.length ≤ n → (∀ x ∈ cs, x < 16) → cs.length % 2 = 1 →
      pendingNibble pb cs = cs.getD (cs.length - 1) 0 := by
  induction n using Nat.strong_induction_on with
  | _ n ih =>
    intro cs pb hn hall hodd
    match cs with
    | [] => simp at hodd
    | [a] => simp [pendingNibble, low_nibble a (hall a (by simp))]
    | a :: b :: rest =>
      have hrest : ∀ x ∈ rest, x < 16 := fun x hx => hall x (by simp [hx])
      have hlen : rest.length % 2 = 1 := by simp at hodd; omega
      have := ih (n - 2) (by simp at hn; omega) rest 0 (by simp at hn; omega) hrest hlen
      have hpos : 0 < rest.length := by omega
      have e : (a :: b :: rest).length - 1 = (rest.length - 1) + 1 + 1 := by simp; omega
      simp only [pendingNibble, this, e, List.getD_cons_succ]

theorem codeSeq_inRange (samples : List Int) :
    ∀ c : ADPCMCodec, InRange c →
      ∃ cs c1, c.codeSeq samples = some (cs, c1) ∧ InRange c1 := by
  induction samples with
  | nil => intro c h; exact ⟨[], c, rfl, h⟩
  | cons x xs ih =>
    intro c h
    obtain ⟨code, c1, he, _, _, r1, r2, r3, r4⟩ := encodeSample_total c x h.1 h.2.1
    obtain ⟨cs, c2, hcs, hr⟩ := ih c1 ⟨r1, r2, r3, r4⟩
    exact ⟨code :: cs, c2, by simp [codeSeq, he, hcs], hr⟩

theorem encode_eq_codeSeq (c : ADPCMCodec) (samples : List Int) (cs : List Nat)
    (c1 : ADPCMCodec) (hcs : c.codeSeq samples = some (cs, c1)) :
    ∃ n out, c.encode samples = some (n, out, c1) := by
  have hloop := encodeLoop_codeSeq samples.length samples 0
    { codec := c, outputIndex := 0, packedByte := 0, adpcmOutput := [] } cs c1
    (Nat.le_refl _) rfl hcs
  simp only [encode, hloop]
  split_ifs
  · exact ⟨_, _, rfl⟩
  · exact ⟨_, _, rfl⟩

theorem encodeChunks_inRange (chunks : List (List Int)) :
    ∀ c : ADPCMCodec, InRange c →
      ∃ outs c1, encodeChunks c chunks = some (outs, c1) ∧ InRange c1 := by
  induction chunks with
  | nil => intro c h; exact ⟨[], c, rfl, h⟩
  | cons x xs ih =>
    intro c h
    obtain ⟨cs, c1, hcs, hr⟩ := codeSeq_inRange x c h
    obtain ⟨n, out, he⟩ := encode_eq_codeSeq c x cs c1 hcs
    obtain ⟨outs, c2, ho, hr2⟩ := ih c1 hr
    exact ⟨out :: outs, c2, by simp [encodeChunks, he, ho], hr2⟩

theorem decodeStep_stepIndex (st st1 : ADPCMState) (code : Nat) (hc : code < 16)
    (h0 : 0 ≤ st.stepIndex) (h1 : st.stepIndex ≤ 88) (hd : decodeStep st code = some st1) :
    st1.stepIndex = clamp (st.stepIndex + indexDelta (code % 8)) 0 88 ∧
    indexAt code = some (indexDelta (code % 8)) := by
  obtain ⟨s, hs, _, _⟩ := stepSizeAt_some _ h0 h1
  interval_cases code <;>
    simp [decodeStep, hs, indexAt, indexTable] at hd <;>
    subst hd <;>
    simp [clamp, indexDelta, wrap16, indexAt, indexTable] <;>
    split_ifs <;> omega

theorem encodeSample_decodeStep (c c1 : ADPCMCodec) (x : Int) (code : Nat)
    (he : c.encodeSample x = some (code, c1)) :
    decodeStep c.encoderState code = some c1.encoderState := by
  cases hs : stepSizeAt c.encoderState.stepIndex with
  | none => simp [encodeSample, hs] at he
  | some s =>
    rw [encodeSample_eq c x s hs] at he
    cases hd : decodeStep c.encoderState (quantize x c.encoderState.predictedSample s) with
    | none => simp [hd] at he
    | some st =>
      simp only [hd, Option.map_some', Option.some.injEq, Prod.mk.injEq] at he
      obtain ⟨rfl, rfl⟩ := he
      exact hd

theorem codeSeq_decodeAll (samples : List Int) :
    ∀ (c c1 : ADPCMCodec) (cs : List Nat), c.codeSeq samples = some (cs, c1) →
      decodeAll c.encoderState cs = some c1.encoderState := by
  induction samples with
  | nil =>
    intro c c1 cs h
    simp only [codeSeq, Option.some.injEq, Prod.mk.injEq] at h
    obtain ⟨rfl, rfl⟩ := h
    rfl
  | cons x xs ih =>
    intro c c1 cs h
    simp only [codeSeq] at h
    cases he : c.encodeSample x with
    | none => simp [he] at h
    | some r =>
      obtain ⟨code, c2⟩ := r
      simp only [he] at h
      cases hr : c2.codeSeq xs with
      | none => simp [hr] at h
      | some r2 =>
        obtain ⟨cs2, c3⟩ := r2
        simp only [hr, Option.some.injEq, Prod.mk.injEq] at h
        obtain ⟨rfl, rfl⟩ := h
        simp only [decodeAll, encodeSample_decodeStep c c2 x code he]
        exact ih c2 c3 cs2 hr

theorem codeSeq_append (a : List Int) :
    ∀ (c c1 c2 : ADPCMCodec) (ca cb : List Nat) (b : List Int),
      c.codeSeq a = some (ca, c1) → c1.codeSeq b = some (cb, c2) →
      c.codeSeq (a ++ b) = some (ca ++ cb, c2) := by
  induction a with
  | nil =>
    intro c c1 c2 ca cb b h1 h2
    simp only [codeSeq, Option.some.injEq, Prod.mk.injEq] at h1
    obtain ⟨rfl, rfl⟩ := h1
    simpa using h2
  | cons x xs ih =>
    intro c c1 c2 ca cb b h1 h2
    simp only [codeSeq] at h1
    cases he : c.encodeSample x with
    | none => simp [he] at h1
    | some r =>
      obtain ⟨code, c3⟩ := r
      simp only [he] at h1
      cases hr : c3.codeSeq xs with
      | none => simp [hr] at h1
      | some r2 =>
        obtain ⟨cs2, c4⟩ := r2
        simp only [hr, Option.some.injEq, Prod.mk.injEq] at h1
        obtain ⟨rfl, rfl⟩ := h1
        have := ih c3 c4 c2 cs2 cb b hr h2
        simp [codeSeq, he, this]

theorem codeSeq_length (xs : List Int) :
    ∀ (c c1 : ADPCMCodec) (cs : List Nat), c.codeSeq xs = some (cs, c1) →
      cs.length = xs.length := by
  induction xs with
  | nil =>
    intro c c1 cs h
    simp only [codeSeq, Option.some.injEq, Prod.mk.injEq] at h
    obtain ⟨rfl, rfl⟩ := h
    rfl
  | cons x xs ih =>
    intro c c1 cs h
    simp only [codeSeq] at h
    cases he : c.encodeSample x with
    | none => simp [he] at h
    | some r =>
      obtain ⟨code, c3⟩ := r
      simp only [he] at h
      cases hr : c3.codeSeq xs with
      | none => simp [hr] at h
      | some r2 =>
        obtain ⟨cs2, c4⟩ := r2
        simp only [hr, Option.some.injEq, Prod.mk.injEq] at h
        obtain ⟨rfl, rfl⟩ := h
        simp [ih c3 c4 cs2 hr]

theorem encode_of_codeSeq (c c1 : ADPCMCodec) (xs : List Int) (cs : List Nat)
    (hcs : c.codeSeq xs = some (cs, c1)) :
    c.encode xs =
      if xs.length % 2 ≠ 0 then
        some (cs.length / 2 + 1, packPairs cs ++ [pendingNibble 0 cs], c1)
      else some (cs.length / 2, packPairs cs, c1) := by
  have hloop := encodeLoop_codeSeq xs.length xs 0
    { codec := c, outputIndex := 0, packedByte := 0, adpcmOutput := [] } cs c1
    (Nat.le_refl _) rfl hcs
  simp only [encode, hloop, Nat.zero_add, List.nil_append]

theorem packPairs_append_even (n : Nat) :
    ∀ (ca cb : List Nat), ca.length ≤ n → ca.length % 2 = 0 →
      packPairs (ca ++ cb) = packPairs ca ++ packPairs cb := by
  induction n using Nat.strong_induction_on with
  | _ n ih =>
    intro ca cb hn he
    match ca with
    | [] => simp [packPairs]
    | [a] => simp at he
    | a :: b :: rest =>
      have := ih (n - 2) (by simp at hn; omega) rest cb (by simp at hn; omega)
        (by simp at he; omega)
      simp [packPairs, this]

theorem pendingNibble_append_even (n : Nat) :
    ∀ (ca cb : List Nat), ca.length ≤ n → ca.length % 2 = 0 →
      pendingNibble 0 (ca ++ cb) = pendingNibble 0 cb := by
  induction n using Nat.strong_induction_on with
  | _ n ih =>
    intro ca cb hn he
    match ca with
    | [] => simp
    | [a] => simp at he
    | a :: b :: rest =>
      have := ih (n - 2) (by simp at hn; omega) rest cb (by simp at hn; omega)
        (by simp at he; omega)
      simp [pendingNibble, this]

end ADPCMCodec

/-! ## Scheduler: strict-priority dequeue -/

/-- C1. On an initialized scheduler `getNextPacket` with timeout 0 returns the
oldest CRITICAL packet when that queue is non-empty, otherwise the oldest HIGH
packet, otherwise the oldest NORMAL packet, removing exactly that packet; it
returns no packet exactly when all three queues are empty, and then leaves the
scheduler unchanged. -/
theorem getNextPacket_strict_priority (s : DataScheduler) (qc qh qn : Queue) (hz : Nat)
    (hinit : s.initialized = true) (hc : s.criticalQueue = some qc)
    (hh : s.highQueue = some qh) (hn : s.normalQueue = some qn) :
    (∀ p rest, qc.items = p :: rest →
      s.getNextPacket 0 hz = (some p, { s with criticalQueue := some { qc with items := rest } })) ∧
    (qc.items = [] → ∀ p rest, qh.items = p :: rest →
      s.getNextPacket 0 hz = (some p, { s with highQueue := some { qh with items := rest } })) ∧
    (qc.items = [] → qh.items = [] → ∀ p rest, qn.items = p :: rest →
      s.getNextPacket 0 hz = (some p, { s with normalQueue := some { qn with items := rest } })) ∧
    ((s.getNextPacket 0 hz).1 = none ↔ qc.items = [] ∧ qh.items = [] ∧ qn.items = []) ∧
    ((s.getNextPacket 0 hz).1 = none → (s.getNextPacket 0 hz).2 = s) := by
  obtain ⟨qc1, qh1, qn1, lim, lt, cnt, ws, d1, d2, d3, ini⟩ := s
  obtain ⟨capc, ic⟩ := qc
  obtain ⟨caph, ih⟩ := qh
  obtain ⟨capn, inn⟩ := qn
  simp only at hinit hc hh hn
  subst hinit hc hh hn
  cases ic with
  | cons p rest => simp [DataScheduler.getNextPacket, xQueueReceive]
  | nil =>
    cases ih with
    | cons p rest => simp [DataScheduler.getNextPacket, xQueueReceive]
    | nil =>
      cases inn with
      | cons p rest => simp [DataScheduler.getNextPacket, xQueueReceive]
      | nil => simp [DataScheduler.getNextPacket, xQueueReceive]

/-- Witness for C1: a scheduler begun with capacities 10/10/20 that holds one
heart-rate packet and one alert hands out the alert first. -/
theorem getNextPacket_strict_priority_witness :
    (((((DataScheduler.new.begin 10 10 20 true true true).2.enqueueHeartRate 72 5).2.enqueueAlert
        [70, 65, 76, 76] 6).2.getNextPacket 0 1000).1
      = some (DataScheduler.alertPacket [70, 65, 76, 76] 6)) := by
  have h := (getNextPacket_strict_priority
    (((DataScheduler.new.begin 10 10 20 true true true).2.enqueueHeartRate 72 5).2.enqueueAlert
        [70, 65, 76, 76] 6).2
    { capacity := 10, items := [DataScheduler.alertPacket [70, 65, 76, 76] 6] }
    { capacity := 10, items := [DataScheduler.heartRatePacket 72 5] }
    { capacity := 20, items := [] } 1000 rfl rfl rfl rfl).1
    _ _ rfl
  rw [h]

/-- C2. After any interleaving of `enqueueAlert`, `enqueueHeartRate` and
`enqueueAudio` calls on an initialized scheduler whose queues are empty,
draining with `getNextPacket(0)` (any fuel that covers the calls) hands out
exactly the admitted alerts in call order, then the admitted heart-rate packets
in call order, then the admitted audio packets in call order, and the next
`getNextPacket(0)` reports no packet. -/
theorem drain_priority_fifo (s : DataScheduler) (calls : List EnqueueCall) (hz fuel : Nat)
    (hr : Ready s) (hc : queueItems s.criticalQueue = []) (hh : queueItems s.highQueue = [])
    (hn : queueItems s.normalQueue = []) (hfuel : calls.length ≤ fuel) :
    (drain hz fuel (runCalls calls s).2).1 =
      admittedAlerts (runCalls calls s).1 ++ admittedHeartRates (runCalls calls s).1 ++
        admittedAudio (runCalls calls s).1 ∧
    ((drain hz fuel (runCalls calls s).2).2.getNextPacket 0 hz).1 = none := by
  obtain ⟨r1, a1, a2, a3⟩ := runCalls_effect calls s hr
  rw [hc] at a1
  rw [hh] at a2
  rw [hn] at a3
  simp only [List.nil_append] at a1 a2 a3
  have hlen := admitted_length_le (runCalls calls s).1
  rw [runCalls_length] at hlen
  have hfuel2 : (queueItems (runCalls calls s).2.criticalQueue).length +
      (queueItems (runCalls calls s).2.highQueue).length +
      (queueItems (runCalls calls s).2.normalQueue).length ≤ fuel := by
    rw [a1, a2, a3]; omega
  obtain ⟨d1, d2, d3, d4, d5⟩ := drain_all hz fuel (runCalls calls s).2 r1 hfuel2
  refine ⟨?_, ?_⟩
  · rw [d1, a1, a2, a3]
  · have e := (getNextPacket_effect _ hz d2).2.2.2.2 d3 d4 d5
    rw [e]

/-- Witness for C2: audio, heart rate, alert, audio enqueued in that order on a
freshly begun scheduler come out as alert, heart rate, audio, audio. -/
theorem drain_priority_fifo_witness :
    (drain 1000 4 (runCalls
      [EnqueueCall.audio [1, 2] 2 10 10 10, EnqueueCall.heartRate 72 11,
       EnqueueCall.alert [70, 65, 76, 76] 12, EnqueueCall.audio [3, 4] 2 13 13 13]
      (DataScheduler.new.begin 10 10 20 true true true).2).2).1 =
      [DataScheduler.alertPacket [70, 65, 76, 76] 12, DataScheduler.heartRatePacket 72 11,
       DataScheduler.audioPacket [1, 2] 2 10, DataScheduler.audioPacket [3, 4] 2 13] := by
  have h := (drain_priority_fifo (DataScheduler.new.begin 10 10 20 true true true).2
    [EnqueueCall.audio [1, 2] 2 10 10 10, EnqueueCall.heartRate 72 11,
     EnqueueCall.alert [70, 65, 76, 76] 12, EnqueueCall.audio [3, 4] 2 13 13 13]
    1000 4 (ready_begin 10 10 20 (by decide) (by decide) (by decide)).2 rfl rfl rfl
    (by decide)).1
  rw [h]
  rfl

/-! ## Scheduler: capacity and drop accounting -/

/-- C3, as stated, fails at the top of the counter range: with the CRITICAL drop
counter at 4294967295 and an empty CRITICAL queue of capacity 1, two alerts give
one success and one failure, and the counter is then 0, not 4294967296. -/
theorem drop_counter_wraps :
    results (alertCalls [([65], 0), ([66], 1)]) saturatedCounterScheduler = [true, false] ∧
    ¬ ((runCalls (alertCalls [([65], 0), ([66], 1)]) saturatedCounterScheduler).2.droppedCriticalPackets
        = saturatedCounterScheduler.droppedCriticalPackets + max 0 (2 - 1)) := by
  refine ⟨rfl, ?_⟩
  have h : (runCalls (alertCalls [([65], 0), ([66], 1)])
      saturatedCounterScheduler).2.droppedCriticalPackets = 0 := rfl
  rw [h]
  decide

/-- C3 amended. For the CRITICAL tier (`enqueueAlert`) and the HIGH tier
(`enqueueHeartRate`), with a queue of capacity `c` that starts empty and no
dequeue in between, `k` consecutive enqueue calls give `min k c` successes
followed by `k - c` failures, the depth after every prefix of `j` calls is
`min j c` (never above `c`), and the tier's `uint32_t` drop counter ends at
(old value + (k - c)) modulo 2^32, which is old value + (k - c) whenever that
sum is below 2^32. -/
theorem enqueue_capacity_drops (s : DataScheduler) (hr : Ready s) :
    (∀ msgs : List (List Nat × Nat), uxQueueMessagesWaiting s.criticalQueue = 0 →
      results (alertCalls msgs) s =
        List.replicate (min msgs.length (queueCapacity s.criticalQueue)) true ++
          List.replicate (msgs.length - queueCapacity s.criticalQueue) false ∧
      (∀ j, (runCalls (alertCalls (msgs.take j)) s).2.getCriticalQueueCount =
          min (min j msgs.length) (queueCapacity s.criticalQueue) ∧
        (runCalls (alertCalls (msgs.take j)) s).2.getCriticalQueueCount ≤
          queueCapacity s.criticalQueue) ∧
      (s.droppedCriticalPackets < UINT32_MOD →
        (runCalls (alertCalls msgs) s).2.droppedCriticalPackets =
          (s.droppedCriticalPackets + (msgs.length - queueCapacity s.criticalQueue))
            % UINT32_MOD) ∧
      (s.droppedCriticalPackets + (msgs.length - queueCapacity s.criticalQueue) < UINT32_MOD →
        (runCalls (alertCalls msgs) s).2.droppedCriticalPackets =
          s.droppedCriticalPackets + (msgs.length - queueCapacity s.criticalQueue))) ∧
    (∀ hrs : List (Nat × Nat), uxQueueMessagesWaiting s.highQueue = 0 →
      results (heartRateCalls hrs) s =
        List.replicate (min hrs.length (queueCapacity s.highQueue)) true ++
          List.replicate (hrs.length - queueCapacity s.highQueue) false ∧
      (∀ j, (runCalls (heartRateCalls (hrs.take j)) s).2.getHighQueueCount =
          min (min j hrs.length) (queueCapacity s.highQueue) ∧
        (runCalls (heartRateCalls (hrs.take j)) s).2.getHighQueueCount ≤
          queueCapacity s.highQueue) ∧
      (s.droppedHighPackets < UINT32_MOD →
        (runCalls (heartRateCalls hrs) s).2.droppedHighPackets =
          (s.droppedHighPackets + (hrs.length - queueCapacity s.highQueue)) % UINT32_MOD) ∧
      (s.droppedHighPackets + (hrs.length - queueCapacity s.highQueue) < UINT32_MOD →
        (runCalls (heartRateCalls hrs) s).2.droppedHighPackets =
          s.droppedHighPackets + (hrs.length - queueCapacity s.highQueue))) := by
  constructor
  · intro msgs hempty
    have hle : uxQueueMessagesWaiting s.criticalQueue ≤ queueCapacity s.criticalQueue := by omega
    obtain ⟨a1, _, a3, a4⟩ := alertCalls_fill msgs s hr hle
    rw [hempty] at a1 a3 a4
    simp only [Nat.sub_zero] at a1 a3 a4
    refine ⟨a1, ?_, ?_, ?_⟩
    · intro j
      obtain ⟨_, b2, _, _⟩ := alertCalls_fill (msgs.take j) s hr hle
      have hi : (runCalls (alertCalls (msgs.take j)) s).2.initialized = true :=
        (runCalls_effect _ s hr).1.1
      simp only [DataScheduler.getCriticalQueueCount, hi]
      rw [hempty, List.length_take] at b2
      simp only [Nat.zero_add] at b2
      simp only [Bool.not_true, Bool.false_eq_true, if_false]
      rw [b2]
      exact ⟨rfl, Nat.min_le_right _ _⟩
    · intro hd
      by_cases hk : msgs.length ≤ queueCapacity s.criticalQueue
      · rw [a3 hk]
        have : msgs.length - queueCapacity s.criticalQueue = 0 := by omega
        rw [this, Nat.add_zero, Nat.mod_eq_of_lt hd]
      · exact a4 (by omega)
    · intro hd
      by_cases hk : msgs.length ≤ queueCapacity s.criticalQueue
      · rw [a3 hk]
        have : msgs.length - queueCapacity s.criticalQueue = 0 := by omega
        rw [this, Nat.add_zero]
      · rw [a4 (by omega)]
        exact Nat.mod_eq_of_lt hd
  · intro msgs hempty
    have hle : uxQueueMessagesWaiting s.highQueue ≤ queueCapacity s.highQueue := by omega
    obtain ⟨a1, _, a3, a4⟩ := heartRateCalls_fill msgs s hr hle
    rw [hempty] at a1 a3 a4
    simp only [Nat.sub_zero] at a1 a3 a4
    refine ⟨a1, ?_, ?_, ?_⟩
    · intro j
      obtain ⟨_, b2, _, _⟩ := heartRateCalls_fill (msgs.take j) s hr hle
      have hi : (runCalls (heartRateCalls (msgs.take j)) s).2.initialized = true :=
        (runCalls_effect _ s hr).1.1
      simp only [DataScheduler.getHighQueueCount, hi]
      rw [hempty, List.length_take] at b2
      simp only [Nat.zero_add] at b2
      simp only [Bool.not_true, Bool.false_eq_true, if_false]
      rw [b2]
      exact ⟨rfl, Nat.min_le_right _ _⟩
    · intro hd
      by_cases hk : msgs.length ≤ queueCapacity s.highQueue
      · rw [a3 hk]
        have : msgs.length - queueCapacity s.highQueue = 0 := by omega
        rw [this, Nat.add_zero, Nat.mod_eq_of_lt hd]
      · exact a4 (by omega)
    · intro hd
      by_cases hk : msgs.length ≤ queueCapacity s.highQueue
      · rw [a3 hk]
        have : msgs.length - queueCapacity s.highQueue = 0 := by omega
        rw [this, Nat.add_zero]
      · rw [a4 (by omega)]
        exact Nat.mod_eq_of_lt hd

/-- Witness for C3: 11 alerts into a CRITICAL queue of capacity 10 on a freshly
begun scheduler give 10 successes, then 1 failure, and a drop counter of 1. -/
theorem enqueue_capacity_drops_witness :
    results (alertCalls (List.replicate 11 ([70, 65, 76, 76], 7)))
        (DataScheduler.new.begin 10 10 20 true true true).2 =
      List.replicate 10 true ++ [false] ∧
    (runCalls (alertCalls (List.replicate 11 ([70, 65, 76, 76], 7)))
        (DataScheduler.new.begin 10 10 20 true true true).2).2.droppedCriticalPackets = 1 := by
  have h := (enqueue_capacity_drops (DataScheduler.new.begin 10 10 20 true true true).2
    (ready_begin 10 10 20 (by decide) (by decide) (by decide)).2).1
    (List.replicate 11 ([70, 65, 76, 76], 7)) rfl
  exact ⟨h.1, h.2.2.2 (by decide)⟩

/-! ## Codec: nibble packing -/

namespace ADPCMCodec

/-- C4. For every codec state with `stepIndex` in [0, 88] and every sequence of
`n` samples, `encode` returns `ceil(n/2)` and stores exactly that many bytes:
byte `k` for `k < n/2` is `code(2k) + 16 * code(2k+1)`, where the codes are the
4-bit values (below 16) that `encodeSample` emits in order, and for odd `n` the
last byte is `code(n-1)` with a zero high nibble. -/
theorem encode_packs_nibbles (c : ADPCMCodec) (samples : List Int)
    (h0 : 0 ≤ c.encoderState.stepIndex) (h1 : c.encoderState.stepIndex ≤ 88) :
    ∃ cs out c1,
      c.codeSeq samples = some (cs, c1) ∧
      c.encode samples = some ((samples.length + 1) / 2, out, c1) ∧
      cs.length = samples.length ∧ (∀ x ∈ cs, x < 16) ∧
      out.length = (samples.length + 1) / 2 ∧
      (∀ k, k < samples.length / 2 →
        out[k]? = some (cs.getD (2 * k) 0 + 16 * cs.getD (2 * k + 1) 0)) ∧
      (samples.length % 2 = 1 →
        out[samples.length / 2]? = some (cs.getD (samples.length - 1) 0) ∧
        cs.getD (samples.length - 1) 0 / 16 = 0) := by
  obtain ⟨cs, c1, hcs, hlen, hall, _, _⟩ := codeSeq_total samples c h0 h1
  have hloop := encodeLoop_codeSeq samples.length samples 0
    { codec := c, outputIndex := 0, packedByte := 0, adpcmOutput := [] } cs c1
    (Nat.le_refl _) rfl hcs
  have hpl := packPairs_length cs.length cs (Nat.le_refl _)
  by_cases hodd : samples.length % 2 = 1
  · have hpn := pendingNibble_odd cs.length cs 0 (Nat.le_refl _) hall (by omega)
    refine ⟨cs, packPairs cs ++ [pendingNibble 0 cs], c1, hcs, ?_, hlen, hall, ?_, ?_, ?_⟩
    · simp only [encode, hloop]
      have hne : samples.length % 2 ≠ 0 := by omega
      simp only [hne, ne_eq, not_false_eq_true, if_true, Nat.zero_add, List.nil_append]
      have : cs.length / 2 + 1 = (samples.length + 1) / 2 := by omega
      rw [this]
    · simp [hpl]; omega
    · intro k hk
      rw [List.getElem?_append_left (by omega)]
      exact packPairs_get cs.length cs (Nat.le_refl _) hall k (by omega)
    · intro _
      have hidx : samples.length / 2 = (packPairs cs).length := by omega
      refine ⟨?_, ?_⟩
      · rw [hidx, List.getElem?_append_right (Nat.le_refl _)]
        simp [hpn, hlen]
      · have hmem : cs.getD (samples.length - 1) 0 ∈ cs := by
          rw [← hlen]
          rw [List.getD_eq_getElem cs 0 (by omega)]
          exact List.getElem_mem _
        have := hall _ hmem
        omega
  · refine ⟨cs, packPairs cs, c1, hcs, ?_, hlen, hall, ?_, ?_, ?_⟩
    · simp only [encode, hloop]
      have he : samples.length % 2 = 0 := by omega
      simp only [he, ne_eq, not_true_eq_false, if_false, Nat.zero_add, List.nil_append]
      have : cs.length / 2 = (samples.length + 1) / 2 := by omega
      rw [this]
    · rw [hpl]; omega
    · intro k hk
      exact packPairs_get cs.length cs (Nat.le_refl _) hall k (by omega)
    · intro h; exact absurd h hodd

/-- Witness for C4: three samples on a new codec. -/
theorem encode_packs_nibbles_witness :
    (0 ≤ ADPCMCodec.new.encoderState.stepIndex ∧ ADPCMCodec.new.encoderState.stepIndex ≤ 88) ∧
    ∃ cs out c1,
      ADPCMCodec.new.codeSeq [0, 1000, -1000] = some (cs, c1) ∧
      ADPCMCodec.new.encode [0, 1000, -1000] = some (([0, 1000, -1000] : List Int).length.succ / 2, out, c1) ∧
      cs.length = ([0, 1000, -1000] : List Int).length ∧ (∀ x ∈ cs, x < 16) ∧
      out.length = (([0, 1000, -1000] : List Int).length + 1) / 2 ∧
      (∀ k, k < ([0, 1000, -1000] : List Int).length / 2 →
        out[k]? = some (cs.getD (2 * k) 0 + 16 * cs.getD (2 * k + 1) 0)) ∧
      (([0, 1000, -1000] : List Int).length % 2 = 1 →
        out[([0, 1000, -1000] : List Int).length / 2]? =
          some (cs.getD (([0, 1000, -1000] : List Int).length - 1) 0) ∧
        cs.getD (([0, 1000, -1000] : List Int).length - 1) 0 / 16 = 0) :=
  ⟨⟨by decide, by decide⟩, encode_packs_nibbles ADPCMCodec.new [0, 1000, -1000] (by decide) (by decide)⟩

end ADPCMCodec

/-! ## Codec: state invariant, predictor and step-index updates -/

namespace ADPCMCodec

/-- C5. Starting from a reset encoder, every sequence of `encode` calls (on any
samples) completes and leaves `stepIndex` in [0, 88] and `predictedSample` in
[-32768, 32767]; and every single `encodeSample` step from a state in those
ranges completes and ends in those ranges. -/
theorem encoder_state_in_range (chunks : List (List Int)) :
    (∃ outs c1, encodeChunks ADPCMCodec.new.resetEncoder chunks = some (outs, c1) ∧
      0 ≤ c1.encoderState.stepIndex ∧ c1.encoderState.stepIndex ≤ 88 ∧
      -32768 ≤ c1.encoderState.predictedSample ∧ c1.encoderState.predictedSample ≤ 32767) ∧
    (∀ (c : ADPCMCodec) (x : Int),
      0 ≤ c.encoderState.stepIndex → c.encoderState.stepIndex ≤ 88 →
      -32768 ≤ c.encoderState.predictedSample → c.encoderState.predictedSample ≤ 32767 →
      ∃ code c1, c.encodeSample x = some (code, c1) ∧
        0 ≤ c1.encoderState.stepIndex ∧ c1.encoderState.stepIndex ≤ 88 ∧
        -32768 ≤ c1.encoderState.predictedSample ∧ c1.encoderState.predictedSample ≤ 32767) := by
  constructor
  · exact encodeChunks_inRange chunks _ ⟨by decide, by decide, by decide, by decide⟩
  · intro c x h0 h1 _ _
    obtain ⟨code, c1, he, _, _, r⟩ := encodeSample_total c x h0 h1
    exact ⟨code, c1, he, r⟩

/-- Witness for C5: two chunks of two samples each. -/
theorem encoder_state_in_range_witness :
    ∃ outs c1, encodeChunks ADPCMCodec.new.resetEncoder [[0, 1000], [-1000, 0]] = some (outs, c1) ∧
      0 ≤ c1.encoderState.stepIndex ∧ c1.encoderState.stepIndex ≤ 88 ∧
      -32768 ≤ c1.encoderState.predictedSample ∧ c1.encoderState.predictedSample ≤ 32767 :=
  (encoder_state_in_range [[0, 1000], [-1000, 0]]).1

/-- C6 fails on the code. Eleven full-scale samples (32767) from a new codec:
after ten the state is (25039, 80) with step size 15289; the eleventh emits
code 2, so the update over unbounded integers is 25039 + 9555 = 34594, which
saturates to 32767, but the 16-bit store leaves -30942. -/
theorem predictor_wraps_on_full_scale_input :
    ADPCMCodec.new.codeSeq (List.replicate 10 32767) =
      some ([7, 7, 7, 7, 7, 7, 7, 7, 7, 7],
        { encoderState := { predictedSample := 25039, stepIndex := 80 } }) ∧
    stepSizeAt 80 = some 15289 ∧
    ADPCMCodec.encodeSample { encoderState := { predictedSample := 25039, stepIndex := 80 } } 32767 =
      some (2, { encoderState := { predictedSample := -30942, stepIndex := 79 } }) ∧
    clamp (25039 + idealDelta 15289 2) (-32768) 32767 = 32767 := by
  refine ⟨by rfl, by rfl, by rfl, by decide⟩

/-- C7 fails on the code. From a new codec, 32767 then -32768: the second
difference is -32768 - 11 < 0, yet the emitted code 7 has bit 3 clear. And on a
new codec the sample -32768 emits code 8, with no magnitude bit set, although
the magnitude 32768 is above the step size 7. -/
theorem sign_bit_wrong_on_wide_difference :
    ADPCMCodec.new.encodeSample 32767 =
      some (7, { encoderState := { predictedSample := 11, stepIndex := 8 } }) ∧
    ADPCMCodec.encodeSample { encoderState := { predictedSample := 11, stepIndex := 8 } } (-32768) =
      some (7, { encoderState := { predictedSample := 41, stepIndex := 16 } }) ∧
    7 &&& 8 = 0 ∧ (-32768 : Int) - 11 < 0 ∧
    ADPCMCodec.new.encodeSample (-32768) =
      some (8, { encoderState := { predictedSample := 0, stepIndex := 0 } }) ∧
    stepSizeAt 0 = some 7 := by
  refine ⟨by rfl, by rfl, by decide, by decide, by rfl, by rfl⟩

/-- C8. For every codec state with `stepIndex` in [0, 88] and every sample,
`encodeSample` emits a code below 16 and the new `stepIndex` is
clamp(old + t(code mod 8), 0, 88) with t = [-1, -1, -1, -1, 2, 4, 6, 8]; the
16-entry table repeats these eight entries for the codes 8..15, so the
adjustment does not depend on the sign bit. -/
theorem stepIndex_update (c : ADPCMCodec) (x : Int)
    (h0 : 0 ≤ c.encoderState.stepIndex) (h1 : c.encoderState.stepIndex ≤ 88) :
    (∃ code c1, c.encodeSample x = some (code, c1) ∧ code < 16 ∧
      indexAt code = some (indexDelta (code % 8)) ∧
      c1.encoderState.stepIndex =
        clamp (c.encoderState.stepIndex + indexDelta (code % 8)) 0 88) ∧
    (∀ m, m < 4 → indexDelta m = -1) ∧
    indexDelta 4 = 2 ∧ indexDelta 5 = 4 ∧ indexDelta 6 = 6 ∧ indexDelta 7 = 8 ∧
    (∀ m, m < 8 → indexAt m = some (indexDelta m) ∧ indexAt (m + 8) = some (indexDelta m)) := by
  refine ⟨?_, by decide, by decide, by decide, by decide, by decide, by decide⟩
  obtain ⟨code, c1, he, hlt, hd, _⟩ := encodeSample_total c x h0 h1
  obtain ⟨e1, e2⟩ := decodeStep_stepIndex _ _ code hlt h0 h1 hd
  exact ⟨code, c1, he, hlt, e2, e1⟩

/-- Witness for C8: the sample 1000 on a new codec. -/
theorem stepIndex_update_witness :
    (0 ≤ ADPCMCodec.new.encoderState.stepIndex ∧ ADPCMCodec.new.encoderState.stepIndex ≤ 88) ∧
    ∃ code c1, ADPCMCodec.new.encodeSample 1000 = some (code, c1) ∧ code < 16 ∧
      indexAt code = some (indexDelta (code % 8)) ∧
      c1.encoderState.stepIndex =
        clamp (ADPCMCodec.new.encoderState.stepIndex + indexDelta (code % 8)) 0 88 :=
  ⟨⟨by decide, by decide⟩, (stepIndex_update ADPCMCodec.new 1000 (by decide) (by decide)).1⟩

/-- C9. Decoder synchronisation: from a state with `stepIndex` in [0, 88], two
samples that emit the same code leave the same (`predictedSample`, `stepIndex`);
every `encodeSample` step ends in the state that `decodeStep` computes from the
previous state and the emitted code; and for every sample sequence a decoder
replaying `decodeStep` over the emitted codes from the same starting state ends
in the encoder's final state. -/
theorem decoder_tracks_encoder (c : ADPCMCodec)
    (h0 : 0 ≤ c.encoderState.stepIndex) (h1 : c.encoderState.stepIndex ≤ 88) :
    (∀ (x1 x2 : Int) (code : Nat) (c1 c2 : ADPCMCodec),
      c.encodeSample x1 = some (code, c1) → c.encodeSample x2 = some (code, c2) →
      c1.encoderState.predictedSample = c2.encoderState.predictedSample ∧
      c1.encoderState.stepIndex = c2.encoderState.stepIndex ∧ c1 = c2) ∧
    (∀ x : Int, ∃ code c1, c.encodeSample x = some (code, c1) ∧
      decodeStep c.encoderState code = some c1.encoderState) ∧
    (∀ samples : List Int, ∃ cs c1, c.codeSeq samples = some (cs, c1) ∧
      decodeAll c.encoderState cs = some c1.encoderState) := by
  refine ⟨?_, ?_, ?_⟩
  · intro x1 x2 code c1 c2 e1 e2
    have d1 := encodeSample_decodeStep c c1 x1 code e1
    have d2 := encodeSample_decodeStep c c2 x2 code e2
    rw [d1] at d2
    have hst : c1.encoderState = c2.encoderState := Option.some.inj d2
    have : c1 = c2 := by
      cases c1; cases c2; simp only at hst; rw [hst]
    exact ⟨by rw [hst], by rw [hst], this⟩
  · intro x
    obtain ⟨code, c1, he, _, hd, _⟩ := encodeSample_total c x h0 h1
    exact ⟨code, c1, he, hd⟩
  · intro samples
    obtain ⟨cs, c1, hcs, _⟩ := codeSeq_total samples c h0 h1
    exact ⟨cs, c1, hcs, codeSeq_decodeAll samples c c1 cs hcs⟩

/-- Witness for C9: four samples on a new codec. -/
theorem decoder_tracks_encoder_witness :
    (0 ≤ ADPCMCodec.new.encoderState.stepIndex ∧ ADPCMCodec.new.encoderState.stepIndex ≤ 88) ∧
    ∃ cs c1, ADPCMCodec.new.codeSeq [0, 1000, -1000, 0] = some (cs, c1) ∧
      decodeAll ADPCMCodec.new.encoderState cs = some c1.encoderState :=
  ⟨⟨by decide, by decide⟩,
    (decoder_tracks_encoder ADPCMCodec.new (by decide) (by decide)).2.2 [0, 1000, -1000, 0]⟩

/-- C10. `resetEncoder` sets `predictedSample` and `stepIndex` to 0 whatever the
previous state, so for every codec state (in particular the state after any
earlier sequence of `encode`, `setState` and `resetEncoder` calls) and every
sample sequence, `resetEncoder` followed by `encode` gives the same return
value, bytes and final state as `encode` on a newly constructed codec, and that
call completes. -/
theorem reset_makes_encoding_history_independent (c : ADPCMCodec) (s : List Int) :
    c.resetEncoder.encoderState = { predictedSample := 0, stepIndex := 0 } ∧
    c.resetEncoder.encode s = ADPCMCodec.new.encode s ∧
    (∃ n out c1, ADPCMCodec.new.encode s = some (n, out, c1)) ∧
    (∀ (history : List CodecCall) (c0 : ADPCMCodec),
      runCodecCalls history ADPCMCodec.new = some c0 →
      c0.resetEncoder.encode s = ADPCMCodec.new.encode s) := by
  refine ⟨rfl, rfl, ?_, fun _ _ _ => rfl⟩
  obtain ⟨cs, c1, hcs, _⟩ := codeSeq_total s ADPCMCodec.new (by decide) (by decide)
  obtain ⟨n, out, he⟩ := encode_eq_codeSeq ADPCMCodec.new s cs c1 hcs
  exact ⟨n, out, c1, he⟩

/-- Witness for C10: a codec driven to state (123, 45) and through an `encode`
call encodes like a new one after `resetEncoder`. -/
theorem reset_makes_encoding_history_independent_witness :
    runCodecCalls [CodecCall.setState 123 45, CodecCall.encode [5, -7, 9]] ADPCMCodec.new =
      some { encoderState := { predictedSample := 50, stepIndex := 42 } } ∧
    (ADPCMCodec.resetEncoder
        { encoderState := { predictedSample := 50, stepIndex := 42 } }).encode [0, 1000, -1000, 0] =
      ADPCMCodec.new.encode [0, 1000, -1000, 0] :=
  ⟨by rfl, (reset_makes_encoding_history_independent ADPCMCodec.new [0, 1000, -1000, 0]).2.2.2
    [CodecCall.setState 123 45, CodecCall.encode [5, -7, 9]] _ (by rfl)⟩

end ADPCMCodec

/-! ## Codec: checkpointing, chunking and the golden vector -/

namespace ADPCMCodec

/-- C11. `setState(p, i)` followed by `getState` returns `(p, i)`; and restoring
the pair read with `getState` from a codec `a` into any codec `b` with `setState`
makes `b` report the state of `a` and produce, for every subsequent sample
sequence, the same return value, bytes and final state as `a` (a completed
call whenever the `stepIndex` of `a` is in [0, 88]). -/
theorem getState_setState_roundtrip (a b : ADPCMCodec) (p i : Int) (samples : List Int) :
    (b.setState p i).getState = (p, i) ∧
    (b.setState a.getState.1 a.getState.2).getState = a.getState ∧
    (b.setState a.getState.1 a.getState.2).encode samples = a.encode samples ∧
    (0 ≤ a.encoderState.stepIndex → a.encoderState.stepIndex ≤ 88 →
      ∃ n out c1, a.encode samples = some (n, out, c1) ∧
        (b.setState a.getState.1 a.getState.2).encode samples = some (n, out, c1)) := by
  refine ⟨rfl, rfl, rfl, ?_⟩
  intro h0 h1
  obtain ⟨cs, c1, hcs, _⟩ := codeSeq_total samples a h0 h1
  obtain ⟨n, out, he⟩ := encode_eq_codeSeq a samples cs c1 hcs
  exact ⟨n, out, c1, he, he⟩

/-- C12. Chunked encoding equals whole-stream encoding: for every codec state
with `stepIndex` in [0, 88] and sample sequences `a`, `b` with the length of `a`
even, `encode(a)` and then `encode(b)` on the same codec complete, and a single
`encode(a ++ b)` from the same starting state returns the sum of the two byte
counts, stores the concatenation of the two byte sequences and leaves the same
final codec state. -/
theorem chunked_encode_eq_whole (c : ADPCMCodec) (a b : List Int)
    (h0 : 0 ≤ c.encoderState.stepIndex) (h1 : c.encoderState.stepIndex ≤ 88)
    (ha : a.length % 2 = 0) :
    ∃ na outa ca nb outb cb,
      c.encode a = some (na, outa, ca) ∧ ca.encode b = some (nb, outb, cb) ∧
      c.encode (a ++ b) = some (na + nb, outa ++ outb, cb) := by
  obtain ⟨csa, ca, hca, hla, _, r0, r1⟩ := codeSeq_total a c h0 h1
  obtain ⟨csb, cb, hcb, hlb, _, _, _⟩ := codeSeq_total b ca r0 r1
  have hab := codeSeq_append a c ca cb csa csb b hca hcb
  have ea := encode_of_codeSeq c ca a csa hca
  have eb := encode_of_codeSeq ca cb b csb hcb
  have eab := encode_of_codeSeq c cb (a ++ b) (csa ++ csb) hab
  have hea : csa.length % 2 = 0 := by omega
  have hpp := packPairs_append_even csa.length csa csb (Nat.le_refl _) hea
  have hpn := pendingNibble_append_even csa.length csa csb (Nat.le_refl _) hea
  have hna : ¬ (a.length % 2 ≠ 0) := by omega
  rw [if_neg hna] at ea
  by_cases hb : b.length % 2 ≠ 0
  · rw [if_pos hb] at eb
    have hab2 : (a ++ b).length % 2 ≠ 0 := by simp; omega
    rw [if_pos hab2] at eab
    refine ⟨_, _, _, _, _, _, ea, eb, ?_⟩
    rw [eab, hpp, hpn, List.length_append, List.append_assoc]
    have : (csa.length + csb.length) / 2 + 1 = csa.length / 2 + (csb.length / 2 + 1) := by omega
    rw [this]
  · rw [if_neg hb] at eb
    have hab2 : ¬ ((a ++ b).length % 2 ≠ 0) := by simp; omega
    rw [if_neg hab2] at eab
    refine ⟨_, _, _, _, _, _, ea, eb, ?_⟩
    rw [eab, hpp, List.length_append]
    have : (csa.length + csb.length) / 2 = csa.length / 2 + csb.length / 2 := by omega
    rw [this]

/-- Witness for C12: a chunk of two samples followed by a chunk of three. -/
theorem chunked_encode_eq_whole_witness :
    (0 ≤ ADPCMCodec.new.encoderState.stepIndex ∧ ADPCMCodec.new.encoderState.stepIndex ≤ 88 ∧
      ([0, 1000] : List Int).length % 2 = 0) ∧
    ∃ na outa ca nb outb cb,
      ADPCMCodec.new.encode [0, 1000] = some (na, outa, ca) ∧
      ca.encode [-1000, 0, 5] = some (nb, outb, cb) ∧
      ADPCMCodec.new.encode ([0, 1000] ++ [-1000, 0, 5]) = some (na + nb, outa ++ outb, cb) :=
  ⟨⟨by decide, by decide, by decide⟩,
    chunked_encode_eq_whole ADPCMCodec.new [0, 1000] [-1000, 0, 5] (by decide) (by decide)
      (by decide)⟩

/-- C13. Golden vector: from a reset encoder the samples [0, 1000, -1000, 0] emit
the codes 0, 7, 15, 2, and `encode` returns 2 with the bytes 0x70, 0x2F,
leaving `predictedSample` = 2 and `stepIndex` = 15. -/
theorem golden_vector :
    ADPCMCodec.new.resetEncoder.codeSeq [0, 1000, -1000, 0] =
      some ([0, 7, 15, 2], { encoderState := { predictedSample := 2, stepIndex := 15 } }) ∧
    ADPCMCodec.new.resetEncoder.encode [0, 1000, -1000, 0] =
      some (2, [0x70, 0x2F], { encoderState := { predictedSample := 2, stepIndex := 15 } }) := by
  exact ⟨by rfl, by rfl⟩

end ADPCMCodec

/-! ## Scheduler: the audio rate gate -/

/-- C14. Rate-gate step. The window test of `canSendAudio` is
`now - windowStart >= 1000` modulo 2^32; when it holds the check sets
`windowStart := now` and the count to 0, otherwise it changes nothing; it then
admits exactly when the count is below the limit. `setAudioRateLimit(L)` makes
the limit `L`, the very next check compares against `L`, and no other call
changes the limit. On an initialized scheduler, with the limit a `uint16_t`
(below 65536), `enqueueAudio` leaves the count at the checked value plus one
when it returns success and at the checked value when it returns failure. -/
theorem rate_gate_step (s : DataScheduler) (now : Nat)
    (hws : s.audioRateLimitWindowStart < UINT32_MOD) :
    (windowExpired s.audioRateLimitWindowStart now ↔
      1000 ≤ ((now : Int) - (s.audioRateLimitWindowStart : Int)) % 4294967296) ∧
    (windowExpired s.audioRateLimitWindowStart now →
      (s.canSendAudio now).2 =
        { s with audioRateLimitWindowStart := now, audioPacketsThisSecond := 0 }) ∧
    (¬ windowExpired s.audioRateLimitWindowStart now → (s.canSendAudio now).2 = s) ∧
    ((s.canSendAudio now).1 = true ↔
      (s.canSendAudio now).2.audioPacketsThisSecond < s.audioRateLimit) ∧
    (∀ L, (s.setAudioRateLimit L).audioRateLimit = L ∧
      (((s.setAudioRateLimit L).canSendAudio now).1 = true ↔
        (s.canSendAudio now).2.audioPacketsThisSecond < L)) ∧
    (∀ call : SchedulerCall, (∀ L, call ≠ SchedulerCall.setAudioRateLimit L) →
      (call.run s).audioRateLimit = s.audioRateLimit) ∧
    (Ready s → s.audioRateLimit < UINT16_MOD → ∀ (d : List Nat) (n t2 t3 : Nat),
      (s.enqueueAudio d n now t2 t3).2.audioPacketsThisSecond =
        (s.canSendAudio now).2.audioPacketsThisSecond +
          (if (s.enqueueAudio d n now t2 t3).1 = true then 1 else 0)) := by
  refine ⟨?_, ?_, ?_, ?_, ?_, fun call h => run_keeps_rate_limit s call h, ?_⟩
  · unfold windowExpired
    simp only [UINT32_MOD] at hws ⊢
    omega
  · intro h; rw [canSendAudio_eq]; simp [h]
  · intro h; rw [canSendAudio_eq]; simp [h]
  · rw [canSendAudio_eq]
    by_cases h : windowExpired s.audioRateLimitWindowStart now <;> simp [h]
  · intro L
    refine ⟨rfl, ?_⟩
    rw [canSendAudio_eq, canSendAudio_eq]
    by_cases h : windowExpired s.audioRateLimitWindowStart now <;>
      simp [h, DataScheduler.setAudioRateLimit]
  · intro hr hL d n t2 t3
    obtain ⟨c1, c2, c3⟩ := enqueueAudio_cases s d n now t2 t3 hr
    cases hchk : (s.canSendAudio now).1 with
    | false => rw [c1 hchk]; simp
    | true =>
      by_cases hroom : uxQueueMessagesWaiting s.normalQueue < queueCapacity s.normalQueue
      · rw [c3 hchk hroom]
        have hlt : (s.canSendAudio now).2.audioPacketsThisSecond < s.audioRateLimit := by
          rw [canSendAudio_eq] at hchk ⊢
          by_cases h : windowExpired s.audioRateLimitWindowStart now <;> simp_all
        simp only [if_true]
        apply Nat.mod_eq_of_lt
        simp only [UINT16_MOD] at hL ⊢
        omega
      · rw [c2 hchk hroom]; simp

/-- Witness for C14: a check at 1500 ms on a freshly begun scheduler. -/
theorem rate_gate_step_witness :
    (DataScheduler.new.begin 10 10 20 true true true).2.audioRateLimitWindowStart < UINT32_MOD ∧
    (windowExpired (DataScheduler.new.begin 10 10 20 true true true).2.audioRateLimitWindowStart
        1500 →
      ((DataScheduler.new.begin 10 10 20 true true true).2.canSendAudio 1500).2 =
        { (DataScheduler.new.begin 10 10 20 true true true).2 with
          audioRateLimitWindowStart := 1500, audioPacketsThisSecond := 0 }) :=
  ⟨by decide,
    (rate_gate_step (DataScheduler.new.begin 10 10 20 true true true).2 1500 (by decide)).2.1⟩

/-- C15. With rate limit `L` (a `uint16_t`, so below 65536), an empty NORMAL
queue of capacity `c`, a window count of 0 and no dequeue, `k` consecutive
`enqueueAudio` calls none of which resets the window give `min k (min L c)`
successes followed only by failures. -/
theorem audio_burst_in_one_window (s : DataScheduler) (calls : List AudioCall)
    (hr : Ready s) (hL : s.audioRateLimit < UINT16_MOD)
    (hcount : s.audioPacketsThisSecond = 0) (hempty : uxQueueMessagesWaiting s.normalQueue = 0)
    (hwin : ∀ x ∈ calls, ¬ windowExpired s.audioRateLimitWindowStart x.tCheck) :
    results (audioCalls calls) s =
      List.replicate (min calls.length (min s.audioRateLimit (queueCapacity s.normalQueue))) true ++
        List.replicate
          (calls.length - min s.audioRateLimit (queueCapacity s.normalQueue)) false ∧
    (results (audioCalls calls) s).count true =
      min calls.length (min s.audioRateLimit (queueCapacity s.normalQueue)) := by
  have h := audioCalls_inWindow calls s hr hL hwin
  rw [hcount, hempty] at h
  simp only [Nat.sub_zero] at h
  exact ⟨h, by rw [h, count_true_fill]⟩

/-- Witness for C15: limit 15, capacity 20, 20 calls in one window give exactly
15 successes. -/
theorem audio_burst_in_one_window_witness :
    (results (audioCalls (List.replicate 20 ⟨[1, 2], 2, 5, 5, 5⟩))
      ((DataScheduler.new.begin 10 10 20 true true true).2.setAudioRateLimit 15)).count true
      = 15 :=
  (audio_burst_in_one_window
    ((DataScheduler.new.begin 10 10 20 true true true).2.setAudioRateLimit 15)
    (List.replicate 20 ⟨[1, 2], 2, 5, 5, 5⟩)
    (ready_begin 10 10 20 (by decide) (by decide) (by decide)).2 (by decide) rfl rfl
    (by
      intro x hx
      rw [List.eq_of_mem_replicate hx]
      decide)).2

/-- C16, as stated, fails on the code. With limit 2 on a freshly begun scheduler,
two calls at 999 ms and two calls at 1000 ms all succeed, because the call at
1000 ms starts a new counting window: four successes inside the 1000 ms
interval that starts at 999 ms. -/
theorem rolling_window_exceeds_limit :
    results
        (audioCalls [⟨[1], 1, 999, 999, 999⟩, ⟨[2], 1, 999, 999, 999⟩,
          ⟨[3], 1, 1000, 1000, 1000⟩, ⟨[4], 1, 1000, 1000, 1000⟩])
        ((DataScheduler.new.begin 10 10 20 true true true).2.setAudioRateLimit 2) =
      [true, true, true, true] ∧
    ¬ (successesWithin 999
        (runCalls
          (audioCalls [⟨[1], 1, 999, 999, 999⟩, ⟨[2], 1, 999, 999, 999⟩,
            ⟨[3], 1, 1000, 1000, 1000⟩, ⟨[4], 1, 1000, 1000, 1000⟩])
          ((DataScheduler.new.begin 10 10 20 true true true).2.setAudioRateLimit 2)).1 ≤
      ((DataScheduler.new.begin 10 10 20 true true true).2.setAudioRateLimit 2).audioRateLimit) := by
  refine ⟨by rfl, ?_⟩
  have h : successesWithin 999
      (runCalls
        (audioCalls [⟨[1], 1, 999, 999, 999⟩, ⟨[2], 1, 999, 999, 999⟩,
          ⟨[3], 1, 1000, 1000, 1000⟩, ⟨[4], 1, 1000, 1000, 1000⟩])
        ((DataScheduler.new.begin 10 10 20 true true true).2.setAudioRateLimit 2)).1 = 4 := by
    rfl
  rw [h]
  decide

/-- C16 amended. For a fixed limit `L` (a `uint16_t`, so below 65536) the count
is kept per counting window:
among consecutive `enqueueAudio` calls none of which resets the window, at most
`L - count` succeed; and among a call that resets the window together with
the calls after it that do not reset it again, at most `L` succeed. -/
theorem fixed_window_bound (s : DataScheduler) (calls : List AudioCall)
    (hr : Ready s) (hL : s.audioRateLimit < UINT16_MOD) :
    ((∀ x ∈ calls, ¬ windowExpired s.audioRateLimitWindowStart x.tCheck) →
      (results (audioCalls calls) s).count true ≤
        s.audioRateLimit - s.audioPacketsThisSecond) ∧
    (∀ first : AudioCall, windowExpired s.audioRateLimitWindowStart first.tCheck →
      (∀ x ∈ calls, ¬ windowExpired first.tCheck x.tCheck) →
      (results (audioCalls (first :: calls)) s).count true ≤ s.audioRateLimit) := by
  constructor
  · intro hwin
    rw [audioCalls_inWindow calls s hr hL hwin, count_true_fill]
    omega
  · intro first hexp hwin
    have hself : ¬ windowExpired first.tCheck first.tCheck := by
      unfold windowExpired UINT32_MOD
      omega
    have hstep := enqueueAudio_expired s first.audioData first.size first.tCheck first.tStamp
      first.tSent hr.1 hexp
    have hres : results (audioCalls (first :: calls)) s =
        results (audioCalls (first :: calls))
          { s with audioRateLimitWindowStart := first.tCheck, audioPacketsThisSecond := 0 } := by
      simp only [results, audioCalls, List.map_cons, runCalls, EnqueueCall.run]
      rw [hstep]
    have hwin2 : ∀ x ∈ first :: calls, ¬ windowExpired first.tCheck x.tCheck := by
      intro x hx
      rcases List.mem_cons.mp hx with h | h
      · rw [h]; exact hself
      · exact hwin x h
    have hb := audioCalls_inWindow (first :: calls)
      { s with audioRateLimitWindowStart := first.tCheck, audioPacketsThisSecond := 0 }
      hr hL hwin2
    rw [hres, hb, count_true_fill]
    simp only
    omega

/-- Witness for C16 amended: limit 2, a call at 1000 ms that resets the window
and two more calls inside that window. -/
theorem fixed_window_bound_witness :
    (results
      (audioCalls [⟨[3], 1, 1000, 1000, 1000⟩, ⟨[4], 1, 1000, 1000, 1000⟩,
        ⟨[5], 1, 1500, 1500, 1500⟩])
      ((DataScheduler.new.begin 10 10 20 true true true).2.setAudioRateLimit 2)).count true
      ≤ 2 :=
  (fixed_window_bound
    ((DataScheduler.new.begin 10 10 20 true true true).2.setAudioRateLimit 2)
    [⟨[4], 1, 1000, 1000, 1000⟩, ⟨[5], 1, 1500, 1500, 1500⟩]
    (ready_begin 10 10 20 (by decide) (by decide) (by decide)).2 (by decide)).2
    ⟨[3], 1, 1000, 1000, 1000⟩ (by decide) (by decide)

/-- C17, as stated, fails on the code. With limit 2, two calls succeed and a
third is rejected with the count at 2; after `setAudioRateLimit(3)` the next
call, at 7 ms in the same window, succeeds. -/
theorem raised_limit_admits_in_same_window :
    results (audioCalls [⟨[1], 1, 5, 5, 5⟩, ⟨[2], 1, 5, 5, 5⟩, ⟨[3], 1, 6, 6, 6⟩])
        ((DataScheduler.new.begin 10 10 20 true true true).2.setAudioRateLimit 2) =
      [true, true, false] ∧
    (runCalls (audioCalls [⟨[1], 1, 5, 5, 5⟩, ⟨[2], 1, 5, 5, 5⟩, ⟨[3], 1, 6, 6, 6⟩])
        ((DataScheduler.new.begin 10 10 20 true true true).2.setAudioRateLimit
          2)).2.audioPacketsThisSecond = 2 ∧
    ¬ windowExpired
        (runCalls (audioCalls [⟨[1], 1, 5, 5, 5⟩, ⟨[2], 1, 5, 5, 5⟩, ⟨[3], 1, 6, 6, 6⟩])
          ((DataScheduler.new.begin 10 10 20 true true true).2.setAudioRateLimit
            2)).2.audioRateLimitWindowStart 7 ∧
    (DataScheduler.enqueueAudio
        ((runCalls (audioCalls [⟨[1], 1, 5, 5, 5⟩, ⟨[2], 1, 5, 5, 5⟩, ⟨[3], 1, 6, 6, 6⟩])
          ((DataScheduler.new.begin 10 10 20 true true true).2.setAudioRateLimit
            2)).2.setAudioRateLimit 3) [4] 1 7 7 7).1 = true := by
  refine ⟨by rfl, by rfl, ?_, by rfl⟩
  have h : (runCalls (audioCalls [⟨[1], 1, 5, 5, 5⟩, ⟨[2], 1, 5, 5, 5⟩, ⟨[3], 1, 6, 6, 6⟩])
      ((DataScheduler.new.begin 10 10 20 true true true).2.setAudioRateLimit
        2)).2.audioRateLimitWindowStart = 0 := by rfl
  rw [h]
  decide

/-- C17 amended. Raising the limit takes effect at the next admission check:
when the count has reached the old limit `L`, a call in the current window is
rejected, and after `setAudioRateLimit(L')` with `L' > L` (a `uint16_t`, so
below 65536) a call at the same
time passes the rate gate, succeeds exactly when the NORMAL queue has room, and
then moves the count to `L + 1`. -/
theorem raised_limit_next_check (s : DataScheduler) (newLimit : Nat) (d : List Nat)
    (n t1 t2 t3 : Nat) (hr : Ready s) (hnew : newLimit < UINT16_MOD)
    (hwin : ¬ windowExpired s.audioRateLimitWindowStart t1)
    (hcount : s.audioPacketsThisSecond = s.audioRateLimit)
    (hraise : s.audioRateLimit < newLimit) :
    (s.enqueueAudio d n t1 t2 t3).1 = false ∧
    ((s.setAudioRateLimit newLimit).canSendAudio t1).1 = true ∧
    (((s.setAudioRateLimit newLimit).enqueueAudio d n t1 t2 t3).1 = true ↔
      uxQueueMessagesWaiting s.normalQueue < queueCapacity s.normalQueue) ∧
    (uxQueueMessagesWaiting s.normalQueue < queueCapacity s.normalQueue →
      ((s.setAudioRateLimit newLimit).enqueueAudio d n t1 t2 t3).2.audioPacketsThisSecond =
        s.audioPacketsThisSecond + 1) := by
  have hstep := enqueueAudio_inWindow_step s d n t1 t2 t3 hr hwin
  have hstep2 := enqueueAudio_inWindow_step (s.setAudioRateLimit newLimit) d n t1 t2 t3 hr hwin
  obtain ⟨_, _, _, _, _, hno⟩ := hstep
  obtain ⟨_, _, _, _, hyes2, hno2⟩ := hstep2
  have hlim2 : (s.setAudioRateLimit newLimit).audioPacketsThisSecond <
      (s.setAudioRateLimit newLimit).audioRateLimit := by
    show s.audioPacketsThisSecond < newLimit
    omega
  refine ⟨(hno (by omega)).1, ?_, ?_, ?_⟩
  · rw [canSendAudio_eq]
    simp only [DataScheduler.setAudioRateLimit, hwin, if_false, decide_eq_true_eq]
    omega
  · constructor
    · intro h
      by_contra hfull
      have := (hno2 (fun hc => hfull hc.2)).1
      rw [h] at this
      exact Bool.noConfusion this
    · intro hroom
      exact (hyes2 ⟨hlim2, hroom⟩).1
  · intro hroom
    have := (hyes2 ⟨hlim2, hroom⟩).2.1
    rw [this]
    show (s.audioPacketsThisSecond + 1) % UINT16_MOD = s.audioPacketsThisSecond + 1
    apply Nat.mod_eq_of_lt
    simp only [UINT16_MOD] at hnew ⊢
    omega

/-- Witness for C17 amended: limit 2 reached by two calls, then raised to 3. -/
theorem raised_limit_next_check_witness :
    ((DataScheduler.setAudioRateLimit
        (runCalls (audioCalls [⟨[1], 1, 5, 5, 5⟩, ⟨[2], 1, 5, 5, 5⟩])
          ((DataScheduler.new.begin 10 10 20 true true true).2.setAudioRateLimit 2)).2
        3).canSendAudio 7).1 = true :=
  (raised_limit_next_check
    (runCalls (audioCalls [⟨[1], 1, 5, 5, 5⟩, ⟨[2], 1, 5, 5, 5⟩])
      ((DataScheduler.new.begin 10 10 20 true true true).2.setAudioRateLimit 2)).2
    3 [9] 1 7 7 7
    (runCalls_effect _
      ((DataScheduler.new.begin 10 10 20 true true true).2.setAudioRateLimit 2)
      (ready_begin 10 10 20 (by decide) (by decide) (by decide)).2).1
    (by decide) (by decide) (by rfl) (by decide)).2.1

/-- C18, as stated, fails at the top of the counter range. With the NORMAL drop
counter at 4294967295 and the NORMAL queue full, a call that passes the rate
gate fails and leaves the counter at 0, not 4294967296. -/
theorem full_queue_drop_counter_wraps :
    (saturatedNormalScheduler.canSendAudio 5).1 = true ∧
    (saturatedNormalScheduler.enqueueAudio [3] 1 5 5 5).1 = false ∧
    (saturatedNormalScheduler.enqueueAudio [3] 1 5 5 5).2.droppedNormalPackets = 0 ∧
    ¬ ((saturatedNormalScheduler.enqueueAudio [3] 1 5 5 5).2.droppedNormalPackets =
        saturatedNormalScheduler.droppedNormalPackets + 1) := by
  have h : (saturatedNormalScheduler.enqueueAudio [3] 1 5 5 5).2.droppedNormalPackets = 0 := by
    rfl
  refine ⟨by rfl, by rfl, h, ?_⟩
  rw [h]
  decide

/-- C18 amended. The rate gate and the queue-capacity gate of `enqueueAudio` are
separate. When the admission check rejects, the call returns failure and the
scheduler is exactly as the check left it: NORMAL queue and its depth and the
NORMAL drop counter unchanged, whatever room the queue has. When the check
admits and the NORMAL queue is full, the call returns failure, the queue is
unchanged, the NORMAL drop counter advances by one modulo 2^32 (by exactly one
below 4294967295), and the count keeps the value the check left, which is the
old count when the check did not reset the window. -/
theorem rate_gate_and_queue_gate (s : DataScheduler) (d : List Nat) (n t1 t2 t3 : Nat)
    (hr : Ready s) :
    ((s.canSendAudio t1).1 = false →
      s.enqueueAudio d n t1 t2 t3 = (false, (s.canSendAudio t1).2) ∧
      (s.enqueueAudio d n t1 t2 t3).2.normalQueue = s.normalQueue ∧
      uxQueueMessagesWaiting (s.enqueueAudio d n t1 t2 t3).2.normalQueue =
        uxQueueMessagesWaiting s.normalQueue ∧
      (s.enqueueAudio d n t1 t2 t3).2.droppedNormalPackets = s.droppedNormalPackets) ∧
    ((s.canSendAudio t1).1 = true →
      ¬ uxQueueMessagesWaiting s.normalQueue < queueCapacity s.normalQueue →
      (s.enqueueAudio d n t1 t2 t3).1 = false ∧
      (s.enqueueAudio d n t1 t2 t3).2.normalQueue = s.normalQueue ∧
      (s.enqueueAudio d n t1 t2 t3).2.droppedNormalPackets =
        (s.droppedNormalPackets + 1) % UINT32_MOD ∧
      (s.droppedNormalPackets + 1 < UINT32_MOD →
        (s.enqueueAudio d n t1 t2 t3).2.droppedNormalPackets = s.droppedNormalPackets + 1) ∧
      (s.enqueueAudio d n t1 t2 t3).2.audioPacketsThisSecond =
        (s.canSendAudio t1).2.audioPacketsThisSecond ∧
      (¬ windowExpired s.audioRateLimitWindowStart t1 →
        (s.enqueueAudio d n t1 t2 t3).2.audioPacketsThisSecond = s.audioPacketsThisSecond)) := by
  obtain ⟨c1, c2, _⟩ := enqueueAudio_cases s d n t1 t2 t3 hr
  have hchk := canSendAudio_eq s t1
  constructor
  · intro h
    rw [c1 h]
    refine ⟨rfl, ?_, ?_, ?_⟩ <;>
    · rw [hchk]
      by_cases hw : windowExpired s.audioRateLimitWindowStart t1 <;> simp [hw]
  · intro h hfull
    rw [c2 h hfull]
    refine ⟨rfl, ?_, rfl, ?_, rfl, ?_⟩
    · rw [hchk]
      by_cases hw : windowExpired s.audioRateLimitWindowStart t1 <;> simp [hw]
    · intro hlt
      exact Nat.mod_eq_of_lt hlt
    · intro hw
      rw [hchk]
      simp [hw]

/-- Witness for C18 amended: limit 0 rejects at the rate gate although the NORMAL
queue is empty. -/
theorem rate_gate_and_queue_gate_witness :
    DataScheduler.enqueueAudio
        ((DataScheduler.new.begin 10 10 20 true true true).2.setAudioRateLimit 0) [1] 1 5 5 5 =
      (false, (DataScheduler.canSendAudio
        ((DataScheduler.new.begin 10 10 20 true true true).2.setAudioRateLimit 0) 5).2) :=
  ((rate_gate_and_queue_gate
    ((DataScheduler.new.begin 10 10 20 true true true).2.setAudioRateLimit 0) [1] 1 5 5 5
    (ready_begin 10 10 20 (by decide) (by decide) (by decide)).2).1 (by rfl)).1

/-! ## Scheduler: drop accounting and alert payload -/

/-- C19, as stated, fails on the code. With limit 1 the second of two audio calls
in one window is rejected by the rate gate, with the NORMAL queue holding one
packet of twenty, and the NORMAL drop counter stays 0. -/
theorem rate_limited_rejection_not_counted :
    results (audioCalls [⟨[1], 1, 5, 5, 5⟩, ⟨[2], 1, 6, 6, 6⟩])
        ((DataScheduler.new.begin 10 10 20 true true true).2.setAudioRateLimit 1) =
      [true, false] ∧
    uxQueueMessagesWaiting
      (runCalls (audioCalls [⟨[1], 1, 5, 5, 5⟩, ⟨[2], 1, 6, 6, 6⟩])
        ((DataScheduler.new.begin 10 10 20 true true true).2.setAudioRateLimit
          1)).2.normalQueue = 1 ∧
    ¬ ((runCalls (audioCalls [⟨[1], 1, 5, 5, 5⟩, ⟨[2], 1, 6, 6, 6⟩])
        ((DataScheduler.new.begin 10 10 20 true true true).2.setAudioRateLimit
          1)).2.droppedNormalPackets =
      ((DataScheduler.new.begin 10 10 20 true true true).2.setAudioRateLimit
          1).droppedNormalPackets + 1) := by
  refine ⟨by rfl, by rfl, ?_⟩
  have h : (runCalls (audioCalls [⟨[1], 1, 5, 5, 5⟩, ⟨[2], 1, 6, 6, 6⟩])
      ((DataScheduler.new.begin 10 10 20 true true true).2.setAudioRateLimit
        1)).2.droppedNormalPackets = 0 := by rfl
  rw [h]
  decide

/-- C19 amended. On an initialized scheduler an `enqueueAlert`,
`enqueueHeartRate` or `enqueueAudio` call that succeeds changes no drop counter;
one that fails because its queue is full advances its tier's drop counter by
one modulo 2^32 and leaves the other two; an `enqueueAudio` call rejected by the
rate gate changes no drop counter; `getNextPacket`, `clearAllQueues`,
`setAudioRateLimit` and `canSendAudio` change no drop counter; and no call
lowers a drop counter that is below 4294967295. -/
theorem drop_counter_accounting (s : DataScheduler) (hr : Ready s) :
    (∀ (m : List Nat) (t : Nat),
      ((s.enqueueAlert m t).1 = true → dropCounters (s.enqueueAlert m t).2 = dropCounters s) ∧
      ((s.enqueueAlert m t).1 = false →
        dropCounters (s.enqueueAlert m t).2 =
          ((s.droppedCriticalPackets + 1) % UINT32_MOD, s.droppedHighPackets,
            s.droppedNormalPackets))) ∧
    (∀ b t : Nat,
      ((s.enqueueHeartRate b t).1 = true →
        dropCounters (s.enqueueHeartRate b t).2 = dropCounters s) ∧
      ((s.enqueueHeartRate b t).1 = false →
        dropCounters (s.enqueueHeartRate b t).2 =
          (s.droppedCriticalPackets, (s.droppedHighPackets + 1) % UINT32_MOD,
            s.droppedNormalPackets))) ∧
    (∀ (d : List Nat) (n t1 t2 t3 : Nat),
      ((s.enqueueAudio d n t1 t2 t3).1 = true →
        dropCounters (s.enqueueAudio d n t1 t2 t3).2 = dropCounters s) ∧
      ((s.canSendAudio t1).1 = false →
        (s.enqueueAudio d n t1 t2 t3).1 = false ∧
        dropCounters (s.enqueueAudio d n t1 t2 t3).2 = dropCounters s) ∧
      ((s.canSendAudio t1).1 = true → (s.enqueueAudio d n t1 t2 t3).1 = false →
        dropCounters (s.enqueueAudio d n t1 t2 t3).2 =
          (s.droppedCriticalPackets, s.droppedHighPackets,
            (s.droppedNormalPackets + 1) % UINT32_MOD))) ∧
    (∀ call : SchedulerCall, (∀ c, call ≠ SchedulerCall.enqueue c) →
      dropCounters (call.run s) = dropCounters s) ∧
    (∀ call : SchedulerCall,
      (s.droppedCriticalPackets + 1 < UINT32_MOD →
        s.droppedCriticalPackets ≤ (call.run s).droppedCriticalPackets) ∧
      (s.droppedHighPackets + 1 < UINT32_MOD →
        s.droppedHighPackets ≤ (call.run s).droppedHighPackets) ∧
      (s.droppedNormalPackets + 1 < UINT32_MOD →
        s.droppedNormalPackets ≤ (call.run s).droppedNormalPackets)) := by
  refine ⟨fun m t => enqueueAlert_counters s m t hr,
    fun b t => enqueueHeartRate_counters s b t hr,
    fun d n t1 t2 t3 => enqueueAudio_counters s d n t1 t2 t3 hr,
    fun call h => run_counters_other s call h, ?_⟩
  intro call
  have key : dropCounters (call.run s) = dropCounters s ∨
      dropCounters (call.run s) =
        ((s.droppedCriticalPackets + 1) % UINT32_MOD, s.droppedHighPackets,
          s.droppedNormalPackets) ∨
      dropCounters (call.run s) =
        (s.droppedCriticalPackets, (s.droppedHighPackets + 1) % UINT32_MOD,
          s.droppedNormalPackets) ∨
      dropCounters (call.run s) =
        (s.droppedCriticalPackets, s.droppedHighPackets,
          (s.droppedNormalPackets + 1) % UINT32_MOD) := by
    cases call with
    | enqueue c =>
      cases c with
      | alert m t =>
        obtain ⟨h1, h2⟩ := enqueueAlert_counters s m t hr
        cases hres : (s.enqueueAlert m t).1 with
        | true => exact Or.inl (h1 hres)
        | false => exact Or.inr (Or.inl (h2 hres))
      | heartRate b t =>
        obtain ⟨h1, h2⟩ := enqueueHeartRate_counters s b t hr
        cases hres : (s.enqueueHeartRate b t).1 with
        | true => exact Or.inl (h1 hres)
        | false => exact Or.inr (Or.inr (Or.inl (h2 hres)))
      | audio d n t1 t2 t3 =>
        obtain ⟨h1, h2, h3⟩ := enqueueAudio_counters s d n t1 t2 t3 hr
        cases hres : (s.enqueueAudio d n t1 t2 t3).1 with
        | true => exact Or.inl (h1 hres)
        | false =>
          cases hchk : (s.canSendAudio t1).1 with
          | false => exact Or.inl (h2 hchk).2
          | true => exact Or.inr (Or.inr (Or.inr (h3 hchk hres)))
    | getNextPacket timeoutMs hz => exact Or.inl (run_counters_other s _ (by intro c h; cases h))
    | clearAllQueues => exact Or.inl (run_counters_other s _ (by intro c h; cases h))
    | setAudioRateLimit L => exact Or.inl (run_counters_other s _ (by intro c h; cases h))
    | canSendAudio t => exact Or.inl (run_counters_other s _ (by intro c h; cases h))
  simp only [dropCounters, Prod.mk.injEq] at key
  refine ⟨?_, ?_, ?_⟩ <;>
  · intro hlt
    rcases key with ⟨a, b, c⟩ | ⟨a, b, c⟩ | ⟨a, b, c⟩ | ⟨a, b, c⟩ <;>
    · first
        | (rw [a]; try rw [Nat.mod_eq_of_lt hlt]; try omega)
        | (rw [b]; try rw [Nat.mod_eq_of_lt hlt]; try omega)
        | (rw [c]; try rw [Nat.mod_eq_of_lt hlt]; try omega)

/-- Witness for C19 amended: a successful alert on a freshly begun scheduler. -/
theorem drop_counter_accounting_witness :
    dropCounters
        (DataScheduler.enqueueAlert (DataScheduler.new.begin 10 10 20 true true true).2
          [70, 65, 76, 76] 3).2 =
      dropCounters (DataScheduler.new.begin 10 10 20 true true true).2 :=
  ((drop_counter_accounting (DataScheduler.new.begin 10 10 20 true true true).2
    (ready_begin 10 10 20 (by decide) (by decide) (by decide)).2).1 [70, 65, 76, 76] 3).1
    (by rfl)

/-- C20. For every alert message, a successful `enqueueAlert` appends to the
CRITICAL queue a CRITICAL/ALERT packet with `dataSize = min(len, 31)`, where
`len` is the number of bytes before the terminator, whose first `dataSize`
payload bytes are the first `dataSize` bytes of the message and whose byte at
index `dataSize` is 0; so `dataSize + 1 <= MAX_ALERT_SIZE` and the payload read
as a C string has length exactly `dataSize`. -/
theorem alert_packet_terminated (s : DataScheduler) (m : List Nat) (t : Nat)
    (hr : Ready s) (hok : (s.enqueueAlert m t).1 = true) :
    ∃ p : DataPacket,
      queueItems (s.enqueueAlert m t).2.criticalQueue = queueItems s.criticalQueue ++ [p] ∧
      p.priority = DataPriority.PRIORITY_CRITICAL ∧ p.type = DataType.DATA_ALERT ∧
      p.dataSize = min (strlen m) 31 ∧
      p.data.take p.dataSize = m.take p.dataSize ∧
      p.data[p.dataSize]? = some 0 ∧
      p.dataSize + 1 ≤ MAX_ALERT_SIZE ∧
      strlen p.data = p.dataSize ∧
      p.data.length = MAX_AUDIO_SIZE := by
  obtain ⟨_, hq, _, _⟩ := enqueueAlert_effect s m t hr
  rw [hok] at hq
  simp only [if_true] at hq
  obtain ⟨h1, h2, _, h4, h5⟩ := alertPacket_shape m t
  have hk : min (strlen m) 31 ≤ m.length := le_trans (Nat.min_le_left _ _) (strlen_le_length m)
  have hlen : (m.take (min (strlen m) 31)).length = min (strlen m) 31 := by
    rw [List.length_take]; omega
  refine ⟨DataScheduler.alertPacket m t, hq, h1, h2, h4, ?_, ?_, ?_, ?_, ?_⟩
  · rw [h4, h5, List.take_append_of_le_length (by omega)]
    rw [List.take_take]
    simp
  · rw [h4, h5, List.getElem?_append_right (by omega)]
    simp [hlen]
  · rw [h4]; simp only [MAX_ALERT_SIZE]; omega
  · rw [h4, h5, strlen_append_zero _ _ (take_strlen_nonzero m _ (Nat.min_le_left _ _)), hlen]
  · rw [h5]
    simp only [List.length_append, List.length_cons, List.length_replicate, hlen, MAX_AUDIO_SIZE]
    omega

/-- Witness for C20: the alert FALL on a freshly begun scheduler. -/
theorem alert_packet_terminated_witness :
    ∃ p : DataPacket,
      queueItems
          (DataScheduler.enqueueAlert (DataScheduler.new.begin 10 10 20 true true true).2
            [70, 65, 76, 76] 3).2.criticalQueue =
        queueItems (DataScheduler.new.begin 10 10 20 true true true).2.criticalQueue ++ [p] ∧
      p.priority = DataPriority.PRIORITY_CRITICAL ∧ p.type = DataType.DATA_ALERT ∧
      p.dataSize = min (strlen [70, 65, 76, 76]) 31 ∧
      p.data.take p.dataSize = ([70, 65, 76, 76] : List Nat).take p.dataSize ∧
      p.data[p.dataSize]? = some 0 ∧
      p.dataSize + 1 ≤ MAX_ALERT_SIZE ∧
      strlen p.data = p.dataSize ∧
      p.data.length = MAX_AUDIO_SIZE :=
  alert_packet_terminated (DataScheduler.new.begin 10 10 20 true true true).2 [70, 65, 76, 76] 3
    (ready_begin 10 10 20 (by decide) (by decide) (by decide)).2 (by rfl)

/-! ## Scheduler: packets in the queues -/

theorem xQueueSend_items (q : Option Queue) (pk : DataPacket) (P : DataPacket → Prop)
    (hq : ∀ p ∈ queueItems q, P p) (hpk : P pk) :
    ∀ p ∈ queueItems (xQueueSend q pk).2, P p := by
  cases q with
  | none => intro p hp; simp [xQueueSend, queueItems] at hp
  | some qu =>
    intro p hp
    by_cases hfull : qu.items.length < qu.capacity
    · simp only [xQueueSend, hfull, if_true, queueItems, List.mem_append,
        List.mem_singleton] at hp
      rcases hp with hp | hp
      · exact hq p hp
      · rw [hp]; exact hpk
    · simp only [xQueueSend, hfull, if_false, queueItems] at hp
      exact hq p hp

theorem xQueueReceive_items (q : Option Queue) (t : Nat) (P : DataPacket → Prop)
    (hq : ∀ p ∈ queueItems q, P p) :
    (∀ p, (xQueueReceive q t).1 = some p → P p) ∧
    (∀ p ∈ queueItems (xQueueReceive q t).2, P p) := by
  cases q with
  | none => simp [xQueueReceive, queueItems]
  | some qu =>
    obtain ⟨cap, items⟩ := qu
    cases items with
    | nil => simp [xQueueReceive, queueItems]
    | cons a rest =>
      simp only [queueItems, List.mem_cons] at hq
      simp only [xQueueReceive, queueItems, Option.some.injEq]
      exact ⟨fun p hp => hq p (Or.inl hp.symm), fun p hp => hq p (Or.inr hp)⟩

theorem canSendAudio_queues (s : DataScheduler) (t : Nat) :
    (s.canSendAudio t).2.criticalQueue = s.criticalQueue ∧
    (s.canSendAudio t).2.highQueue = s.highQueue ∧
    (s.canSendAudio t).2.normalQueue = s.normalQueue ∧
    (s.canSendAudio t).2.initialized = s.initialized := by
  unfold DataScheduler.canSendAudio
  split_ifs <;> exact ⟨rfl, rfl, rfl, rfl⟩

theorem enqueue_items (s : DataScheduler) (c : EnqueueCall) (P : DataPacket → Prop)
    (hs : AllPackets P s) (hc : P c.packet) : AllPackets P (c.run s).2 := by
  obtain ⟨h1, h2, h3⟩ := hs
  cases c with
  | alert m t =>
    have hq := xQueueSend_items s.criticalQueue (DataScheduler.alertPacket m t) P h1 hc
    simp only [EnqueueCall.run, DataScheduler.enqueueAlert]
    by_cases hi : s.initialized = true
    · simp only [hi, Bool.not_true, Bool.false_eq_true, if_false]
      rcases hx : xQueueSend s.criticalQueue (DataScheduler.alertPacket m t) with ⟨b, q⟩
      rw [hx] at hq
      cases b <;> exact ⟨hq, h2, h3⟩
    · simp only [Bool.not_eq_true] at hi
      simp only [hi, Bool.not_false, if_true]
      exact ⟨h1, h2, h3⟩
  | heartRate b t =>
    have hq := xQueueSend_items s.highQueue (DataScheduler.heartRatePacket b t) P h2 hc
    simp only [EnqueueCall.run, DataScheduler.enqueueHeartRate]
    by_cases hi : s.initialized = true
    · simp only [hi, Bool.not_true, Bool.false_eq_true, if_false]
      rcases hx : xQueueSend s.highQueue (DataScheduler.heartRatePacket b t) with ⟨r, q⟩
      rw [hx] at hq
      cases r <;> exact ⟨h1, hq, h3⟩
    · simp only [Bool.not_eq_true] at hi
      simp only [hi, Bool.not_false, if_true]
      exact ⟨h1, h2, h3⟩
  | audio d n t1 t2 t3 =>
    obtain ⟨e1, e2, e3, e4⟩ := canSendAudio_queues s t1
    simp only [EnqueueCall.run, DataScheduler.enqueueAudio]
    by_cases hi : s.initialized = true
    · simp only [hi, Bool.not_true, Bool.false_eq_true, if_false]
      rcases hg : s.canSendAudio t1 with ⟨g, s1⟩
      rw [hg] at e1 e2 e3
      simp only at e1 e2 e3
      cases g with
      | false =>
        simp only
        exact ⟨by rw [e1]; exact h1, by rw [e2]; exact h2, by rw [e3]; exact h3⟩
      | true =>
        simp only
        have hq := xQueueSend_items s1.normalQueue (DataScheduler.audioPacket d n t2) P
          (by rw [e3]; exact h3) hc
        rcases hx : xQueueSend s1.normalQueue (DataScheduler.audioPacket d n t2) with ⟨r, q⟩
        rw [hx] at hq
        cases r <;> exact ⟨by rw [e1]; exact h1, by rw [e2]; exact h2, hq⟩
    · simp only [Bool.not_eq_true] at hi
      simp only [hi, Bool.not_false, if_true]
      exact ⟨h1, h2, h3⟩

theorem getNextPacket_items (s : DataScheduler) (t hz : Nat) (P : DataPacket → Prop)
    (hs : AllPackets P s) :
    (∀ p, (s.getNextPacket t hz).1 = some p → P p) ∧ AllPackets P (s.getNextPacket t hz).2 := by
  obtain ⟨h1, h2, h3⟩ := hs
  simp only [DataScheduler.getNextPacket]
  by_cases hi : s.initialized = true
  · simp only [hi, Bool.not_true, Bool.false_eq_true, if_false]
    obtain ⟨a1, a2⟩ := xQueueReceive_items s.criticalQueue 0 P h1
    rcases hx : xQueueReceive s.criticalQueue 0 with ⟨r, q⟩
    rw [hx] at a1 a2
    cases r with
    | some p => exact ⟨fun p hp => a1 p hp, a2, h2, h3⟩
    | none =>
      simp only
      obtain ⟨b1, b2⟩ := xQueueReceive_items s.highQueue 0 P h2
      rcases hy : xQueueReceive s.highQueue 0 with ⟨r, qh⟩
      rw [hy] at b1 b2
      cases r with
      | some p => exact ⟨fun p hp => b1 p hp, a2, b2, h3⟩
      | none =>
        simp only
        obtain ⟨c1, c2⟩ := xQueueReceive_items s.normalQueue
          (if t = 0 then 0 else pdMS_TO_TICKS hz t) P h3
        rcases hz1 : xQueueReceive s.normalQueue (if t = 0 then 0 else pdMS_TO_TICKS hz t)
          with ⟨r, qn⟩
        rw [hz1] at c1 c2
        cases r with
        | some p => exact ⟨fun p hp => c1 p hp, a2, b2, c2⟩
        | none => exact ⟨fun p hp => c1 p hp, a2, b2, c2⟩
  · simp only [Bool.not_eq_true] at hi
    simp only [hi, Bool.not_false, if_true]
    exact ⟨fun p hp => by simp at hp, h1, h2, h3⟩

theorem xQueueReset_items (q : Option Queue) : queueItems (xQueueReset q) = [] := by
  cases q <;> rfl

theorem run_items (s : DataScheduler) (call : SchedulerCall) (P : DataPacket → Prop)
    (hs : AllPackets P s) (hc : ∀ c, call = SchedulerCall.enqueue c → P c.packet) :
    AllPackets P (call.run s) := by
  cases call with
  | enqueue c => exact enqueue_items s c P hs (hc c rfl)
  | getNextPacket t hz => exact (getNextPacket_items s t hz P hs).2
  | clearAllQueues =>
    simp only [SchedulerCall.run, DataScheduler.clearAllQueues]
    split_ifs
    · exact hs
    · refine ⟨?_, ?_, ?_⟩ <;> intro p hp <;> simp [xQueueReset_items] at hp
  | setAudioRateLimit L => exact hs
  | canSendAudio t =>
    obtain ⟨e1, e2, e3, _⟩ := canSendAudio_queues s t
    obtain ⟨h1, h2, h3⟩ := hs
    exact ⟨by rw [SchedulerCall.run, e1]; exact h1, by rw [SchedulerCall.run, e2]; exact h2,
      by rw [SchedulerCall.run, e3]; exact h3⟩

theorem runSchedulerCalls_items (P : DataPacket → Prop) (history : List SchedulerCall) :
    ∀ s : DataScheduler, AllPackets P s →
      (∀ c, SchedulerCall.enqueue c ∈ history → P c.packet) →
      AllPackets P (runSchedulerCalls history s) := by
  induction history with
  | nil => intro s hs _; exact hs
  | cons call rest ih =>
    intro s hs hc
    exact ih (call.run s)
      (run_items s call P hs (fun c hcall => hc c (by rw [hcall]; exact List.mem_cons_self _ _)))
      (fun c hmem => hc c (List.mem_cons_of_mem _ hmem))

theorem begin_items (c h n : Nat) (okC okH okN : Bool) (P : DataPacket → Prop) :
    AllPackets P (DataScheduler.new.begin c h n okC okH okN).2 := by
  unfold DataScheduler.begin AllPackets
  simp only [xQueueCreate, DataScheduler.new]
  split_ifs <;> simp_all [queueItems]

theorem heartRatePacket_shape (hr t : Nat) :
    (DataScheduler.heartRatePacket hr t).priority = DataPriority.PRIORITY_HIGH ∧
    (DataScheduler.heartRatePacket hr t).type = DataType.DATA_HEART_RATE ∧
    (DataScheduler.heartRatePacket hr t).dataSize = 1 ∧
    (DataScheduler.heartRatePacket hr t).data.take 1 = [hr] :=
  ⟨rfl, rfl, rfl, rfl⟩

theorem audioPacket_shape (d : List Nat) (n t : Nat) :
    (DataScheduler.audioPacket d n t).priority = DataPriority.PRIORITY_NORMAL ∧
    (DataScheduler.audioPacket d n t).type = DataType.DATA_AUDIO ∧
    (DataScheduler.audioPacket d n t).dataSize = min n 244 ∧
    (min n 244 ≤ d.length →
      (DataScheduler.audioPacket d n t).data.take (min n 244) = d.take (min n 244)) := by
  refine ⟨rfl, rfl, rfl, ?_⟩
  intro hlen
  simp only [DataScheduler.audioPacket, memcpy, MAX_AUDIO_SIZE]
  rw [List.take_append_of_le_length (by rw [List.length_take]; omega)]
  rw [List.take_take]
  simp

/-! ## Scheduler: packet shapes, empty chunks, teardown and the default limit -/

/-- C21. Packet invariant: on a scheduler that was constructed and begun, after
any sequence of calls on its interface, a packet handed out by `getNextPacket`
has `dataSize ≤ 244` and is the packet built by one of the enqueue calls of the
sequence: (CRITICAL, ALERT, `dataSize ≤ 31`), or (HIGH, HEART_RATE,
`dataSize = 1`, payload byte equal to the enqueued bpm), or (NORMAL, AUDIO,
`dataSize = min size 244`, payload equal to the first `dataSize` bytes of the
enqueued chunk). -/
theorem returned_packet_shape (c h n : Nat) (okC okH okN : Bool)
    (history : List SchedulerCall) (timeoutMs hz : Nat) (p : DataPacket)
    (hp : ((runSchedulerCalls history
      (DataScheduler.new.begin c h n okC okH okN).2).getNextPacket timeoutMs hz).1 = some p) :
    p.dataSize ≤ 244 ∧
    ((∃ m now, SchedulerCall.enqueue (EnqueueCall.alert m now) ∈ history ∧
        p = DataScheduler.alertPacket m now ∧
        p.priority = DataPriority.PRIORITY_CRITICAL ∧ p.type = DataType.DATA_ALERT ∧
        p.dataSize ≤ 31) ∨
     (∃ hr now, SchedulerCall.enqueue (EnqueueCall.heartRate hr now) ∈ history ∧
        p = DataScheduler.heartRatePacket hr now ∧
        p.priority = DataPriority.PRIORITY_HIGH ∧ p.type = DataType.DATA_HEART_RATE ∧
        p.dataSize = 1 ∧ p.data.take 1 = [hr]) ∨
     (∃ d size t1 t2 t3,
        SchedulerCall.enqueue (EnqueueCall.audio d size t1 t2 t3) ∈ history ∧
        p = DataScheduler.audioPacket d size t2 ∧
        p.priority = DataPriority.PRIORITY_NORMAL ∧ p.type = DataType.DATA_AUDIO ∧
        p.dataSize = min size 244 ∧
        (min size 244 ≤ d.length → p.data.take p.dataSize = d.take p.dataSize))) := by
  have hinv := runSchedulerCalls_items
    (fun q => ∃ call, SchedulerCall.enqueue call ∈ history ∧ q = call.packet) history
    (DataScheduler.new.begin c h n okC okH okN).2 (begin_items c h n okC okH okN _)
    (fun call hmem => ⟨call, hmem, rfl⟩)
  obtain ⟨call, hmem, hpk⟩ := (getNextPacket_items _ timeoutMs hz _ hinv).1 p hp
  cases call with
  | alert m now =>
    obtain ⟨a1, a2, _, a4, _⟩ := alertPacket_shape m now
    have hsz : p.dataSize ≤ 31 := by
      rw [hpk]
      show (DataScheduler.alertPacket m now).dataSize ≤ 31
      rw [a4]
      exact Nat.min_le_right _ _
    refine ⟨by omega, Or.inl ⟨m, now, hmem, hpk, ?_, ?_, hsz⟩⟩
    · rw [hpk]; exact a1
    · rw [hpk]; exact a2
  | heartRate b now =>
    obtain ⟨a1, a2, a3, a4⟩ := heartRatePacket_shape b now
    refine ⟨?_, Or.inr (Or.inl ⟨b, now, hmem, hpk, ?_, ?_, ?_, ?_⟩)⟩
    · rw [hpk]; show (DataScheduler.heartRatePacket b now).dataSize ≤ 244; rw [a3]; decide
    · rw [hpk]; exact a1
    · rw [hpk]; exact a2
    · rw [hpk]; exact a3
    · rw [hpk]; exact a4
  | audio d size t1 t2 t3 =>
    obtain ⟨a1, a2, a3, a4⟩ := audioPacket_shape d size t2
    refine ⟨?_, Or.inr (Or.inr ⟨d, size, t1, t2, t3, hmem, hpk, ?_, ?_, ?_, ?_⟩)⟩
    · rw [hpk]; show (DataScheduler.audioPacket d size t2).dataSize ≤ 244; rw [a3]
      exact Nat.min_le_right _ _
    · rw [hpk]; exact a1
    · rw [hpk]; exact a2
    · rw [hpk]; exact a3
    · intro hlen
      rw [hpk]
      show (DataScheduler.audioPacket d size t2).data.take
          (DataScheduler.audioPacket d size t2).dataSize =
        d.take (DataScheduler.audioPacket d size t2).dataSize
      rw [a3]
      exact a4 hlen

/-- Witness for C21: after an audio chunk, a heart-rate sample, a rate-limit
change and an alert, `getNextPacket` hands out the alert packet. -/
theorem returned_packet_shape_witness :
    ((runSchedulerCalls
        [SchedulerCall.enqueue (EnqueueCall.audio [1, 2, 3] 3 5 5 5),
         SchedulerCall.enqueue (EnqueueCall.heartRate 72 6),
         SchedulerCall.setAudioRateLimit 15,
         SchedulerCall.enqueue (EnqueueCall.alert [70, 65, 76, 76, 0] 7)]
        (DataScheduler.new.begin 10 10 20 true true true).2).getNextPacket 0 1000).1 =
      some (DataScheduler.alertPacket [70, 65, 76, 76, 0] 7) ∧
    (DataScheduler.alertPacket [70, 65, 76, 76, 0] 7).dataSize ≤ 244 :=
  ⟨rfl,
    (returned_packet_shape 10 10 20 true true true
      [SchedulerCall.enqueue (EnqueueCall.audio [1, 2, 3] 3 5 5 5),
       SchedulerCall.enqueue (EnqueueCall.heartRate 72 6),
       SchedulerCall.setAudioRateLimit 15,
       SchedulerCall.enqueue (EnqueueCall.alert [70, 65, 76, 76, 0] 7)]
      0 1000 (DataScheduler.alertPacket [70, 65, 76, 76, 0] 7) rfl).1⟩

/-- C22, as stated, fails on the code. On a freshly begun scheduler
`enqueueAudio` with size 0 returns `true`, puts a packet into the NORMAL queue
(depth 0 becomes 1) and raises the window count from 0 to 1. -/
theorem zero_length_chunk_is_enqueued :
    (DataScheduler.new.begin 10 10 20 true true true).2.getNormalQueueCount = 0 ∧
    (DataScheduler.new.begin 10 10 20 true true true).2.audioPacketsThisSecond = 0 ∧
    ((DataScheduler.new.begin 10 10 20 true true true).2.enqueueAudio [] 0 5 5 5).1 = true ∧
    ((DataScheduler.new.begin 10 10 20 true true true).2.enqueueAudio
      [] 0 5 5 5).2.getNormalQueueCount = 1 ∧
    queueItems ((DataScheduler.new.begin 10 10 20 true true true).2.enqueueAudio
      [] 0 5 5 5).2.normalQueue = [DataScheduler.audioPacket [] 0 5] ∧
    ((DataScheduler.new.begin 10 10 20 true true true).2.enqueueAudio
      [] 0 5 5 5).2.audioPacketsThisSecond = 1 := by
  refine ⟨rfl, rfl, rfl, rfl, rfl, rfl⟩

/-- C22 amended. `enqueueAudio` has no size check: a chunk of size 0 is handled
like any other. The packet it builds has `dataSize = 0`; when the rate gate and
the queue admit it, the call returns `true`, the packet is appended to the
NORMAL queue and the window count goes up by one (in `uint16_t`); when the rate
gate refuses, the call returns `false` and queue and drop counters are
unchanged; when the queue is full, the call returns `false`, the queue is
unchanged and the NORMAL drop counter goes up by one (in `uint32_t`). -/
theorem zero_length_chunk_enqueued_as_empty_packet (s : DataScheduler) (d : List Nat)
    (t1 t2 t3 : Nat) (hr : Ready s) :
    (DataScheduler.audioPacket d 0 t2).dataSize = 0 ∧
    ((s.canSendAudio t1).1 = true →
      uxQueueMessagesWaiting s.normalQueue < queueCapacity s.normalQueue →
      (s.enqueueAudio d 0 t1 t2 t3).1 = true ∧
      queueItems (s.enqueueAudio d 0 t1 t2 t3).2.normalQueue =
        queueItems s.normalQueue ++ [DataScheduler.audioPacket d 0 t2] ∧
      (s.enqueueAudio d 0 t1 t2 t3).2.audioPacketsThisSecond =
        ((s.canSendAudio t1).2.audioPacketsThisSecond + 1) % UINT16_MOD ∧
      dropCounters (s.enqueueAudio d 0 t1 t2 t3).2 = dropCounters s) ∧
    ((s.canSendAudio t1).1 = false →
      (s.enqueueAudio d 0 t1 t2 t3).1 = false ∧
      queueItems (s.enqueueAudio d 0 t1 t2 t3).2.normalQueue = queueItems s.normalQueue ∧
      (s.enqueueAudio d 0 t1 t2 t3).2.audioPacketsThisSecond =
        (s.canSendAudio t1).2.audioPacketsThisSecond ∧
      dropCounters (s.enqueueAudio d 0 t1 t2 t3).2 = dropCounters s) ∧
    ((s.canSendAudio t1).1 = true →
      ¬ uxQueueMessagesWaiting s.normalQueue < queueCapacity s.normalQueue →
      (s.enqueueAudio d 0 t1 t2 t3).1 = false ∧
      queueItems (s.enqueueAudio d 0 t1 t2 t3).2.normalQueue = queueItems s.normalQueue ∧
      (s.enqueueAudio d 0 t1 t2 t3).2.audioPacketsThisSecond =
        (s.canSendAudio t1).2.audioPacketsThisSecond ∧
      dropCounters (s.enqueueAudio d 0 t1 t2 t3).2 =
        (s.droppedCriticalPackets, s.droppedHighPackets,
          (s.droppedNormalPackets + 1) % UINT32_MOD)) := by
  obtain ⟨c1, c2, c3⟩ := enqueueAudio_cases s d 0 t1 t2 t3 hr
  obtain ⟨e1, e2, e3, _⟩ := canSendAudio_queues s t1
  obtain ⟨k1, k2, k3⟩ : (s.canSendAudio t1).2.droppedCriticalPackets = s.droppedCriticalPackets ∧
      (s.canSendAudio t1).2.droppedHighPackets = s.droppedHighPackets ∧
      (s.canSendAudio t1).2.droppedNormalPackets = s.droppedNormalPackets := by
    unfold DataScheduler.canSendAudio
    split_ifs <;> exact ⟨rfl, rfl, rfl⟩
  refine ⟨rfl, ?_, ?_, ?_⟩
  · intro hg hroom
    rw [c3 hg hroom]
    exact ⟨rfl, rfl, rfl, by simp only [dropCounters, k1, k2, k3]⟩
  · intro hg
    rw [c1 hg]
    exact ⟨rfl, by rw [e3], rfl, by simp only [dropCounters, k1, k2, k3]⟩
  · intro hg hfull
    rw [c2 hg hfull]
    exact ⟨rfl, by show queueItems (s.canSendAudio t1).2.normalQueue = _; rw [e3], rfl,
      by simp only [dropCounters, k1, k2]⟩

/-- Witness for C22 amended: a freshly begun scheduler. -/
theorem zero_length_chunk_enqueued_as_empty_packet_witness :
    Ready (DataScheduler.new.begin 10 10 20 true true true).2 ∧
    (((DataScheduler.new.begin 10 10 20 true true true).2.canSendAudio 5).1 = true →
      uxQueueMessagesWaiting (DataScheduler.new.begin 10 10 20 true true true).2.normalQueue <
        queueCapacity (DataScheduler.new.begin 10 10 20 true true true).2.normalQueue →
      ((DataScheduler.new.begin 10 10 20 true true true).2.enqueueAudio [] 0 5 5 5).1 = true ∧
      queueItems ((DataScheduler.new.begin 10 10 20 true true true).2.enqueueAudio
          [] 0 5 5 5).2.normalQueue =
        queueItems (DataScheduler.new.begin 10 10 20 true true true).2.normalQueue ++
          [DataScheduler.audioPacket [] 0 5] ∧
      ((DataScheduler.new.begin 10 10 20 true true true).2.enqueueAudio
          [] 0 5 5 5).2.audioPacketsThisSecond =
        (((DataScheduler.new.begin 10 10 20 true true true).2.canSendAudio
          5).2.audioPacketsThisSecond + 1) % UINT16_MOD ∧
      dropCounters ((DataScheduler.new.begin 10 10 20 true true true).2.enqueueAudio
          [] 0 5 5 5).2 =
        dropCounters (DataScheduler.new.begin 10 10 20 true true true).2) :=
  ⟨(ready_begin 10 10 20 (by decide) (by decide) (by decide)).2,
    (zero_length_chunk_enqueued_as_empty_packet
      (DataScheduler.new.begin 10 10 20 true true true).2 [] 5 5 5
      (ready_begin 10 10 20 (by decide) (by decide) (by decide)).2).2.1⟩

/-- C23. `clearAllQueues` drops every pending packet: afterwards the three depth
counters are 0, `hasPackets` is false and `getNextPacket` returns no packet
(for timeout 0 as for any other); on an initialized scheduler the three queues
are empty; the three drop counters, the rate limit, the window start and the
window count are unchanged. -/
theorem clearAllQueues_frame (s : DataScheduler) (timeoutMs hz : Nat) :
    s.clearAllQueues.getCriticalQueueCount = 0 ∧
    s.clearAllQueues.getHighQueueCount = 0 ∧
    s.clearAllQueues.getNormalQueueCount = 0 ∧
    s.clearAllQueues.hasPackets = false ∧
    (s.clearAllQueues.getNextPacket 0 hz).1 = none ∧
    (s.clearAllQueues.getNextPacket timeoutMs hz).1 = none ∧
    (s.initialized = true →
      queueItems s.clearAllQueues.criticalQueue = [] ∧
      queueItems s.clearAllQueues.highQueue = [] ∧
      queueItems s.clearAllQueues.normalQueue = []) ∧
    dropCounters s.clearAllQueues = dropCounters s ∧
    s.clearAllQueues.audioRateLimit = s.audioRateLimit ∧
    s.clearAllQueues.audioRateLimitWindowStart = s.audioRateLimitWindowStart ∧
    s.clearAllQueues.audioPacketsThisSecond = s.audioPacketsThisSecond ∧
    s.clearAllQueues.initialized = s.initialized := by
  obtain ⟨qc, qh, qn, lim, lt, cnt, ws, d1, d2, d3, ini⟩ := s
  cases ini
  · simp [DataScheduler.clearAllQueues, DataScheduler.getCriticalQueueCount,
      DataScheduler.getHighQueueCount, DataScheduler.getNormalQueueCount,
      DataScheduler.hasPackets, DataScheduler.getNextPacket]
  · cases qc <;> cases qh <;> cases qn <;>
      simp [DataScheduler.clearAllQueues, DataScheduler.getCriticalQueueCount,
        DataScheduler.getHighQueueCount, DataScheduler.getNormalQueueCount,
        DataScheduler.hasPackets, DataScheduler.getNextPacket, xQueueReset, xQueueReceive,
        uxQueueMessagesWaiting, queueItems, dropCounters]

/-- C26, as stated, fails on the code. The constructor sets the rate limit to
30, and on a freshly begun scheduler with NORMAL capacity 20 on which
`setAudioRateLimit` was never called, 20 audio chunks offered in the first
window are all admitted. -/
theorem default_limit_admits_more_than_15 :
    DataScheduler.new.audioRateLimit = 30 ∧
    (DataScheduler.new.begin 10 10 20 true true true).2.audioRateLimit = 30 ∧
    (results (audioCalls (List.replicate 20 ⟨[1, 2], 2, 5, 5, 5⟩))
      (DataScheduler.new.begin 10 10 20 true true true).2).count true = 20 := by
  refine ⟨rfl, rfl, ?_⟩
  have h := audioCalls_inWindow (List.replicate 20 ⟨[1, 2], 2, 5, 5, 5⟩)
    (DataScheduler.new.begin 10 10 20 true true true).2
    (ready_begin 10 10 20 (by decide) (by decide) (by decide)).2 (by decide)
    (by
      intro x hx
      rw [List.eq_of_mem_replicate hx]
      decide)
  rw [h, count_true_fill]
  rfl

/-- C26 amended. The scheduler's own default is the high operating point: the
constructor sets the limit to 30, `begin` and every call other than
`setAudioRateLimit` keep it, and a freshly begun scheduler with NORMAL
capacity `n` admits `min k (min 30 n)` of `k` audio chunks offered in its first
window. The low operating point is applied by the audio detector:
`setDataScheduler` with a non-null scheduler calls `setAudioRateLimit 15`,
after which the limit is 15. -/
theorem default_rate_limit (c h n : Nat) (calls : List AudioCall)
    (history : List SchedulerCall) (a : AudioDetector)
    (hc : 0 < c) (hh : 0 < h) (hn : 0 < n)
    (hwin : ∀ x ∈ calls, x.tCheck < 1000)
    (hset : ∀ L, SchedulerCall.setAudioRateLimit L ∉ history) :
    DataScheduler.new.audioRateLimit = 30 ∧
    (runSchedulerCalls history
      (DataScheduler.new.begin c h n true true true).2).audioRateLimit = 30 ∧
    (results (audioCalls calls) (DataScheduler.new.begin c h n true true true).2).count true =
      min calls.length (min 30 n) ∧
    (a.setDataScheduler true).2 = [SchedulerCall.setAudioRateLimit 15] ∧
    (runSchedulerCalls (a.setDataScheduler true).2
      (DataScheduler.new.begin c h n true true true).2).audioRateLimit = 15 := by
  have hb : (DataScheduler.new.begin c h n true true true).2.audioRateLimit = 30 := by
    simp [DataScheduler.begin, DataScheduler.new, xQueueCreate, hc, hh, hn]
  have hkeep : ∀ (hist : List SchedulerCall) (s : DataScheduler),
      (∀ L, SchedulerCall.setAudioRateLimit L ∉ hist) →
      (runSchedulerCalls hist s).audioRateLimit = s.audioRateLimit := by
    intro hist
    induction hist with
    | nil => intro s _; rfl
    | cons call rest ih =>
      intro s hno
      rw [runSchedulerCalls, ih (call.run s) (fun L hm => hno L (List.mem_cons_of_mem _ hm))]
      exact run_keeps_rate_limit s call
        (fun L hcall => hno L (by rw [hcall]; exact List.mem_cons_self _ _))
  obtain ⟨_, hready⟩ := ready_begin c h n hc hh hn
  have hst : (DataScheduler.new.begin c h n true true true).2.audioPacketsThisSecond = 0 ∧
      (DataScheduler.new.begin c h n true true true).2.audioRateLimitWindowStart = 0 ∧
      uxQueueMessagesWaiting (DataScheduler.new.begin c h n true true true).2.normalQueue = 0 ∧
      queueCapacity (DataScheduler.new.begin c h n true true true).2.normalQueue = n := by
    simp [DataScheduler.begin, DataScheduler.new, xQueueCreate, hc, hh, hn,
      uxQueueMessagesWaiting, queueCapacity]
  obtain ⟨s1, s2, s3, s4⟩ := hst
  refine ⟨rfl, ?_, ?_, rfl, ?_⟩
  · rw [hkeep history _ hset, hb]
  · have h := audioCalls_inWindow calls (DataScheduler.new.begin c h n true true true).2
      hready (by rw [hb]; decide)
      (by
        intro x hx
        rw [s2]
        have := hwin x hx
        unfold windowExpired UINT32_MOD
        omega)
    rw [h, count_true_fill, hb, s1, s3, s4]
    rfl
  · rfl

/-- Witness for C26 amended: capacity 20 and 40 chunks in the first window give
20 successes; with capacity 40 they would give 30. -/
theorem default_rate_limit_witness :
    (results (audioCalls (List.replicate 40 ⟨[1, 2], 2, 5, 5, 5⟩))
      (DataScheduler.new.begin 10 10 40 true true true).2).count true = min 40 (min 30 40) :=
  (default_rate_limit 10 10 40 (List.replicate 40 ⟨[1, 2], 2, 5, 5, 5⟩)
    [SchedulerCall.enqueue (EnqueueCall.heartRate 72 6)] AudioDetector.new
    (by decide) (by decide) (by decide)
    (by
      intro x hx
      rw [List.eq_of_mem_replicate hx]
      decide)
    (by
      intro L hm
      simp at hm)).2.2.1

/-! ## Codec: quantizer levels and predictor bound -/

namespace ADPCMCodec

theorem levelThreshold_table (s : Int) :
    levelThreshold s 0 = 0 ∧ levelThreshold s 1 = s / 4 ∧ levelThreshold s 2 = s / 2 ∧
    levelThreshold s 3 = s / 2 + s / 4 ∧ levelThreshold s 4 = s ∧
    levelThreshold s 5 = s + s / 4 ∧ levelThreshold s 6 = s + s / 2 ∧
    levelThreshold s 7 = s + s / 2 + s / 4 := by
  simp +decide [levelThreshold]

theorem wrap16_id (y : Int) (h1 : -32768 ≤ y) (h2 : y ≤ 32767) : wrap16 y = y := by
  unfold wrap16; omega

theorem quantize_level (x p s : Int) (hs7 : 7 ≤ s) (hs : s ≤ 32767)
    (hd : |x - p| ≤ 32767) :
    quantize x p s < 16 ∧
    levelThreshold s (quantize x p s % 8) ≤ |x - p| ∧
    (∀ k, k < 8 → levelThreshold s k ≤ |x - p| → k ≤ quantize x p s % 8) ∧
    (quantize x p s / 8 = if x - p < 0 then 1 else 0) := by
  refine ⟨quantize_lt x p s, ?_⟩
  obtain ⟨t0, t1, t2, t3, t4, t5, t6, t7⟩ := levelThreshold_table s
  have e4 : s / 2 / 2 = s / 4 := by omega
  rcases abs_cases (x - p) with ⟨h, h'⟩ | ⟨h, h'⟩
  · rw [h] at hd ⊢
    have hw : wrap16 (x - p) = x - p := by unfold wrap16; omega
    have hneg : ¬ (x - p < 0) := by omega
    simp only [quantize, hw, hneg, if_false, e4]
    clear hw h
    by_cases c2 : x - p ≥ s
    · have wc2 : wrap16 (x - p - s) = x - p - s := by unfold wrap16; omega
      simp only [c2, if_true, wc2]
      by_cases c1 : x - p - s ≥ s / 2
      · have wc1 : wrap16 (x - p - s - s / 2) = x - p - s - s / 2 := by unfold wrap16; omega
        simp only [c1, if_true, wc1]
        by_cases c0 : x - p - s - s / 2 ≥ s / 4
        · have wc0 : wrap16 (x - p - s - s / 2 - s / 4) = x - p - s - s / 2 - s / 4 := by unfold wrap16; omega
          simp only [c0, if_true, wc0]
          refine ⟨?_, ?_, rfl⟩
          · show levelThreshold s 7 ≤ _
            rw [t7]
            omega
          · intro k hk hT
            show k ≤ 7
            interval_cases k <;> simp only [t0, t1, t2, t3, t4, t5, t6, t7] at hT <;> omega
        · simp only [c0, if_false]
          refine ⟨?_, ?_, rfl⟩
          · show levelThreshold s 6 ≤ _
            rw [t6]
            omega
          · intro k hk hT
            show k ≤ 6
            interval_cases k <;> simp only [t0, t1, t2, t3, t4, t5, t6, t7] at hT <;> omega
      · simp only [c1, if_false]
        by_cases c0 : x - p - s ≥ s / 4
        · have wc0 : wrap16 (x - p - s - s / 4) = x - p - s - s / 4 := by unfold wrap16; omega
          simp only [c0, if_true, wc0]
          refine ⟨?_, ?_, rfl⟩
          · show levelThreshold s 5 ≤ _
            rw [t5]
            omega
          · intro k hk hT
            show k ≤ 5
            interval_cases k <;> simp only [t0, t1, t2, t3, t4, t5, t6, t7] at hT <;> omega
        · simp only [c0, if_false]
          refine ⟨?_, ?_, rfl⟩
          · show levelThreshold s 4 ≤ _
            rw [t4]
            omega
          · intro k hk hT
            show k ≤ 4
            interval_cases k <;> simp only [t0, t1, t2, t3, t4, t5, t6, t7] at hT <;> omega
    · simp only [c2, if_false]
      by_cases c1 : x - p ≥ s / 2
      · have wc1 : wrap16 (x - p - s / 2) = x - p - s / 2 := by unfold wrap16; omega
        simp only [c1, if_true, wc1]
        by_cases c0 : x - p - s / 2 ≥ s / 4
        · have wc0 : wrap16 (x - p - s / 2 - s / 4) = x - p - s / 2 - s / 4 := by unfold wrap16; omega
          simp only [c0, if_true, wc0]
          refine ⟨?_, ?_, rfl⟩
          · show levelThreshold s 3 ≤ _
            rw [t3]
            omega
          · intro k hk hT
            show k ≤ 3
            interval_cases k <;> simp only [t0, t1, t2, t3, t4, t5, t6, t7] at hT <;> omega
        · simp only [c0, if_false]
          refine ⟨?_, ?_, rfl⟩
          · show levelThreshold s 2 ≤ _
            rw [t2]
            omega
          · intro k hk hT
            show k ≤ 2
            interval_cases k <;> simp only [t0, t1, t2, t3, t4, t5, t6, t7] at hT <;> omega
      · simp only [c1, if_false]
        by_cases c0 : x - p ≥ s / 4
        · have wc0 : wrap16 (x - p - s / 4) = x - p - s / 4 := by unfold wrap16; omega
          simp only [c0, if_true, wc0]
          refine ⟨?_, ?_, rfl⟩
          · show levelThreshold s 1 ≤ _
            rw [t1]
            omega
          · intro k hk hT
            show k ≤ 1
            interval_cases k <;> simp only [t0, t1, t2, t3, t4, t5, t6, t7] at hT <;> omega
        · simp only [c0, if_false]
          refine ⟨?_, ?_, trivial⟩
          · show levelThreshold s 0 ≤ _
            rw [t0]
            omega
          · intro k hk hT
            show k ≤ 0
            interval_cases k <;> simp only [t0, t1, t2, t3, t4, t5, t6, t7] at hT <;> omega
  · rw [h] at hd ⊢
    have hw : wrap16 (x - p) = x - p := by unfold wrap16; omega
    have hw2 : wrap16 (-(x - p)) = -(x - p) := by unfold wrap16; omega
    have hneg : x - p < 0 := h'
    simp only [quantize, hw, hw2, hneg, if_true, e4]
    clear hw hw2 h
    by_cases c2 : -(x - p) ≥ s
    · have wc2 : wrap16 (-(x - p) - s) = -(x - p) - s := by unfold wrap16; omega
      simp only [c2, if_true, wc2]
      by_cases c1 : -(x - p) - s ≥ s / 2
      · have wc1 : wrap16 (-(x - p) - s - s / 2) = -(x - p) - s - s / 2 := by unfold wrap16; omega
        simp only [c1, if_true, wc1]
        by_cases c0 : -(x - p) - s - s / 2 ≥ s / 4
        · have wc0 : wrap16 (-(x - p) - s - s / 2 - s / 4) = -(x - p) - s - s / 2 - s / 4 := by unfold wrap16; omega
          simp only [c0, if_true, wc0]
          refine ⟨?_, ?_, rfl⟩
          · show levelThreshold s 7 ≤ _
            rw [t7]
            omega
          · intro k hk hT
            show k ≤ 7
            interval_cases k <;> simp only [t0, t1, t2, t3, t4, t5, t6, t7] at hT <;> omega
        · simp only [c0, if_false]
          refine ⟨?_, ?_, rfl⟩
          · show levelThreshold s 6 ≤ _
            rw [t6]
            omega
          · intro k hk hT
            show k ≤ 6
            interval_cases k <;> simp only [t0, t1, t2, t3, t4, t5, t6, t7] at hT <;> omega
      · simp only [c1, if_false]
        by_cases c0 : -(x - p) - s ≥ s / 4
        · have wc0 : wrap16 (-(x - p) - s - s / 4) = -(x - p) - s - s / 4 := by unfold wrap16; omega
          simp only [c0, if_true, wc0]
          refine ⟨?_, ?_, rfl⟩
          · show levelThreshold s 5 ≤ _
            rw [t5]
            omega
          · intro k hk hT
            show k ≤ 5
            interval_cases k <;> simp only [t0, t1, t2, t3, t4, t5, t6, t7] at hT <;> omega
        · simp only [c0, if_false]
          refine ⟨?_, ?_, rfl⟩
          · show levelThreshold s 4 ≤ _
            rw [t4]
            omega
          · intro k hk hT
            show k ≤ 4
            interval_cases k <;> simp only [t0, t1, t2, t3, t4, t5, t6, t7] at hT <;> omega
    · simp only [c2, if_false]
      by_cases c1 : -(x - p) ≥ s / 2
      · have wc1 : wrap16 (-(x - p) - s / 2) = -(x - p) - s / 2 := by unfold wrap16; omega
        simp only [c1, if_true, wc1]
        by_cases c0 : -(x - p) - s / 2 ≥ s / 4
        · have wc0 : wrap16 (-(x - p) - s / 2 - s / 4) = -(x - p) - s / 2 - s / 4 := by unfold wrap16; omega
          simp only [c0, if_true, wc0]
          refine ⟨?_, ?_, rfl⟩
          · show levelThreshold s 3 ≤ _
            rw [t3]
            omega
          · intro k hk hT
            show k ≤ 3
            interval_cases k <;> simp only [t0, t1, t2, t3, t4, t5, t6, t7] at hT <;> omega
        · simp only [c0, if_false]
          refine ⟨?_, ?_, rfl⟩
          · show levelThreshold s 2 ≤ _
            rw [t2]
            omega
          · intro k hk hT
            show k ≤ 2
            interval_cases k <;> simp only [t0, t1, t2, t3, t4, t5, t6, t7] at hT <;> omega
      · simp only [c1, if_false]
        by_cases c0 : -(x - p) ≥ s / 4
        · have wc0 : wrap16 (-(x - p) - s / 4) = -(x - p) - s / 4 := by unfold wrap16; omega
          simp only [c0, if_true, wc0]
          refine ⟨?_, ?_, rfl⟩
          · show levelThreshold s 1 ≤ _
            rw [t1]
            omega
          · intro k hk hT
            show k ≤ 1
            interval_cases k <;> simp only [t0, t1, t2, t3, t4, t5, t6, t7] at hT <;> omega
        · simp only [c0, if_false]
          refine ⟨?_, ?_, trivial⟩
          · show levelThreshold s 0 ≤ _
            rw [t0]
            omega
          · intro k hk hT
            show k ≤ 0
            interval_cases k <;> simp only [t0, t1, t2, t3, t4, t5, t6, t7] at hT <;> omega

theorem wrap16_range (y : Int) : -32768 ≤ wrap16 y ∧ wrap16 y ≤ 32767 := by
  unfold wrap16; omega

theorem decodeStep_predicted (st st1 : ADPCMState) (code : Nat) (s : Int)
    (hs : stepSizeAt st.stepIndex = some s) (hd : decodeStep st code = some st1) :
    st1.predictedSample =
      if code &&& 8 ≠ 0 then wrap16 (st.predictedSample - reconstructDelta s code)
      else wrap16 (st.predictedSample + reconstructDelta s code) := by
  simp only [decodeStep, hs] at hd
  cases hi : indexAt code with
  | none => simp [hi] at hd
  | some adj =>
    simp only [hi, Option.some.injEq] at hd
    subst hd
    simp only [reconstructDelta]
    have r1 := wrap16_range (st.predictedSample - reconstructDelta s code)
    have r2 := wrap16_range (st.predictedSample + reconstructDelta s code)
    simp only [reconstructDelta] at r1 r2
    split_ifs at r1 r2 ⊢ <;> omega

theorem reconstructDelta_eq (s : Int) (code : Nat) (hc : code < 16) (hs7 : 7 ≤ s)
    (h : levelThreshold s (code % 8) + s / 8 ≤ 32767) :
    reconstructDelta s code = s / 8 + levelThreshold s (code % 8) ∧
    reconstructDelta s code = idealDelta s code := by
  interval_cases code <;>
    simp +decide [levelThreshold] at h <;>
    simp +decide [reconstructDelta, idealDelta, levelThreshold, wrap16] <;>
    omega

theorem quantize_sign (x p s : Int) (hd : |x - p| ≤ 32767) :
    (quantize x p s &&& 8 ≠ 0) ↔ x - p < 0 := by
  have hw : wrap16 (x - p) = x - p := by
    rcases abs_cases (x - p) with ⟨h, h'⟩ | ⟨h, h'⟩ <;> unfold wrap16 <;> omega
  simp only [quantize, hw]
  split_ifs <;> simp +decide <;> omega


/-- C27. Bit-plane quantization picks the greatest level not above the
difference: with step size `s` and `d = |sample - predictedSample| ≤ 32767`,
`encodeSample` returns a code whose 3-bit magnitude `m` satisfies `T(m) ≤ d`
and is the largest such level in 0..7; `m = 0` iff `d < s/4`, `m = 7` iff
`d ≥ s + s/2 + s/4`, and a sample with a larger difference gets a magnitude
that is at least as large. -/
theorem quantize_greatest_level (c : ADPCMCodec) (s x y : Int)
    (h0 : 0 ≤ c.encoderState.stepIndex) (h1 : c.encoderState.stepIndex ≤ 88)
    (hs : stepSizeAt c.encoderState.stepIndex = some s)
    (hx : |x - c.encoderState.predictedSample| ≤ 32767)
    (hy : |y - c.encoderState.predictedSample| ≤ 32767) :
    ∃ code c1 code2 c2,
      c.encodeSample x = some (code, c1) ∧ c.encodeSample y = some (code2, c2) ∧
      code < 16 ∧
      levelThreshold s (code % 8) ≤ |x - c.encoderState.predictedSample| ∧
      (∀ k, k < 8 → levelThreshold s k ≤ |x - c.encoderState.predictedSample| →
        k ≤ code % 8) ∧
      (code % 8 = 0 ↔ |x - c.encoderState.predictedSample| < s / 4) ∧
      (code % 8 = 7 ↔ s + s / 2 + s / 4 ≤ |x - c.encoderState.predictedSample|) ∧
      (|x - c.encoderState.predictedSample| ≤ |y - c.encoderState.predictedSample| →
        code % 8 ≤ code2 % 8) := by
  obtain ⟨s0, hs0, hs7, hs32⟩ := stepSizeAt_some _ h0 h1
  rw [hs] at hs0
  cases hs0
  obtain ⟨qx1, qx2, qx3, _⟩ := quantize_level x c.encoderState.predictedSample s hs7 hs32 hx
  obtain ⟨qy1, qy2, qy3, _⟩ := quantize_level y c.encoderState.predictedSample s hs7 hs32 hy
  obtain ⟨stx, hdx, _⟩ := decodeStep_some c.encoderState _ qx1 h0 h1
  obtain ⟨sty, hdy, _⟩ := decodeStep_some c.encoderState _ qy1 h0 h1
  obtain ⟨t0, t1, t2, t3, t4, t5, t6, t7⟩ := levelThreshold_table s
  refine ⟨quantize x c.encoderState.predictedSample s, { c with encoderState := stx },
    quantize y c.encoderState.predictedSample s, { c with encoderState := sty },
    ?_, ?_, qx1, qx2, qx3, ?_, ?_, ?_⟩
  · rw [encodeSample_eq c x s hs, hdx]; rfl
  · rw [encodeSample_eq c y s hs, hdy]; rfl
  · constructor
    · intro hm
      by_contra hcon
      have := qx3 1 (by decide) (by rw [t1]; omega)
      omega
    · intro hlt
      by_contra hcon
      have hm : quantize x c.encoderState.predictedSample s % 8 < 8 := Nat.mod_lt _ (by decide)
      generalize quantize x c.encoderState.predictedSample s % 8 = m at qx2 hcon hm
      interval_cases m <;> simp only [t0, t1, t2, t3, t4, t5, t6, t7] at qx2 <;> omega
  · constructor
    · intro hm
      rw [hm, t7] at qx2
      exact qx2
    · intro hge
      have := qx3 7 (by decide) (by rw [t7]; exact hge)
      have hm : quantize x c.encoderState.predictedSample s % 8 < 8 := Nat.mod_lt _ (by decide)
      omega
  · intro hle
    exact qy3 _ (Nat.mod_lt _ (by decide)) (le_trans qx2 hle)

theorem quantize_greatest_level_witness :
    ∃ code c1 code2 c2,
      ADPCMCodec.new.encodeSample 5 = some (code, c1) ∧
      ADPCMCodec.new.encodeSample 100 = some (code2, c2) ∧
      code < 16 ∧
      levelThreshold 7 (code % 8) ≤ |(5 : Int) - ADPCMCodec.new.encoderState.predictedSample| ∧
      (∀ k, k < 8 →
        levelThreshold 7 k ≤ |(5 : Int) - ADPCMCodec.new.encoderState.predictedSample| →
        k ≤ code % 8) ∧
      (code % 8 = 0 ↔ |(5 : Int) - ADPCMCodec.new.encoderState.predictedSample| < 7 / 4) ∧
      (code % 8 = 7 ↔
        7 + 7 / 2 + 7 / 4 ≤ |(5 : Int) - ADPCMCodec.new.encoderState.predictedSample|) ∧
      (|(5 : Int) - ADPCMCodec.new.encoderState.predictedSample| ≤
          |(100 : Int) - ADPCMCodec.new.encoderState.predictedSample| →
        code % 8 ≤ code2 % 8) :=
  quantize_greatest_level ADPCMCodec.new 7 5 100 (by decide) (by decide) rfl
    (by decide) (by decide)

/-- C30. The predictor overshoots by at most one eighth of a step: with step
size `s`, `d = |sample - predictedSample|`, `d + s/8 ≤ 32767` and the updated
prediction inside `[-32768, 32767]`, `encodeSample` reconstructs a `delta` with
`s/8 ≤ delta ≤ d + s/8`, adds it towards the sample, and leaves a new
`|sample - predictedSample|` of at most `max (d - s/8) (s/8)`. -/
theorem predictor_overshoot_bound (c : ADPCMCodec) (s x : Int)
    (h0 : 0 ≤ c.encoderState.stepIndex) (h1 : c.encoderState.stepIndex ≤ 88)
    (hs : stepSizeAt c.encoderState.stepIndex = some s)
    (hd : |x - c.encoderState.predictedSample| + s / 8 ≤ 32767)
    (hlo : -32768 ≤ c.encoderState.predictedSample +
      (if x - c.encoderState.predictedSample < 0
        then -idealDelta s (quantize x c.encoderState.predictedSample s)
        else idealDelta s (quantize x c.encoderState.predictedSample s)))
    (hhi : c.encoderState.predictedSample +
      (if x - c.encoderState.predictedSample < 0
        then -idealDelta s (quantize x c.encoderState.predictedSample s)
        else idealDelta s (quantize x c.encoderState.predictedSample s)) ≤ 32767) :
    ∃ code c1,
      c.encodeSample x = some (code, c1) ∧
      s / 8 ≤ reconstructDelta s code ∧
      reconstructDelta s code ≤ |x - c.encoderState.predictedSample| + s / 8 ∧
      c1.encoderState.predictedSample =
        (if x - c.encoderState.predictedSample < 0
          then c.encoderState.predictedSample - reconstructDelta s code
          else c.encoderState.predictedSample + reconstructDelta s code) ∧
      0 ≤ (c1.encoderState.predictedSample - c.encoderState.predictedSample) *
        (x - c.encoderState.predictedSample) ∧
      |x - c1.encoderState.predictedSample| ≤
        max (|x - c.encoderState.predictedSample| - s / 8) (s / 8) := by
  obtain ⟨s0, hs0, hs7, hs32⟩ := stepSizeAt_some _ h0 h1
  rw [hs] at hs0
  cases hs0
  have hx : |x - c.encoderState.predictedSample| ≤ 32767 := by omega
  obtain ⟨q1, q2, _, _⟩ := quantize_level x c.encoderState.predictedSample s hs7 hs32 hx
  have hsign := quantize_sign x c.encoderState.predictedSample s hx
  obtain ⟨st1, hdec, _⟩ := decodeStep_some c.encoderState _ q1 h0 h1
  have hpred := decodeStep_predicted c.encoderState st1 _ s hs hdec
  obtain ⟨r1, r2⟩ := reconstructDelta_eq s _ q1 hs7 (by omega)
  have hT : 0 ≤ levelThreshold s (quantize x c.encoderState.predictedSample s % 8) := by
    unfold levelThreshold
    split_ifs <;> omega
  rw [← r2] at hlo hhi
  refine ⟨quantize x c.encoderState.predictedSample s, { c with encoderState := st1 }, ?_, ?_⟩
  · rw [encodeSample_eq c x s hs, hdec]; rfl
  show s / 8 ≤ reconstructDelta s (quantize x c.encoderState.predictedSample s) ∧
    reconstructDelta s (quantize x c.encoderState.predictedSample s) ≤
      |x - c.encoderState.predictedSample| + s / 8 ∧
    st1.predictedSample =
      (if x - c.encoderState.predictedSample < 0
        then c.encoderState.predictedSample -
          reconstructDelta s (quantize x c.encoderState.predictedSample s)
        else c.encoderState.predictedSample +
          reconstructDelta s (quantize x c.encoderState.predictedSample s)) ∧
    0 ≤ (st1.predictedSample - c.encoderState.predictedSample) *
      (x - c.encoderState.predictedSample) ∧
    |x - st1.predictedSample| ≤ max (|x - c.encoderState.predictedSample| - s / 8) (s / 8)
  generalize reconstructDelta s (quantize x c.encoderState.predictedSample s) = δ at *
  generalize levelThreshold s (quantize x c.encoderState.predictedSample s % 8) = T at *
  by_cases hneg : x - c.encoderState.predictedSample < 0
  · have hb : quantize x c.encoderState.predictedSample s &&& 8 ≠ 0 := hsign.mpr hneg
    simp only [hneg, if_true] at hlo hhi ⊢
    rw [if_pos hb] at hpred
    have hw : wrap16 (c.encoderState.predictedSample - δ) = c.encoderState.predictedSample - δ :=
      wrap16_id _ (by omega) (by omega)
    rw [hw] at hpred
    have ha : |x - c.encoderState.predictedSample| = -(x - c.encoderState.predictedSample) :=
      abs_of_neg hneg
    rw [ha] at q2 hd ⊢
    refine ⟨by omega, by omega, hpred, ?_, ?_⟩
    · rw [hpred]
      exact mul_nonneg_of_nonpos_of_nonpos (by omega) (by omega)
    · rw [hpred, le_max_iff]
      by_cases hov : 0 ≤ -(x - (c.encoderState.predictedSample - δ))
      · exact Or.inl (abs_le.mpr ⟨by omega, by omega⟩)
      · exact Or.inr (abs_le.mpr ⟨by omega, by omega⟩)
  · have hb : ¬ (quantize x c.encoderState.predictedSample s &&& 8 ≠ 0) :=
      fun h => hneg (hsign.mp h)
    simp only [hneg, if_false] at hlo hhi ⊢
    rw [if_neg hb] at hpred
    have hw : wrap16 (c.encoderState.predictedSample + δ) = c.encoderState.predictedSample + δ :=
      wrap16_id _ (by omega) (by omega)
    rw [hw] at hpred
    have ha : |x - c.encoderState.predictedSample| = x - c.encoderState.predictedSample :=
      abs_of_nonneg (by omega)
    rw [ha] at q2 hd ⊢
    refine ⟨by omega, by omega, hpred, ?_, ?_⟩
    · rw [hpred]
      exact mul_nonneg (by omega) (by omega)
    · rw [hpred, le_max_iff]
      by_cases hov : 0 ≤ x - (c.encoderState.predictedSample + δ)
      · exact Or.inl (abs_le.mpr ⟨by omega, by omega⟩)
      · exact Or.inr (abs_le.mpr ⟨by omega, by omega⟩)

theorem predictor_overshoot_bound_witness :
    ∃ code c1,
      ADPCMCodec.new.encodeSample 5 = some (code, c1) ∧
      (7 : Int) / 8 ≤ reconstructDelta 7 code ∧
      reconstructDelta 7 code ≤ |(5 : Int) - ADPCMCodec.new.encoderState.predictedSample| + 7 / 8 ∧
      c1.encoderState.predictedSample =
        (if (5 : Int) - ADPCMCodec.new.encoderState.predictedSample < 0
          then ADPCMCodec.new.encoderState.predictedSample - reconstructDelta 7 code
          else ADPCMCodec.new.encoderState.predictedSample + reconstructDelta 7 code) ∧
      0 ≤ (c1.encoderState.predictedSample - ADPCMCodec.new.encoderState.predictedSample) *
        ((5 : Int) - ADPCMCodec.new.encoderState.predictedSample) ∧
      |(5 : Int) - c1.encoderState.predictedSample| ≤
        max (|(5 : Int) - ADPCMCodec.new.encoderState.predictedSample| - 7 / 8) (7 / 8) :=
  predictor_overshoot_bound ADPCMCodec.new 7 5 (by decide) (by decide) rfl
    (by decide) (by decide) (by decide)

/-- C28 fails on the code: `setState` stores its `stepIndex` argument unchecked,
so the public interface reaches states whose step index is outside the 89-entry
table. After `setState(0, 89)`, and likewise after `setState(0, -1)`, the first
`encodeSample` reads `stepSizeTable[stepIndex]` out of bounds, and `encode` of a
single sample does not complete. -/
theorem setState_index_out_of_table :
    stepSizeAt 89 = none ∧ stepSizeAt (-1) = none ∧
    (ADPCMCodec.new.setState 0 89).encodeSample 0 = none ∧
    (ADPCMCodec.new.setState 0 (-1)).encodeSample 0 = none ∧
    runCodecCalls [CodecCall.setState 0 89, CodecCall.encode [0]] ADPCMCodec.new = none ∧
    runCodecCalls [CodecCall.setState 0 (-1), CodecCall.encode [0]] ADPCMCodec.new = none := by
  refine ⟨rfl, rfl, rfl, rfl, rfl, rfl⟩

end ADPCMCodec

/-! ## Audio detector: helper lemmas -/

theorem vadRun_eq_edgeCalls (es : List (Nat × Bool)) :
    ∀ (a : AudioDetector) (prev : Bool), (∀ e ∈ es, e.1 ≠ 0) →
      (a.voiceActiveStartTime ≠ 0 ↔ prev = true) →
      AudioDetector.vadRun a es = edgeCalls prev (es.map Prod.snd) := by
  induction es with
  | nil => intro a prev _ _; rfl
  | cons e rest ih =>
    intro a prev hne hinv
    obtain ⟨t, r⟩ := e
    have ht : t ≠ 0 := hne (t, r) (List.mem_cons_self _ _)
    have hrest : ∀ e ∈ rest, e.1 ≠ 0 := fun e he => hne e (List.mem_cons_of_mem _ he)
    simp only [AudioDetector.vadRun, List.map_cons, edgeCalls]
    cases r <;> cases prev <;>
      by_cases h0 : a.voiceActiveStartTime = 0 <;>
      simp [h0] at hinv <;>
      simp only [AudioDetector.vadEvaluate, h0, if_true, if_false, Bool.false_eq_true,
        ne_eq, not_true_eq_false, not_false_eq_true, AUDIO_MAX_PACKETS_PER_SEC_HIGH,
        AUDIO_MAX_PACKETS_PER_SEC_LOW, reduceCtorEq] <;>
      (congr 1; apply ih _ _ hrest; simp [ht, h0])

theorem streamSamples_append (clk : BlockClock) (xs : List Int) (x : Int) :
    ∀ (a : AudioDetector) (log : List SchedulerCall),
      AudioDetector.streamSamples clk (xs ++ [x]) a log =
        (AudioDetector.streamSamples clk xs a log).bind
          (fun r => AudioDetector.streamSample clk x r.1 r.2) := by
  induction xs with
  | nil =>
    intro a log
    simp only [List.nil_append, AudioDetector.streamSamples, Option.some_bind]
    cases AudioDetector.streamSample clk x a log <;> rfl
  | cons y ys ih =>
    intro a log
    simp only [List.cons_append, AudioDetector.streamSamples]
    cases AudioDetector.streamSample clk y a log with
    | none => rfl
    | some r => exact ih r.1 r.2

theorem sqrt_square (n : Nat) : Int.sqrt ((n : Int) * n) = n := by
  unfold Int.sqrt
  have : ((n : Int) * n).toNat = n * n := by
    rw [← Int.natCast_mul]
    exact Int.toNat_natCast _
  rw [this, Nat.sqrt_eq]

theorem sumSquares_cons (x : Int) (xs : List Int) :
    sumSquares (x :: xs) = x * x + sumSquares xs := by
  simp [sumSquares]

theorem sumSquares_replicate (n : Nat) (x : Int) :
    sumSquares (List.replicate n x) = n * (x * x) := by
  simp [sumSquares, List.map_replicate, List.sum_replicate]

theorem wrap32_add_wrap32 (a b : Int) : wrap32 (wrap32 a + b) = wrap32 (a + b) := by
  unfold wrap32
  omega

theorem foldl_squares_wrap (xs : List Int) :
    ∀ acc : Int, xs.foldl (fun sum sample => wrap32 (sum + sample * sample)) (wrap32 acc) =
      wrap32 (acc + sumSquares xs) := by
  induction xs with
  | nil => intro acc; simp [sumSquares]
  | cons x rest ih =>
    intro acc
    rw [List.foldl_cons, wrap32_add_wrap32, ih, sumSquares_cons, add_assoc]

theorem calculateRMS_eq (xs : List Int) (hne : xs.length ≠ 0) :
    calculateRMS xs =
      wrap16 (Int.sqrt (wrap32 ((wrap32 (sumSquares xs) % 4294967296) / (xs.length : Int)))) := by
  have h0 : (0 : Int) = wrap32 0 := by decide
  have h := foldl_squares_wrap xs 0
  rw [← h0, zero_add] at h
  simp only [calculateRMS, hne, if_false, h]

theorem loud_window_rms : calculateRMS (List.replicate 256 2000) = 2000 := by
  rw [calculateRMS_eq _ (by rw [List.length_replicate]; decide), sumSquares_replicate,
    List.length_replicate]
  have hsq := sqrt_square 2000
  norm_num [wrap32, wrap16] at hsq ⊢

theorem calculateRMS_no_overflow (xs : List Int) (hne : xs.length ≠ 0)
    (hsum : sumSquares xs < 2147483648) (hmean : sumSquares xs / (xs.length : Int) < 1073741824) :
    calculateRMS xs = Int.sqrt (sumSquares xs / (xs.length : Int)) := by
  have hnn : 0 ≤ sumSquares xs := by
    unfold sumSquares
    apply List.sum_nonneg
    intro y hy
    obtain ⟨x, _, rfl⟩ := List.mem_map.mp hy
    exact mul_self_nonneg x
  have hlen : (0 : Int) < xs.length := by omega
  have hq0 : 0 ≤ sumSquares xs / (xs.length : Int) := Int.ediv_nonneg hnn (le_of_lt hlen)
  rw [calculateRMS_eq xs hne]
  have e1 : wrap32 (sumSquares xs) % 4294967296 = sumSquares xs := by
    unfold wrap32; omega
  rw [e1]
  have e2 : wrap32 (sumSquares xs / (xs.length : Int)) = sumSquares xs / (xs.length : Int) := by
    unfold wrap32; omega
  rw [e2]
  have hs : Int.sqrt (sumSquares xs / (xs.length : Int)) < 32768 := by
    unfold Int.sqrt
    have hlt : (sumSquares xs / (xs.length : Int)).toNat < 32768 * 32768 := by omega
    have := Nat.sqrt_lt.mpr hlt
    omega
  have hs0 : 0 ≤ Int.sqrt (sumSquares xs / (xs.length : Int)) := Int.sqrt_nonneg _
  unfold wrap16
  omega

set_option maxRecDepth 20000 in
theorem adaptiveOff_seven_reads :
    AudioDetector.readRun AudioDetector.adaptiveOffDetector
      (List.replicate 7 AudioDetector.loudRead) =
    some (AudioDetector.adaptiveOffAfterSevenReads, []) := by
  rfl

set_option maxRecDepth 20000 in
theorem adaptiveOff_eighth_read_first31 :
    AudioDetector.streamSamples AudioDetector.loudRead.2.2 (List.replicate 31 2000)
      AudioDetector.adaptiveOffAfterSevenReads [] =
    some (AudioDetector.adaptiveOffBeforeLastSample, []) := by
  rfl

set_option maxRecDepth 20000 in
theorem adaptiveOff_last_sample_buffer :
    (AudioDetector.adaptiveOffBeforeLastSample.streamBuffer.set
      AudioDetector.adaptiveOffBeforeLastSample.streamBufferIndex 2000).take STREAM_BUFFER_SIZE =
      List.replicate 256 2000 := by
  rfl

theorem adaptiveOff_eighth_read_eq :
    AudioDetector.readAudioSamples AudioDetector.adaptiveOffAfterSevenReads
      AudioDetector.loudRead.1 AudioDetector.loudRead.2.1 AudioDetector.loudRead.2.2 =
    AudioDetector.streamSamples AudioDetector.loudRead.2.2 (List.replicate 31 2000 ++ [2000])
      AudioDetector.adaptiveOffAfterSevenReads [] := by
  have h1 : AudioDetector.copyToAudioBuffer AudioDetector.loudRead.2.1
      AudioDetector.adaptiveOffAfterSevenReads = AudioDetector.adaptiveOffAfterSevenReads := rfl
  have h2 : (!AudioDetector.loudRead.1 || AudioDetector.loudRead.2.1.length == 0) = false := rfl
  have h3 : (AudioDetector.adaptiveOffAfterSevenReads.streamingEnabled &&
      AudioDetector.adaptiveOffAfterSevenReads.dataScheduler) = true := rfl
  have h4 : AudioDetector.loudRead.2.1 = List.replicate 31 2000 ++ [2000] := rfl
  unfold AudioDetector.readAudioSamples
  rw [h2]
  simp only [Bool.false_eq_true, if_false, h1, h3, if_true]
  rw [h4]

theorem readRun_append (rs : List (Bool × List Int × BlockClock))
    (r : Bool × List Int × BlockClock) :
    ∀ a : AudioDetector, AudioDetector.readRun a (rs ++ [r]) =
      (AudioDetector.readRun a rs).bind (fun x =>
        (AudioDetector.readAudioSamples x.1 r.1 r.2.1 r.2.2).bind (fun y =>
          some (y.1, x.2 ++ y.2))) := by
  induction rs with
  | nil =>
    intro a
    simp only [List.nil_append, AudioDetector.readRun, Option.some_bind]
    cases AudioDetector.readAudioSamples a r.1 r.2.1 r.2.2 with
    | none => rfl
    | some y =>
      obtain ⟨a1, l1⟩ := y
      simp
  | cons q qs ih =>
    intro a
    simp only [List.cons_append, AudioDetector.readRun]
    cases AudioDetector.readAudioSamples a q.1 q.2.1 q.2.2 with
    | none => rfl
    | some y =>
      obtain ⟨a1, l1⟩ := y
      simp only [List.append_eq, ih a1]
      cases AudioDetector.readRun a1 qs with
      | none => rfl
      | some z =>
        obtain ⟨a2, l2⟩ := z
        simp only [Option.some_bind]
        cases AudioDetector.readAudioSamples a2 r.1 r.2.1 r.2.2 with
        | none => rfl
        | some w =>
          obtain ⟨a3, l3⟩ := w
          simp [List.append_assoc]

theorem vadCheck_codec (a : AudioDetector) (t : Nat) :
    (AudioDetector.vadCheck a t).1.adpcmCodec = a.adpcmCodec := by
  unfold AudioDetector.vadCheck AudioDetector.vadEvaluate
  dsimp only
  split_ifs <;> rfl

theorem vadCheck_active (a : AudioDetector) (t : Nat)
    (hint : (t + UINT32_MOD - a.lastVADCheck) % UINT32_MOD ≥ VAD_CHECK_INTERVAL)
    (hdet : detectVoiceActivity (a.streamBuffer.take STREAM_BUFFER_SIZE) AUDIO_VAD_THRESHOLD = true)
    (h0 : a.voiceActiveStartTime = 0) :
    (AudioDetector.vadCheck a t).2 = [SchedulerCall.setAudioRateLimit 30] := by
  unfold AudioDetector.vadCheck
  rw [if_pos hint, hdet]
  unfold AudioDetector.vadEvaluate
  simp only [if_true, h0]
  rfl

theorem streamSample_block (clk : BlockClock) (x : Int) (a : AudioDetector)
    (log : List SchedulerCall) (hfull : a.streamBufferIndex + 1 ≥ STREAM_BUFFER_SIZE)
    (h0 : 0 ≤ a.adpcmCodec.encoderState.stepIndex)
    (h1 : a.adpcmCodec.encoderState.stepIndex ≤ 88) :
    ∃ a1 tail, AudioDetector.streamSample clk x a log =
      some (a1, log ++
        (AudioDetector.vadCheck
          { a with streamBuffer := a.streamBuffer.set a.streamBufferIndex x
                   streamBufferIndex := a.streamBufferIndex + 1 } clk.tVad).2 ++ tail) := by
  have hc := vadCheck_codec
    { a with streamBuffer := a.streamBuffer.set a.streamBufferIndex x
             streamBufferIndex := a.streamBufferIndex + 1 } clk.tVad
  obtain ⟨cs, c1, hcs, _⟩ := ADPCMCodec.codeSeq_total
    ((AudioDetector.vadCheck
      { a with streamBuffer := a.streamBuffer.set a.streamBufferIndex x
               streamBufferIndex := a.streamBufferIndex + 1 } clk.tVad).1.streamBuffer.take
      STREAM_BUFFER_SIZE)
    (AudioDetector.vadCheck
      { a with streamBuffer := a.streamBuffer.set a.streamBufferIndex x
               streamBufferIndex := a.streamBufferIndex + 1 } clk.tVad).1.adpcmCodec
    (by rw [hc]; exact h0) (by rw [hc]; exact h1)
  obtain ⟨n, out, he⟩ := ADPCMCodec.encode_eq_codeSeq _ _ cs c1 hcs
  simp only [AudioDetector.streamSample, hfull, if_true, he]
  exact ⟨_, _, rfl⟩

/-! ## Audio detector: voice-activity adaptation -/

/-- C24 fails on the code: the adaptation keeps its previous result in
`voiceActiveStartTime`, with 0 standing for inactive, and stores the clock
value there on activation. An active evaluation at clock value 0 (reached 296 ms
after an evaluation at 4294967000, the clock having wrapped) therefore leaves
the detector looking inactive: a following inactive evaluation makes no
`setAudioRateLimit 15` call, and a following active one repeats
`setAudioRateLimit 30`. In both runs every evaluation passes the 100 ms
interval test of `readAudioSamples`. -/
theorem vad_edge_missed_at_clock_zero :
    AudioDetector.vadRun AudioDetector.new [(4294967000, false), (0, true), (200, false)] =
      [[], [SchedulerCall.setAudioRateLimit 30], []] ∧
    edgeCalls false [false, true, false] =
      [[], [SchedulerCall.setAudioRateLimit 30], [SchedulerCall.setAudioRateLimit 15]] ∧
    AudioDetector.vadRun AudioDetector.new [(4294967000, false), (0, true), (200, true)] =
      [[], [SchedulerCall.setAudioRateLimit 30], [SchedulerCall.setAudioRateLimit 30]] ∧
    edgeCalls false [false, true, true] = [[], [SchedulerCall.setAudioRateLimit 30], []] ∧
    (4294967000 + UINT32_MOD - 0) % UINT32_MOD ≥ VAD_CHECK_INTERVAL ∧
    (0 + UINT32_MOD - 4294967000) % UINT32_MOD ≥ VAD_CHECK_INTERVAL ∧
    (200 + UINT32_MOD - 0) % UINT32_MOD ≥ VAD_CHECK_INTERVAL := by
  refine ⟨rfl, rfl, rfl, rfl, by decide, by decide, by decide⟩

/-- C25 fails on the code: `calculateRMS` accumulates the squares in an
`int32_t`. For the 256-sample window with every sample 4096 the exact sum is
`2^32`, the accumulator wraps to 0 and the function returns 0, so the window is
classified as not voice-active although `floor(sqrt(floor(S/n))) = 4096` is
above the threshold 1500. For the single sample -32768 the exact value 32768
does not fit the `int16_t` result, which is -32768. -/
theorem calculateRMS_wraps_on_loud_window :
    Int.sqrt (sumSquares (List.replicate 256 4096) / 256) = 4096 ∧
    calculateRMS (List.replicate 256 4096) = 0 ∧
    detectVoiceActivity (List.replicate 256 4096) AUDIO_VAD_THRESHOLD = false ∧
    Int.sqrt (sumSquares [-32768] / 1) = 32768 ∧
    calculateRMS [-32768] = -32768 ∧
    detectVoiceActivity [-32768] AUDIO_VAD_THRESHOLD = false := by
  have hs1 := sqrt_square 4096
  have hs2 := sqrt_square 32768
  have hlen : (List.replicate 256 (4096 : Int)).length ≠ 0 := by
    rw [List.length_replicate]; decide
  have r1 : calculateRMS (List.replicate 256 4096) = 0 := by
    rw [calculateRMS_eq _ hlen, sumSquares_replicate, List.length_replicate]
    norm_num [wrap32, wrap16]
  have r2 : calculateRMS [-32768] = -32768 := by
    rw [calculateRMS_eq _ (by decide)]
    norm_num [wrap32, wrap16, sumSquares] at hs2 ⊢
  refine ⟨?_, r1, ?_, ?_, r2, ?_⟩
  · rw [sumSquares_replicate]
    norm_num at hs1 ⊢
  · simp only [detectVoiceActivity, r1, AUDIO_VAD_THRESHOLD]
    decide
  · norm_num [sumSquares] at hs2 ⊢
  · simp only [detectVoiceActivity, r2, AUDIO_VAD_THRESHOLD]
    decide

/-- C29 fails on the code: `readAudioSamples` never reads `adaptiveRateEnabled`.
A detector that was begun, wired to a scheduler, set to stream and then given
`setAdaptiveRate(false)` is fed eight reads of 32 samples of value 2000; the
eighth read completes the 256-sample block at clock value 1000, the window is
voice-active, and the call log contains `setAudioRateLimit 30`. -/
theorem adaptive_rate_flag_ignored :
    AudioDetector.adaptiveOffDetector.adaptiveRateEnabled = false ∧
    ∃ a1 log,
      AudioDetector.readRun AudioDetector.adaptiveOffDetector
        (List.replicate 8 AudioDetector.loudRead) = some (a1, log) ∧
      SchedulerCall.setAudioRateLimit 30 ∈ log := by
  refine ⟨rfl, ?_⟩
  have h8 : List.replicate 8 AudioDetector.loudRead =
      List.replicate 7 AudioDetector.loudRead ++ [AudioDetector.loudRead] := rfl
  obtain ⟨a1, tail, hst⟩ := streamSample_block AudioDetector.loudRead.2.2 2000
    AudioDetector.adaptiveOffBeforeLastSample [] (by decide) (by decide) (by decide)
  have hdet : detectVoiceActivity (List.replicate 256 2000) AUDIO_VAD_THRESHOLD = true := by
    simp only [detectVoiceActivity, loud_window_rms, AUDIO_VAD_THRESHOLD]
    decide
  have hvad : (AudioDetector.vadCheck
      { AudioDetector.adaptiveOffBeforeLastSample with
        streamBuffer := AudioDetector.adaptiveOffBeforeLastSample.streamBuffer.set
          AudioDetector.adaptiveOffBeforeLastSample.streamBufferIndex 2000
        streamBufferIndex := AudioDetector.adaptiveOffBeforeLastSample.streamBufferIndex + 1 }
      AudioDetector.loudRead.2.2.tVad).2 = [SchedulerCall.setAudioRateLimit 30] := by
    apply vadCheck_active
    · decide
    · show detectVoiceActivity
        ((AudioDetector.adaptiveOffBeforeLastSample.streamBuffer.set
          AudioDetector.adaptiveOffBeforeLastSample.streamBufferIndex 2000).take
          STREAM_BUFFER_SIZE) AUDIO_VAD_THRESHOLD = true
      rw [adaptiveOff_last_sample_buffer]
      exact hdet
    · rfl
  rw [hvad] at hst
  rw [h8, readRun_append, adaptiveOff_seven_reads, Option.some_bind, adaptiveOff_eighth_read_eq,
    streamSamples_append, adaptiveOff_eighth_read_first31, Option.some_bind, hst,
    Option.some_bind]
  exact ⟨_, _, rfl, List.mem_append_right _
    (List.mem_append_left _ (List.mem_append_right _ (List.mem_singleton.mpr rfl)))⟩

end Beacon
